import Mathlib

/-!
Verification of the steamgame_crawling repository's crawl-and-sync pipeline.

The development shallowly embeds the persistence engine
(`src/database/inserter.py`), the two resilient fetch clients
(`src/single_game_crawler_minimal.py`, `src/fetch_steam_game_data.py`) and the
orchestrator's per-ID classification step (`src/run_save_all_games.py`) as pure
Lean functions over an explicit database state, and proves or refutes the
specification's claims about them.

Modelling conventions:
- SQLAlchemy tables are lists of row structures; a write counter in the state
  counts every row inserted, updated or deleted.
- Python dict lookups with falsy defaults become `Option`/default fields;
  Python truthiness of `0`/`None`/`""`/empty containers is modelled explicitly.
- `datetime.now()` is an explicit `now : Nat` parameter; timestamps are `Nat`.
- The HTML-to-text and date-parsing helpers (`convert_detailed_description`,
  `convert_system_requirements`, `parse_steam_release_date`) are pure
  data-shaping functions whose content is irrelevant to every claim; they are
  abstracted as a `Converters` record of arbitrary pure functions.
- Database-level exceptions (the only unhandled-exception source inside the
  inserter's `try` blocks) are modelled by a fault oracle `faults : List Nat`:
  a session operation touching a game whose id is in `faults` raises, which the
  surrounding `except` handler of the source converts to a `False`/failure
  result exactly as the Python code does.
-/

set_option maxRecDepth 2000

namespace SteamGameCrawling

/-- Python string slicing `s[:n]`: the first `n` characters. (Defined over the
character list; `String.take` itself reduces badly on symbolic strings.) -/
def strTake (n : Nat) (s : String) : String := ⟨s.data.take n⟩

/-- A whitespace character as Python's `str.strip` removes it. -/
def isSpaceChar (c : Char) : Bool :=
  c.toNat = 32 || c.toNat = 9 || c.toNat = 10 || c.toNat = 13 || c.toNat = 11 || c.toNat = 12

/-- Python `s.strip()`: drop leading and trailing whitespace. (Defined over
the character list; `String.trim` reduces badly.) -/
def strTrim (s : String) : String :=
  ⟨((s.data.dropWhile isSpaceChar).reverse.dropWhile isSpaceChar).reverse⟩

/-- Row of the `games` table, with the columns the inserter reads and writes
(`app_id`, `title`, `description`, `detailed_description`, `release_date`,
`developer`, `publisher`, `header_image_url`, system requirement texts,
`metacritic_score`, `updated_at`). -/
structure GameRow where
  app_id : Nat
  title : String := ""
  description : String := ""
  detailed_description : String := ""
  release_date : Option Nat := none
  developer : Option String := none
  publisher : Option String := none
  header_image_url : Option String := none
  system_requirements_minimum : Option String := none
  system_requirements_recommended : Option String := none
  metacritic_score : Option Int := none
  updated_at : Option Nat := none
  deriving Repr, DecidableEq

/-- Row of the `game_genres` table. -/
structure GenreRow where
  app_id : Nat
  genre_name : String
  deriving Repr, DecidableEq

/-- Row of the `game_tags` table. -/
structure TagRow where
  app_id : Nat
  tag_name : String
  tag_order : Nat
  deriving Repr, DecidableEq

/-- Row of the `game_pricing` table. -/
structure PricingRow where
  app_id : Nat
  current_price : Option String := none
  original_price : Option String := none
  discount_percent : Option Int := none
  is_free : Bool := false
  updated_at : Nat := 0
  deriving Repr, DecidableEq

/-- Row of the `game_reviews` table. -/
structure ReviewRow where
  app_id : Nat
  recent_reviews : Option String := none
  all_reviews : Option String := none
  recent_review_count : Option String := none
  total_review_count : Option String := none
  recent_positive_percent : Option Int := none
  total_positive_percent : Option Int := none
  updated_at : Nat := 0
  deriving Repr, DecidableEq

/-- The persistent store: the five tables written by the synchronizer plus a
counter of rows inserted, updated or deleted (used to state the zero-write
idempotence property). -/
structure Db where
  games : List GameRow := []
  genres : List GenreRow := []
  tags : List TagRow := []
  pricing : List PricingRow := []
  reviews : List ReviewRow := []
  writes : Nat := 0
  deriving Repr, DecidableEq

def Db.empty : Db := {}

/-- Reset the write counter (used to measure the writes of a single run). -/
def Db.resetWrites (db : Db) : Db := { db with writes := 0 }

/-- Model of `session.query(Game).filter_by(app_id=...).first()`. -/
def Db.findGame (db : Db) (a : Nat) : Option GameRow :=
  db.games.find? (fun g => g.app_id == a)

/-- Model of the set-membership existence check
`select(Game.app_id).where(Game.app_id.in_(app_ids))`. -/
def Db.hasGame (db : Db) (a : Nat) : Bool :=
  db.games.any (fun g => g.app_id == a)

/-- Insert one game row (one write). -/
def Db.addGameRow (db : Db) (g : GameRow) : Db :=
  { db with games := db.games ++ [g], writes := db.writes + 1 }

/-- Replace the first game row with the given row's `app_id` (the ORM updates
the single object returned by `.first()`); one write. -/
def replaceFirstGame : List GameRow → GameRow → List GameRow
  | [], _ => []
  | x :: xs, g => if x.app_id == g.app_id then g :: xs else x :: replaceFirstGame xs g

def Db.setGameRow (db : Db) (g : GameRow) : Db :=
  { db with games := replaceFirstGame db.games g, writes := db.writes + 1 }

/-- Delete the genre rows of `a` whose names are in `names`
(`GameGenre ... .in_(genres_to_delete).delete()`); one write per deleted row. -/
def Db.deleteGenres (db : Db) (a : Nat) (names : List String) : Db :=
  let removed := db.genres.filter (fun gr => gr.app_id == a && names.contains gr.genre_name)
  { db with
    genres := db.genres.filter (fun gr => !(gr.app_id == a && names.contains gr.genre_name)),
    writes := db.writes + removed.length }

def Db.addGenre (db : Db) (a : Nat) (name : String) : Db :=
  { db with genres := db.genres ++ [{ app_id := a, genre_name := name }], writes := db.writes + 1 }

/-- Delete every tag row of `a` (`query(GameTag).filter_by(app_id=...).delete()`). -/
def Db.deleteAllTags (db : Db) (a : Nat) : Db :=
  let removed := db.tags.filter (fun t => t.app_id == a)
  { db with
    tags := db.tags.filter (fun t => !(t.app_id == a)),
    writes := db.writes + removed.length }

def Db.addTag (db : Db) (t : TagRow) : Db :=
  { db with tags := db.tags ++ [t], writes := db.writes + 1 }

def Db.findPricing (db : Db) (a : Nat) : Option PricingRow :=
  db.pricing.find? (fun p => p.app_id == a)

def replaceFirstPricing : List PricingRow → PricingRow → List PricingRow
  | [], _ => []
  | x :: xs, p => if x.app_id == p.app_id then p :: xs else x :: replaceFirstPricing xs p

def Db.setPricing (db : Db) (p : PricingRow) : Db :=
  { db with pricing := replaceFirstPricing db.pricing p, writes := db.writes + 1 }

def Db.addPricing (db : Db) (p : PricingRow) : Db :=
  { db with pricing := db.pricing ++ [p], writes := db.writes + 1 }

def Db.findReview (db : Db) (a : Nat) : Option ReviewRow :=
  db.reviews.find? (fun r => r.app_id == a)

def replaceFirstReview : List ReviewRow → ReviewRow → List ReviewRow
  | [], _ => []
  | x :: xs, r => if x.app_id == r.app_id then r :: xs else x :: replaceFirstReview xs r

def Db.setReview (db : Db) (r : ReviewRow) : Db :=
  { db with reviews := replaceFirstReview db.reviews r, writes := db.writes + 1 }

def Db.addReview (db : Db) (r : ReviewRow) : Db :=
  { db with reviews := db.reviews ++ [r], writes := db.writes + 1 }

/-- Referential integrity of the store as the schema's foreign keys enforce it:
every child row points at an existing game row. -/
def Db.WF (db : Db) : Prop :=
  (∀ gr ∈ db.genres, db.hasGame gr.app_id) ∧
  (∀ t ∈ db.tags, db.hasGame t.app_id) ∧
  (∀ p ∈ db.pricing, db.hasGame p.app_id) ∧
  (∀ r ∈ db.reviews, db.hasGame r.app_id)

instance (db : Db) : Decidable db.WF := by
  unfold Db.WF; infer_instance

/-! ## Canonical records of the structured (Steam API) source

An `ApiRecord` is the raw payload dict of one game as the inserter reads it;
each field mirrors one `steam_data.get(...)` access, with the dict's default.
`dict_empty` models the Python truthiness test `if not steam_data`. -/

structure ApiRecord where
  steam_appid : Option Nat := none
  id : Option Nat := none
  name : String := ""
  short_description : String := ""
  detailed_description : String := ""
  release_date_date : String := ""
  developers : List String := []
  publishers : List String := []
  header_image : String := ""
  pc_requirements_minimum : String := ""
  pc_requirements_recommended : String := ""
  metacritic : Option (Option Int) := none
  genres : List String := []
  type : String := ""
  dict_empty : Bool := false
  deriving Repr, DecidableEq

/-- The pure but content-irrelevant text converters of the inserter
(`convert_detailed_description`, `convert_system_requirements`,
`parse_steam_release_date`); the claims depend only on their determinism, so
they are abstracted. -/
structure Converters where
  convert_detailed_description : String → String
  convert_system_requirements : String → String
  parse_steam_release_date : String → Option Nat

/-- Trivial converter instance used to evaluate concrete scenarios. -/
def idConverters : Converters :=
  { convert_detailed_description := fun s => s
    convert_system_requirements := fun s => s
    parse_steam_release_date := fun _ => none }

/-- Python truthiness of an optional integer (`None` and `0` are falsy). -/
def truthyNat : Option Nat → Bool
  | none => false
  | some n => n != 0

/-- Model of `steam_data.get('steam_appid') or steam_data.get('id')` followed
by the `if not app_id` guard: `none` means the guard fires. -/
def appIdOf (r : ApiRecord) : Option Nat :=
  let v := if truthyNat r.steam_appid then r.steam_appid else r.id
  if truthyNat v then v else none

/-- Model of `', '.join(developers)[:255] if developers else None`. -/
def joined255 (l : List String) : Option String :=
  if l.isEmpty then none else some (strTake 255 (String.intercalate ", " l))

def api_title (r : ApiRecord) : String := strTake 255 r.name

def api_developer (r : ApiRecord) : Option String := joined255 r.developers

def api_publisher (r : ApiRecord) : Option String := joined255 r.publishers

/-- Model of `steam_data.get('header_image', '')[:500] if steam_data.get('header_image') else None`. -/
def api_header_image (r : ApiRecord) : Option String :=
  if r.header_image.isEmpty then none else some (strTake 500 r.header_image)

def api_detailed_description (cv : Converters) (r : ApiRecord) : String :=
  cv.convert_detailed_description r.detailed_description

def api_release_date (cv : Converters) (r : ApiRecord) : Option Nat :=
  cv.parse_steam_release_date r.release_date_date

/-- Model of `convert_system_requirements(raw) if raw else None`. -/
def api_sysreq_min (cv : Converters) (r : ApiRecord) : Option String :=
  if r.pc_requirements_minimum.isEmpty then none
  else some (cv.convert_system_requirements r.pc_requirements_minimum)

def api_sysreq_rec (cv : Converters) (r : ApiRecord) : Option String :=
  if r.pc_requirements_recommended.isEmpty then none
  else some (cv.convert_system_requirements r.pc_requirements_recommended)

/-- Model of `metacritic.get('score') if metacritic else None`. -/
def api_metacritic (r : ApiRecord) : Option Int :=
  match r.metacritic with
  | none => none
  | some v => v

/-- Stored genre-name snapshot of one game
(`{g.genre_name for g in query(GameGenre).filter_by(app_id=...)}`). -/
def existingGenreNames (db : Db) (app_id : Nat) : List String :=
  (((db.genres.filter (fun gr => gr.app_id == app_id)).map (fun gr => gr.genre_name))).dedup

/-- Incoming genre-name set
(`{d.get('description', '') for d in genres_data if d.get('description')}`). -/
def newGenreNames (genres_data : List String) : List String :=
  (genres_data.filter (fun s => !s.isEmpty)).dedup

/-- The names to delete: stored minus incoming (`existing_genres - new_genres`). -/
def genres_to_delete (db : Db) (app_id : Nat) (genres_data : List String) : List String :=
  (existingGenreNames db app_id).filter
    (fun s => !((newGenreNames genres_data).contains s))

/-- The names to insert: incoming minus stored (`new_genres - existing_genres`). -/
def genres_to_add (db : Db) (app_id : Nat) (genres_data : List String) : List String :=
  (newGenreNames genres_data).filter
    (fun s => !((existingGenreNames db app_id).contains s))

/-- Genre update of `GameInserter._update_genres`: snapshot both name sets,
delete `existing - new` (guarded by `if genres_to_delete:`), insert
`new - existing` truncated to 50 chars (guarded by `if genre_name:`). -/
def update_genres (db : Db) (app_id : Nat) (genres_data : List String) : Db :=
  (genres_to_add db app_id genres_data).foldl
    (fun d name => if !name.isEmpty then d.addGenre app_id (strTake 50 name) else d)
    (if (genres_to_delete db app_id genres_data).isEmpty then db
     else db.deleteGenres app_id (genres_to_delete db app_id genres_data))

/-! ### Named field overwrites of a game row and their projections -/

def GameRow.setTitle (v : String) (g : GameRow) : GameRow := { g with title := v }

def GameRow.setDescription (v : String) (g : GameRow) : GameRow := { g with description := v }

def GameRow.setDetailedDescription (v : String) (g : GameRow) : GameRow := { g with detailed_description := v }

def GameRow.setReleaseDate (v : Option Nat) (g : GameRow) : GameRow := { g with release_date := v }

def GameRow.setDeveloper (v : Option String) (g : GameRow) : GameRow := { g with developer := v }

def GameRow.setPublisher (v : Option String) (g : GameRow) : GameRow := { g with publisher := v }

def GameRow.setHeaderImageUrl (v : Option String) (g : GameRow) : GameRow := { g with header_image_url := v }

def GameRow.setSysreqMin (v : Option String) (g : GameRow) : GameRow := { g with system_requirements_minimum := v }

def GameRow.setSysreqRec (v : Option String) (g : GameRow) : GameRow := { g with system_requirements_recommended := v }

def GameRow.setMetacriticScore (v : Option Int) (g : GameRow) : GameRow := { g with metacritic_score := v }

def GameRow.setUpdatedAt (v : Option Nat) (g : GameRow) : GameRow := { g with updated_at := v }


@[simp] theorem GameRow.app_id_setTitle (v : String) (g : GameRow) :
    (GameRow.setTitle v g).app_id = g.app_id := rfl

@[simp] theorem GameRow.title_setTitle (v : String) (g : GameRow) :
    (GameRow.setTitle v g).title = v := rfl

@[simp] theorem GameRow.description_setTitle (v : String) (g : GameRow) :
    (GameRow.setTitle v g).description = g.description := rfl

@[simp] theorem GameRow.detailed_description_setTitle (v : String) (g : GameRow) :
    (GameRow.setTitle v g).detailed_description = g.detailed_description := rfl

@[simp] theorem GameRow.release_date_setTitle (v : String) (g : GameRow) :
    (GameRow.setTitle v g).release_date = g.release_date := rfl

@[simp] theorem GameRow.developer_setTitle (v : String) (g : GameRow) :
    (GameRow.setTitle v g).developer = g.developer := rfl

@[simp] theorem GameRow.publisher_setTitle (v : String) (g : GameRow) :
    (GameRow.setTitle v g).publisher = g.publisher := rfl

@[simp] theorem GameRow.header_image_url_setTitle (v : String) (g : GameRow) :
    (GameRow.setTitle v g).header_image_url = g.header_image_url := rfl

@[simp] theorem GameRow.system_requirements_minimum_setTitle (v : String) (g : GameRow) :
    (GameRow.setTitle v g).system_requirements_minimum = g.system_requirements_minimum := rfl

@[simp] theorem GameRow.system_requirements_recommended_setTitle (v : String) (g : GameRow) :
    (GameRow.setTitle v g).system_requirements_recommended = g.system_requirements_recommended := rfl

@[simp] theorem GameRow.metacritic_score_setTitle (v : String) (g : GameRow) :
    (GameRow.setTitle v g).metacritic_score = g.metacritic_score := rfl

@[simp] theorem GameRow.updated_at_setTitle (v : String) (g : GameRow) :
    (GameRow.setTitle v g).updated_at = g.updated_at := rfl

@[simp] theorem GameRow.app_id_setDescription (v : String) (g : GameRow) :
    (GameRow.setDescription v g).app_id = g.app_id := rfl

@[simp] theorem GameRow.title_setDescription (v : String) (g : GameRow) :
    (GameRow.setDescription v g).title = g.title := rfl

@[simp] theorem GameRow.description_setDescription (v : String) (g : GameRow) :
    (GameRow.setDescription v g).description = v := rfl

@[simp] theorem GameRow.detailed_description_setDescription (v : String) (g : GameRow) :
    (GameRow.setDescription v g).detailed_description = g.detailed_description := rfl

@[simp] theorem GameRow.release_date_setDescription (v : String) (g : GameRow) :
    (GameRow.setDescription v g).release_date = g.release_date := rfl

@[simp] theorem GameRow.developer_setDescription (v : String) (g : GameRow) :
    (GameRow.setDescription v g).developer = g.developer := rfl

@[simp] theorem GameRow.publisher_setDescription (v : String) (g : GameRow) :
    (GameRow.setDescription v g).publisher = g.publisher := rfl

@[simp] theorem GameRow.header_image_url_setDescription (v : String) (g : GameRow) :
    (GameRow.setDescription v g).header_image_url = g.header_image_url := rfl

@[simp] theorem GameRow.system_requirements_minimum_setDescription (v : String) (g : GameRow) :
    (GameRow.setDescription v g).system_requirements_minimum = g.system_requirements_minimum := rfl

@[simp] theorem GameRow.system_requirements_recommended_setDescription (v : String) (g : GameRow) :
    (GameRow.setDescription v g).system_requirements_recommended = g.system_requirements_recommended := rfl

@[simp] theorem GameRow.metacritic_score_setDescription (v : String) (g : GameRow) :
    (GameRow.setDescription v g).metacritic_score = g.metacritic_score := rfl

@[simp] theorem GameRow.updated_at_setDescription (v : String) (g : GameRow) :
    (GameRow.setDescription v g).updated_at = g.updated_at := rfl

@[simp] theorem GameRow.app_id_setDetailedDescription (v : String) (g : GameRow) :
    (GameRow.setDetailedDescription v g).app_id = g.app_id := rfl

@[simp] theorem GameRow.title_setDetailedDescription (v : String) (g : GameRow) :
    (GameRow.setDetailedDescription v g).title = g.title := rfl

@[simp] theorem GameRow.description_setDetailedDescription (v : String) (g : GameRow) :
    (GameRow.setDetailedDescription v g).description = g.description := rfl

@[simp] theorem GameRow.detailed_description_setDetailedDescription (v : String) (g : GameRow) :
    (GameRow.setDetailedDescription v g).detailed_description = v := rfl

@[simp] theorem GameRow.release_date_setDetailedDescription (v : String) (g : GameRow) :
    (GameRow.setDetailedDescription v g).release_date = g.release_date := rfl

@[simp] theorem GameRow.developer_setDetailedDescription (v : String) (g : GameRow) :
    (GameRow.setDetailedDescription v g).developer = g.developer := rfl

@[simp] theorem GameRow.publisher_setDetailedDescription (v : String) (g : GameRow) :
    (GameRow.setDetailedDescription v g).publisher = g.publisher := rfl

@[simp] theorem GameRow.header_image_url_setDetailedDescription (v : String) (g : GameRow) :
    (GameRow.setDetailedDescription v g).header_image_url = g.header_image_url := rfl

@[simp] theorem GameRow.system_requirements_minimum_setDetailedDescription (v : String) (g : GameRow) :
    (GameRow.setDetailedDescription v g).system_requirements_minimum = g.system_requirements_minimum := rfl

@[simp] theorem GameRow.system_requirements_recommended_setDetailedDescription (v : String) (g : GameRow) :
    (GameRow.setDetailedDescription v g).system_requirements_recommended = g.system_requirements_recommended := rfl

@[simp] theorem GameRow.metacritic_score_setDetailedDescription (v : String) (g : GameRow) :
    (GameRow.setDetailedDescription v g).metacritic_score = g.metacritic_score := rfl

@[simp] theorem GameRow.updated_at_setDetailedDescription (v : String) (g : GameRow) :
    (GameRow.setDetailedDescription v g).updated_at = g.updated_at := rfl

@[simp] theorem GameRow.app_id_setReleaseDate (v : Option Nat) (g : GameRow) :
    (GameRow.setReleaseDate v g).app_id = g.app_id := rfl

@[simp] theorem GameRow.title_setReleaseDate (v : Option Nat) (g : GameRow) :
    (GameRow.setReleaseDate v g).title = g.title := rfl

@[simp] theorem GameRow.description_setReleaseDate (v : Option Nat) (g : GameRow) :
    (GameRow.setReleaseDate v g).description = g.description := rfl

@[simp] theorem GameRow.detailed_description_setReleaseDate (v : Option Nat) (g : GameRow) :
    (GameRow.setReleaseDate v g).detailed_description = g.detailed_description := rfl

@[simp] theorem GameRow.release_date_setReleaseDate (v : Option Nat) (g : GameRow) :
    (GameRow.setReleaseDate v g).release_date = v := rfl

@[simp] theorem GameRow.developer_setReleaseDate (v : Option Nat) (g : GameRow) :
    (GameRow.setReleaseDate v g).developer = g.developer := rfl

@[simp] theorem GameRow.publisher_setReleaseDate (v : Option Nat) (g : GameRow) :
    (GameRow.setReleaseDate v g).publisher = g.publisher := rfl

@[simp] theorem GameRow.header_image_url_setReleaseDate (v : Option Nat) (g : GameRow) :
    (GameRow.setReleaseDate v g).header_image_url = g.header_image_url := rfl

@[simp] theorem GameRow.system_requirements_minimum_setReleaseDate (v : Option Nat) (g : GameRow) :
    (GameRow.setReleaseDate v g).system_requirements_minimum = g.system_requirements_minimum := rfl

@[simp] theorem GameRow.system_requirements_recommended_setReleaseDate (v : Option Nat) (g : GameRow) :
    (GameRow.setReleaseDate v g).system_requirements_recommended = g.system_requirements_recommended := rfl

@[simp] theorem GameRow.metacritic_score_setReleaseDate (v : Option Nat) (g : GameRow) :
    (GameRow.setReleaseDate v g).metacritic_score = g.metacritic_score := rfl

@[simp] theorem GameRow.updated_at_setReleaseDate (v : Option Nat) (g : GameRow) :
    (GameRow.setReleaseDate v g).updated_at = g.updated_at := rfl

@[simp] theorem GameRow.app_id_setDeveloper (v : Option String) (g : GameRow) :
    (GameRow.setDeveloper v g).app_id = g.app_id := rfl

@[simp] theorem GameRow.title_setDeveloper (v : Option String) (g : GameRow) :
    (GameRow.setDeveloper v g).title = g.title := rfl

@[simp] theorem GameRow.description_setDeveloper (v : Option String) (g : GameRow) :
    (GameRow.setDeveloper v g).description = g.description := rfl

@[simp] theorem GameRow.detailed_description_setDeveloper (v : Option String) (g : GameRow) :
    (GameRow.setDeveloper v g).detailed_description = g.detailed_description := rfl

@[simp] theorem GameRow.release_date_setDeveloper (v : Option String) (g : GameRow) :
    (GameRow.setDeveloper v g).release_date = g.release_date := rfl

@[simp] theorem GameRow.developer_setDeveloper (v : Option String) (g : GameRow) :
    (GameRow.setDeveloper v g).developer = v := rfl

@[simp] theorem GameRow.publisher_setDeveloper (v : Option String) (g : GameRow) :
    (GameRow.setDeveloper v g).publisher = g.publisher := rfl

@[simp] theorem GameRow.header_image_url_setDeveloper (v : Option String) (g : GameRow) :
    (GameRow.setDeveloper v g).header_image_url = g.header_image_url := rfl

@[simp] theorem GameRow.system_requirements_minimum_setDeveloper (v : Option String) (g : GameRow) :
    (GameRow.setDeveloper v g).system_requirements_minimum = g.system_requirements_minimum := rfl

@[simp] theorem GameRow.system_requirements_recommended_setDeveloper (v : Option String) (g : GameRow) :
    (GameRow.setDeveloper v g).system_requirements_recommended = g.system_requirements_recommended := rfl

@[simp] theorem GameRow.metacritic_score_setDeveloper (v : Option String) (g : GameRow) :
    (GameRow.setDeveloper v g).metacritic_score = g.metacritic_score := rfl

@[simp] theorem GameRow.updated_at_setDeveloper (v : Option String) (g : GameRow) :
    (GameRow.setDeveloper v g).updated_at = g.updated_at := rfl

@[simp] theorem GameRow.app_id_setPublisher (v : Option String) (g : GameRow) :
    (GameRow.setPublisher v g).app_id = g.app_id := rfl

@[simp] theorem GameRow.title_setPublisher (v : Option String) (g : GameRow) :
    (GameRow.setPublisher v g).title = g.title := rfl

@[simp] theorem GameRow.description_setPublisher (v : Option String) (g : GameRow) :
    (GameRow.setPublisher v g).description = g.description := rfl

@[simp] theorem GameRow.detailed_description_setPublisher (v : Option String) (g : GameRow) :
    (GameRow.setPublisher v g).detailed_description = g.detailed_description := rfl

@[simp] theorem GameRow.release_date_setPublisher (v : Option String) (g : GameRow) :
    (GameRow.setPublisher v g).release_date = g.release_date := rfl

@[simp] theorem GameRow.developer_setPublisher (v : Option String) (g : GameRow) :
    (GameRow.setPublisher v g).developer = g.developer := rfl

@[simp] theorem GameRow.publisher_setPublisher (v : Option String) (g : GameRow) :
    (GameRow.setPublisher v g).publisher = v := rfl

@[simp] theorem GameRow.header_image_url_setPublisher (v : Option String) (g : GameRow) :
    (GameRow.setPublisher v g).header_image_url = g.header_image_url := rfl

@[simp] theorem GameRow.system_requirements_minimum_setPublisher (v : Option String) (g : GameRow) :
    (GameRow.setPublisher v g).system_requirements_minimum = g.system_requirements_minimum := rfl

@[simp] theorem GameRow.system_requirements_recommended_setPublisher (v : Option String) (g : GameRow) :
    (GameRow.setPublisher v g).system_requirements_recommended = g.system_requirements_recommended := rfl

@[simp] theorem GameRow.metacritic_score_setPublisher (v : Option String) (g : GameRow) :
    (GameRow.setPublisher v g).metacritic_score = g.metacritic_score := rfl

@[simp] theorem GameRow.updated_at_setPublisher (v : Option String) (g : GameRow) :
    (GameRow.setPublisher v g).updated_at = g.updated_at := rfl

@[simp] theorem GameRow.app_id_setHeaderImageUrl (v : Option String) (g : GameRow) :
    (GameRow.setHeaderImageUrl v g).app_id = g.app_id := rfl

@[simp] theorem GameRow.title_setHeaderImageUrl (v : Option String) (g : GameRow) :
    (GameRow.setHeaderImageUrl v g).title = g.title := rfl

@[simp] theorem GameRow.description_setHeaderImageUrl (v : Option String) (g : GameRow) :
    (GameRow.setHeaderImageUrl v g).description = g.description := rfl

@[simp] theorem GameRow.detailed_description_setHeaderImageUrl (v : Option String) (g : GameRow) :
    (GameRow.setHeaderImageUrl v g).detailed_description = g.detailed_description := rfl

@[simp] theorem GameRow.release_date_setHeaderImageUrl (v : Option String) (g : GameRow) :
    (GameRow.setHeaderImageUrl v g).release_date = g.release_date := rfl

@[simp] theorem GameRow.developer_setHeaderImageUrl (v : Option String) (g : GameRow) :
    (GameRow.setHeaderImageUrl v g).developer = g.developer := rfl

@[simp] theorem GameRow.publisher_setHeaderImageUrl (v : Option String) (g : GameRow) :
    (GameRow.setHeaderImageUrl v g).publisher = g.publisher := rfl

@[simp] theorem GameRow.header_image_url_setHeaderImageUrl (v : Option String) (g : GameRow) :
    (GameRow.setHeaderImageUrl v g).header_image_url = v := rfl

@[simp] theorem GameRow.system_requirements_minimum_setHeaderImageUrl (v : Option String) (g : GameRow) :
    (GameRow.setHeaderImageUrl v g).system_requirements_minimum = g.system_requirements_minimum := rfl

@[simp] theorem GameRow.system_requirements_recommended_setHeaderImageUrl (v : Option String) (g : GameRow) :
    (GameRow.setHeaderImageUrl v g).system_requirements_recommended = g.system_requirements_recommended := rfl

@[simp] theorem GameRow.metacritic_score_setHeaderImageUrl (v : Option String) (g : GameRow) :
    (GameRow.setHeaderImageUrl v g).metacritic_score = g.metacritic_score := rfl

@[simp] theorem GameRow.updated_at_setHeaderImageUrl (v : Option String) (g : GameRow) :
    (GameRow.setHeaderImageUrl v g).updated_at = g.updated_at := rfl

@[simp] theorem GameRow.app_id_setSysreqMin (v : Option String) (g : GameRow) :
    (GameRow.setSysreqMin v g).app_id = g.app_id := rfl

@[simp] theorem GameRow.title_setSysreqMin (v : Option String) (g : GameRow) :
    (GameRow.setSysreqMin v g).title = g.title := rfl

@[simp] theorem GameRow.description_setSysreqMin (v : Option String) (g : GameRow) :
    (GameRow.setSysreqMin v g).description = g.description := rfl

@[simp] theorem GameRow.detailed_description_setSysreqMin (v : Option String) (g : GameRow) :
    (GameRow.setSysreqMin v g).detailed_description = g.detailed_description := rfl

@[simp] theorem GameRow.release_date_setSysreqMin (v : Option String) (g : GameRow) :
    (GameRow.setSysreqMin v g).release_date = g.release_date := rfl

@[simp] theorem GameRow.developer_setSysreqMin (v : Option String) (g : GameRow) :
    (GameRow.setSysreqMin v g).developer = g.developer := rfl

@[simp] theorem GameRow.publisher_setSysreqMin (v : Option String) (g : GameRow) :
    (GameRow.setSysreqMin v g).publisher = g.publisher := rfl

@[simp] theorem GameRow.header_image_url_setSysreqMin (v : Option String) (g : GameRow) :
    (GameRow.setSysreqMin v g).header_image_url = g.header_image_url := rfl

@[simp] theorem GameRow.system_requirements_minimum_setSysreqMin (v : Option String) (g : GameRow) :
    (GameRow.setSysreqMin v g).system_requirements_minimum = v := rfl

@[simp] theorem GameRow.system_requirements_recommended_setSysreqMin (v : Option String) (g : GameRow) :
    (GameRow.setSysreqMin v g).system_requirements_recommended = g.system_requirements_recommended := rfl

@[simp] theorem GameRow.metacritic_score_setSysreqMin (v : Option String) (g : GameRow) :
    (GameRow.setSysreqMin v g).metacritic_score = g.metacritic_score := rfl

@[simp] theorem GameRow.updated_at_setSysreqMin (v : Option String) (g : GameRow) :
    (GameRow.setSysreqMin v g).updated_at = g.updated_at := rfl

@[simp] theorem GameRow.app_id_setSysreqRec (v : Option String) (g : GameRow) :
    (GameRow.setSysreqRec v g).app_id = g.app_id := rfl

@[simp] theorem GameRow.title_setSysreqRec (v : Option String) (g : GameRow) :
    (GameRow.setSysreqRec v g).title = g.title := rfl

@[simp] theorem GameRow.description_setSysreqRec (v : Option String) (g : GameRow) :
    (GameRow.setSysreqRec v g).description = g.description := rfl

@[simp] theorem GameRow.detailed_description_setSysreqRec (v : Option String) (g : GameRow) :
    (GameRow.setSysreqRec v g).detailed_description = g.detailed_description := rfl

@[simp] theorem GameRow.release_date_setSysreqRec (v : Option String) (g : GameRow) :
    (GameRow.setSysreqRec v g).release_date = g.release_date := rfl

@[simp] theorem GameRow.developer_setSysreqRec (v : Option String) (g : GameRow) :
    (GameRow.setSysreqRec v g).developer = g.developer := rfl

@[simp] theorem GameRow.publisher_setSysreqRec (v : Option String) (g : GameRow) :
    (GameRow.setSysreqRec v g).publisher = g.publisher := rfl

@[simp] theorem GameRow.header_image_url_setSysreqRec (v : Option String) (g : GameRow) :
    (GameRow.setSysreqRec v g).header_image_url = g.header_image_url := rfl

@[simp] theorem GameRow.system_requirements_minimum_setSysreqRec (v : Option String) (g : GameRow) :
    (GameRow.setSysreqRec v g).system_requirements_minimum = g.system_requirements_minimum := rfl

@[simp] theorem GameRow.system_requirements_recommended_setSysreqRec (v : Option String) (g : GameRow) :
    (GameRow.setSysreqRec v g).system_requirements_recommended = v := rfl

@[simp] theorem GameRow.metacritic_score_setSysreqRec (v : Option String) (g : GameRow) :
    (GameRow.setSysreqRec v g).metacritic_score = g.metacritic_score := rfl

@[simp] theorem GameRow.updated_at_setSysreqRec (v : Option String) (g : GameRow) :
    (GameRow.setSysreqRec v g).updated_at = g.updated_at := rfl

@[simp] theorem GameRow.app_id_setMetacriticScore (v : Option Int) (g : GameRow) :
    (GameRow.setMetacriticScore v g).app_id = g.app_id := rfl

@[simp] theorem GameRow.title_setMetacriticScore (v : Option Int) (g : GameRow) :
    (GameRow.setMetacriticScore v g).title = g.title := rfl

@[simp] theorem GameRow.description_setMetacriticScore (v : Option Int) (g : GameRow) :
    (GameRow.setMetacriticScore v g).description = g.description := rfl

@[simp] theorem GameRow.detailed_description_setMetacriticScore (v : Option Int) (g : GameRow) :
    (GameRow.setMetacriticScore v g).detailed_description = g.detailed_description := rfl

@[simp] theorem GameRow.release_date_setMetacriticScore (v : Option Int) (g : GameRow) :
    (GameRow.setMetacriticScore v g).release_date = g.release_date := rfl

@[simp] theorem GameRow.developer_setMetacriticScore (v : Option Int) (g : GameRow) :
    (GameRow.setMetacriticScore v g).developer = g.developer := rfl

@[simp] theorem GameRow.publisher_setMetacriticScore (v : Option Int) (g : GameRow) :
    (GameRow.setMetacriticScore v g).publisher = g.publisher := rfl

@[simp] theorem GameRow.header_image_url_setMetacriticScore (v : Option Int) (g : GameRow) :
    (GameRow.setMetacriticScore v g).header_image_url = g.header_image_url := rfl

@[simp] theorem GameRow.system_requirements_minimum_setMetacriticScore (v : Option Int) (g : GameRow) :
    (GameRow.setMetacriticScore v g).system_requirements_minimum = g.system_requirements_minimum := rfl

@[simp] theorem GameRow.system_requirements_recommended_setMetacriticScore (v : Option Int) (g : GameRow) :
    (GameRow.setMetacriticScore v g).system_requirements_recommended = g.system_requirements_recommended := rfl

@[simp] theorem GameRow.metacritic_score_setMetacriticScore (v : Option Int) (g : GameRow) :
    (GameRow.setMetacriticScore v g).metacritic_score = v := rfl

@[simp] theorem GameRow.updated_at_setMetacriticScore (v : Option Int) (g : GameRow) :
    (GameRow.setMetacriticScore v g).updated_at = g.updated_at := rfl

@[simp] theorem GameRow.app_id_setUpdatedAt (v : Option Nat) (g : GameRow) :
    (GameRow.setUpdatedAt v g).app_id = g.app_id := rfl

@[simp] theorem GameRow.title_setUpdatedAt (v : Option Nat) (g : GameRow) :
    (GameRow.setUpdatedAt v g).title = g.title := rfl

@[simp] theorem GameRow.description_setUpdatedAt (v : Option Nat) (g : GameRow) :
    (GameRow.setUpdatedAt v g).description = g.description := rfl

@[simp] theorem GameRow.detailed_description_setUpdatedAt (v : Option Nat) (g : GameRow) :
    (GameRow.setUpdatedAt v g).detailed_description = g.detailed_description := rfl

@[simp] theorem GameRow.release_date_setUpdatedAt (v : Option Nat) (g : GameRow) :
    (GameRow.setUpdatedAt v g).release_date = g.release_date := rfl

@[simp] theorem GameRow.developer_setUpdatedAt (v : Option Nat) (g : GameRow) :
    (GameRow.setUpdatedAt v g).developer = g.developer := rfl

@[simp] theorem GameRow.publisher_setUpdatedAt (v : Option Nat) (g : GameRow) :
    (GameRow.setUpdatedAt v g).publisher = g.publisher := rfl

@[simp] theorem GameRow.header_image_url_setUpdatedAt (v : Option Nat) (g : GameRow) :
    (GameRow.setUpdatedAt v g).header_image_url = g.header_image_url := rfl

@[simp] theorem GameRow.system_requirements_minimum_setUpdatedAt (v : Option Nat) (g : GameRow) :
    (GameRow.setUpdatedAt v g).system_requirements_minimum = g.system_requirements_minimum := rfl

@[simp] theorem GameRow.system_requirements_recommended_setUpdatedAt (v : Option Nat) (g : GameRow) :
    (GameRow.setUpdatedAt v g).system_requirements_recommended = g.system_requirements_recommended := rfl

@[simp] theorem GameRow.metacritic_score_setUpdatedAt (v : Option Nat) (g : GameRow) :
    (GameRow.setUpdatedAt v g).metacritic_score = g.metacritic_score := rfl

@[simp] theorem GameRow.updated_at_setUpdatedAt (v : Option Nat) (g : GameRow) :
    (GameRow.setUpdatedAt v g).updated_at = v := rfl

/-- One `if stored != incoming: overwrite; updated = True` statement of the
diff-update blocks: `d` is the comparison on the stored row, `u` the field
overwrite. -/
def chainStep (d : Bool) (u : GameRow → GameRow) (p : GameRow × Bool) : GameRow × Bool :=
  if d then (u p.1, true) else p

/-- Run a sequence of diff-update statements in order. -/
def chainSteps : List (Bool × (GameRow → GameRow)) → GameRow × Bool → GameRow × Bool
  | [], p => p
  | st :: rest, p => chainSteps rest (chainStep st.1 st.2 p)

/-- The ten `if existing_game.f != incoming_f: ...` statements of
`insert_steam_api_game`'s existing-game branch, in source order; every
comparison reads the stored row's original field, which the other statements
do not touch. -/
def apiFieldSteps (cv : Converters) (e : GameRow) (r : ApiRecord) :
    List (Bool × (GameRow → GameRow)) :=
  [ (e.title != api_title r, GameRow.setTitle (api_title r)),
    (e.description != r.short_description, GameRow.setDescription r.short_description),
    (e.detailed_description != api_detailed_description cv r,
      GameRow.setDetailedDescription (api_detailed_description cv r)),
    (e.release_date != api_release_date cv r, GameRow.setReleaseDate (api_release_date cv r)),
    (e.developer != api_developer r, GameRow.setDeveloper (api_developer r)),
    (e.publisher != api_publisher r, GameRow.setPublisher (api_publisher r)),
    (e.header_image_url != api_header_image r, GameRow.setHeaderImageUrl (api_header_image r)),
    (e.system_requirements_minimum != api_sysreq_min cv r,
      GameRow.setSysreqMin (api_sysreq_min cv r)),
    (e.system_requirements_recommended != api_sysreq_rec cv r,
      GameRow.setSysreqRec (api_sysreq_rec cv r)),
    (e.metacritic_score != api_metacritic r, GameRow.setMetacriticScore (api_metacritic r)) ]

/-- The change-detection chain of `insert_steam_api_game`'s existing-game
branch: compare each scalar field of the stored row with the incoming value
and overwrite on difference, accumulating the `updated` flag. -/
def apiUpdateChain (cv : Converters) (e : GameRow) (r : ApiRecord) : GameRow × Bool :=
  chainSteps (apiFieldSteps cv e r) (e, false)

/-- Row built by the new-game branch of `insert_steam_api_game` (its `Game(...)`
constructor call; `updated_at` is left at its column default). -/
def apiNewRow (cv : Converters) (r : ApiRecord) (app_id : Nat) : GameRow :=
  { app_id := app_id
    title := api_title r
    description := r.short_description
    detailed_description := api_detailed_description cv r
    release_date := api_release_date cv r
    developer := api_developer r
    publisher := api_publisher r
    header_image_url := api_header_image r
    system_requirements_minimum := api_sysreq_min cv r
    system_requirements_recommended := api_sysreq_rec cv r
    metacritic_score := api_metacritic r
    updated_at := none }

/-- Model of `GameInserter.insert_steam_api_game`: insert a new game row or
apply the per-field diff update, then reconcile genres. A session exception
(fault oracle) is caught by the function's own handler and yields `False`
without mutating the store, as the source's `except` does. -/
def insert_steam_api_game (cv : Converters) (faults : List Nat) (now : Nat)
    (db : Db) (steam_data : ApiRecord) : Bool × Db :=
  if steam_data.dict_empty then (false, db) else
  match appIdOf steam_data with
  | none => (false, db)
  | some app_id =>
    if faults.contains app_id then (false, db) else
    match db.findGame app_id with
    | none =>
      let db1 := db.addGameRow (apiNewRow cv steam_data app_id)
      (true, update_genres db1 app_id steam_data.genres)
    | some existing_game =>
      let p := apiUpdateChain cv existing_game steam_data
      let g := if p.2 then GameRow.setUpdatedAt (some now) p.1 else p.1
      let db1 := if p.2 then db.setGameRow g else db
      (true, update_genres db1 app_id steam_data.genres)

/-! ## Hybrid batch processing of API records -/

/-- Failure entry appended to the hybrid batch's `failed_games` list
(`{'app_id': ..., 'error': ..., 'message': ...}`). -/
structure FailEntry where
  app_id : Option Nat
  error : String
  deriving Repr, DecidableEq

/-- Batch deduplication of `insert_steam_api_games_hybrid_batch` step 1: walk
the batch keeping a `seen_app_ids` set; a record is kept only when its id is
truthy and not seen yet, i.e. the FIRST occurrence of each id is kept. -/
def dedupApiGo (seen : List Nat) : List ApiRecord → List ApiRecord
  | [] => []
  | r :: rest =>
    match appIdOf r with
    | some a => if seen.contains a then dedupApiGo seen rest
                else r :: dedupApiGo (a :: seen) rest
    | none => dedupApiGo seen rest

def dedupApi (games_data : List ApiRecord) : List ApiRecord :=
  dedupApiGo [] games_data

/-- Row dict prepared by `_bulk_insert_new_api_games` (same field computations
as the single-insert path, plus `updated_at: datetime.now()`). -/
def apiBulkRow (cv : Converters) (now : Nat) (r : ApiRecord) (app_id : Nat) : GameRow :=
  { apiNewRow cv r app_id with updated_at := some now }

/-- Model of `GameInserter._bulk_insert_new_api_games`: build all game dicts
and genre dicts, then `bulk_insert_mappings` each table; returns
`(len(game_objects), [])` — its failure list is always empty. -/
def bulk_insert_new_api_games (cv : Converters) (now : Nat)
    (new_games_data : List ApiRecord) (db : Db) : (Nat × List Nat) × Db :=
  let withIds := new_games_data.filterMap
    (fun r => (appIdOf r).map (fun a => (r, a)))
  let game_objects := withIds.map (fun ra => apiBulkRow cv now ra.1 ra.2)
  let genre_objects := withIds.flatMap
    (fun ra => (ra.1.genres.filter (fun s => !s.isEmpty)).map
      (fun name => ({ app_id := ra.2, genre_name := strTake 50 name } : GenreRow)))
  let db1 := game_objects.foldl Db.addGameRow db
  let db2 := genre_objects.foldl
    (fun d gr => { d with genres := d.genres ++ [gr], writes := d.writes + 1 }) db1
  ((game_objects.length, []), db2)

/-- Model of `GameInserter._update_existing_api_games`: run the single-record
insert/update on each record, collecting a failure entry for each `False`
return or caught exception. -/
def update_existing_api_games (cv : Converters) (faults : List Nat) (now : Nat)
    (records : List ApiRecord) (db : Db) : (Nat × List FailEntry) × Db :=
  match records with
  | [] => ((0, []), db)
  | r :: rest =>
    let one := insert_steam_api_game cv faults now db r
    let restRes := update_existing_api_games cv faults now rest one.2
    if one.1 then ((restRes.1.1 + 1, restRes.1.2), restRes.2)
    else
      ((restRes.1.1,
        { app_id := appIdOf r, error := "db_insert_failed" } :: restRes.1.2), restRes.2)

/-- Model of `GameInserter.insert_steam_api_games_hybrid_batch`.

The whole body sits in a `try` whose `except` returns `(0, [])` with the
session mutations left in place. One such exception comes from the source
itself: when the existing-game phase reports any failure, building the
failure dicts evaluates the f-string `f'예외 발생: {str(e)}'` in which `e` is
not in scope, raising `NameError`; the handler then discards all counts and
failure entries and returns `(0, [])`. -/
def insert_steam_api_games_hybrid_batch (cv : Converters) (faults : List Nat)
    (now : Nat) (games_data : List ApiRecord) (db : Db) :
    (Nat × List FailEntry) × Db :=
  if games_data.isEmpty then ((0, []), db) else
  let games_data1 := dedupApi games_data
  let app_ids := games_data1.filterMap appIdOf
  if app_ids.isEmpty then ((0, []), db) else
  let parts := games_data1.partition
    (fun r => match appIdOf r with
              | some a => db.hasGame a
              | none => false)
  let newPhase := bulk_insert_new_api_games cv now parts.2 db
  let new_failed := newPhase.1.2.map
    (fun a => ({ app_id := some a, error := "db_insert_failed" } : FailEntry))
  let exPhase := update_existing_api_games cv faults now parts.1 newPhase.2
  if exPhase.1.2.isEmpty then
    ((newPhase.1.1 + exPhase.1.1, new_failed), exPhase.2)
  else
    ((0, []), exPhase.2)

/-- Model of the module-level convenience function `insert_steam_api_games_batch`:
`with GameInserter() as inserter: ...`. The hybrid batch catches every
exception internally, so `__exit__` always sees `exc_type is None` and COMMITS
the session — the state returned by the hybrid body is persisted as-is, and
the rollback branch of `__exit__` is never taken by this entry point. -/
def insert_steam_api_games_batch (cv : Converters) (faults : List Nat)
    (now : Nat) (games_data : List ApiRecord) (db : Db) :
    (Nat × List FailEntry) × Db :=
  insert_steam_api_games_hybrid_batch cv faults now games_data db

/-! ## Canonical records of the page (crawling) source -/

/-- The `review_info` sub-dict produced by the crawler (`None` values of the
always-present keys are `none`/empty here; a missing or empty dict is `none`
at the `CrawlData` level, matching Python dict truthiness). -/
structure ReviewInfo where
  recent_reviews : String := ""
  all_reviews : String := ""
  recent_review_count : Option String := none
  total_review_count : Option String := none
  recent_positive_percent : Option Int := none
  total_positive_percent : Option Int := none
  deriving Repr, DecidableEq

/-- The `localized_price` sub-dict produced by the crawler. -/
structure PriceInfo where
  current_price : String := ""
  original_price : String := ""
  discount_percent : Option Int := none
  is_free : Bool := false
  deriving Repr, DecidableEq

/-- One crawled game payload as `insert_steam_crawling_game` reads it.
`crawled_at` is the already-parsed timestamp; `none` models a missing or
unparsable `crawled_at` string, for which the source substitutes
`datetime.now()`. -/
structure CrawlData where
  app_id : Option Nat := none
  title : String := ""
  crawled_at : Option Nat := none
  user_tags : List String := []
  review_info : Option ReviewInfo := none
  localized_price : Option PriceInfo := none
  dict_empty : Bool := false
  deriving Repr, DecidableEq

/-- Model of `str(int(str(count_str).replace(',', '')))` guarded by
`if not count_str` in `parse_review_count_to_string`: strip commas, parse as a
Python integer, re-render; `None` on falsy input or parse failure. -/
def parse_review_count_to_string : Option String → Option String
  | none => none
  | some s =>
    if s.isEmpty then none
    else ((s.replace "," "").toInt?).map (fun i => toString i)

/-- Tag pairs built by `_update_user_tags` (and identically by the crawling
bulk-insert): enumerate the list, keep truthy tags with a non-blank strip,
clean to 100 chars, 1-based order. `set(...)` semantics via `dedup`. -/
def newTagPairs (user_tags : List String) : List (String × Nat) :=
  ((user_tags.enum.filterMap
    (fun ti => if !ti.2.isEmpty && !(strTrim ti.2).isEmpty then
                 some (strTake 100 (strTrim ti.2), ti.1 + 1) else none))).dedup

/-- The stored tag snapshot of one game as a set of (name, order) pairs. -/
def existingTagPairs (db : Db) (app_id : Nat) : List (String × Nat) :=
  ((db.tags.filter (fun t => t.app_id == app_id)).map
    (fun t => (t.tag_name, t.tag_order))).dedup

/-- Bool set-equality test for the Python `set != set` comparison. -/
def pairSetEq (xs ys : List (String × Nat)) : Bool :=
  xs.all (fun p => ys.contains p) && ys.all (fun p => xs.contains p)

/-- Model of `GameInserter._update_user_tags`: if the stored (name, order) set
differs from the incoming one, delete EVERY stored tag row of the game and
insert the whole new set; otherwise leave the table untouched. -/
def update_user_tags (db : Db) (app_id : Nat) (user_tags : List String) : Db :=
  let new_tags := newTagPairs user_tags
  if pairSetEq (existingTagPairs db app_id) new_tags then db
  else
    let db1 := db.deleteAllTags app_id
    new_tags.foldl
      (fun d p => d.addTag { app_id := app_id, tag_name := p.1, tag_order := p.2 }) db1

/-- Field values extracted by `_update_review_info` (`x[:50] if x else None`
and the count parser). -/
def reviewFields (app_id : Nat) (ri : ReviewInfo) (crawled_at : Nat) : ReviewRow :=
  { app_id := app_id
    recent_reviews := if ri.recent_reviews.isEmpty then none
                      else some (strTake 50 ri.recent_reviews)
    all_reviews := if ri.all_reviews.isEmpty then none
                   else some (strTake 50 ri.all_reviews)
    recent_review_count := parse_review_count_to_string ri.recent_review_count
    total_review_count := parse_review_count_to_string ri.total_review_count
    recent_positive_percent := ri.recent_positive_percent
    total_positive_percent := ri.total_positive_percent
    updated_at := crawled_at }

/-- Compare all review fields as a single unit, as `review_changed` does
(`updated_at` excluded from the comparison). -/
def reviewChanged (old : ReviewRow) (new : ReviewRow) : Prop :=
  old.recent_reviews ≠ new.recent_reviews ∨
  old.all_reviews ≠ new.all_reviews ∨
  old.recent_review_count ≠ new.recent_review_count ∨
  old.total_review_count ≠ new.total_review_count ∨
  old.recent_positive_percent ≠ new.recent_positive_percent ∨
  old.total_positive_percent ≠ new.total_positive_percent

instance (old new : ReviewRow) : Decidable (reviewChanged old new) := by
  unfold reviewChanged; infer_instance

/-- Model of `GameInserter._update_review_info`. -/
def update_review_info (db : Db) (app_id : Nat) (ri : ReviewInfo) (crawled_at : Nat) : Db :=
  let incoming := reviewFields app_id ri crawled_at
  match db.findReview app_id with
  | some existing_review =>
    if reviewChanged existing_review incoming then db.setReview incoming else db
  | none => db.addReview incoming

/-- Field values extracted by `_update_localized_pricing`. -/
def pricingFields (app_id : Nat) (lp : PriceInfo) (crawled_at : Nat) : PricingRow :=
  { app_id := app_id
    current_price := if lp.current_price.isEmpty then none
                     else some (strTake 50 lp.current_price)
    original_price := if lp.original_price.isEmpty then none
                      else some (strTake 50 lp.original_price)
    discount_percent := lp.discount_percent
    is_free := lp.is_free
    updated_at := crawled_at }

def pricingChanged (old : PricingRow) (new : PricingRow) : Prop :=
  old.current_price ≠ new.current_price ∨
  old.original_price ≠ new.original_price ∨
  old.discount_percent ≠ new.discount_percent ∨
  old.is_free ≠ new.is_free

instance (old new : PricingRow) : Decidable (pricingChanged old new) := by
  unfold pricingChanged; infer_instance

/-- Model of `GameInserter._update_localized_pricing`. -/
def update_localized_pricing (db : Db) (app_id : Nat) (lp : PriceInfo) (crawled_at : Nat) : Db :=
  let incoming := pricingFields app_id lp crawled_at
  match db.findPricing app_id with
  | some existing_pricing =>
    if pricingChanged existing_pricing incoming then db.setPricing incoming else db
  | none => db.addPricing incoming

/-- The fixed description the crawling path stores for games unknown to the
API source. -/
def crawlOnlyDescription : String := "크롤링으로 수집된 게임 (API 데이터 없음)"

/-- Model of `GameInserter.insert_steam_crawling_game`: for an existing game
update only the title (when it differs AND is non-empty), for a new game
create a minimal row; then reconcile tags, review info and pricing, each only
when its payload is truthy. A session fault is caught by the function's
handler and returns `False` without mutation. -/
def insert_steam_crawling_game (faults : List Nat) (now : Nat)
    (db : Db) (crawling_data : CrawlData) : Bool × Db :=
  if crawling_data.dict_empty then (false, db) else
  match crawling_data.app_id with
  | none => (false, db)
  | some app_id =>
    if app_id == 0 then (false, db) else
    if faults.contains app_id then (false, db) else
    let crawled_at := crawling_data.crawled_at.getD now
    let title := strTake 255 crawling_data.title
    let db1 :=
      match db.findGame app_id with
      | some existing_game =>
        if existing_game.title ≠ title ∧ ¬title.isEmpty then
          db.setGameRow
            (GameRow.setUpdatedAt (some crawled_at) (GameRow.setTitle title existing_game))
        else db
      | none =>
        db.addGameRow
          { app_id := app_id, title := title, description := crawlOnlyDescription,
            updated_at := some crawled_at }
    let db2 := if crawling_data.user_tags.isEmpty then db1
               else update_user_tags db1 app_id crawling_data.user_tags
    let db3 := match crawling_data.review_info with
               | some ri => update_review_info db2 app_id ri crawled_at
               | none => db2
    let db4 := match crawling_data.localized_price with
               | some lp => update_localized_pricing db3 app_id lp crawled_at
               | none => db3
    (true, db4)

/-! ## Hybrid batch processing of crawled records -/

/-- Truthiness-aware id of a crawled record (`crawling_data.get('app_id')`
under `if not app_id` / `if app_id and ...` guards). -/
def crawlIdOf (c : CrawlData) : Option Nat :=
  if truthyNat c.app_id then c.app_id else none

def dedupCrawlGo (seen : List Nat) : List CrawlData → List CrawlData
  | [] => []
  | c :: rest =>
    match crawlIdOf c with
    | some a => if seen.contains a then dedupCrawlGo seen rest
                else c :: dedupCrawlGo (a :: seen) rest
    | none => dedupCrawlGo seen rest

/-- Batch deduplication of `insert_steam_crawling_games_hybrid_batch` step 1
(first occurrence of each truthy id is kept). -/
def dedupCrawl (games_data : List CrawlData) : List CrawlData :=
  dedupCrawlGo [] games_data

/-- Model of `GameInserter._bulk_insert_new_crawling_games`: per record build
the minimal game dict plus its tag/review/pricing dicts, then bulk-insert each
table; returns `(len(game_objects), [])`. -/
def bulk_insert_new_crawling_games (now : Nat)
    (new_games_data : List CrawlData) (db : Db) : (Nat × List Nat) × Db :=
  let withIds := new_games_data.filterMap
    (fun c => (crawlIdOf c).map (fun a => (c, a)))
  let game_objects := withIds.map (fun ca =>
    ({ app_id := ca.2, title := strTake 255 ca.1.title,
       description := crawlOnlyDescription,
       updated_at := some (ca.1.crawled_at.getD now) } : GameRow))
  let tag_objects := withIds.flatMap (fun ca =>
    (ca.1.user_tags.enum.filterMap
      (fun ti => if !ti.2.isEmpty && !(strTrim ti.2).isEmpty then
                   some ({ app_id := ca.2, tag_name := strTake 100 (strTrim ti.2),
                           tag_order := ti.1 + 1 } : TagRow)
                 else none)))
  let review_objects := withIds.filterMap (fun ca =>
    (ca.1.review_info).map (fun ri => reviewFields ca.2 ri (ca.1.crawled_at.getD now)))
  let pricing_objects := withIds.filterMap (fun ca =>
    (ca.1.localized_price).map (fun lp => pricingFields ca.2 lp (ca.1.crawled_at.getD now)))
  let db1 := game_objects.foldl Db.addGameRow db
  let db2 := tag_objects.foldl Db.addTag db1
  let db3 := review_objects.foldl Db.addReview db2
  let db4 := pricing_objects.foldl Db.addPricing db3
  ((game_objects.length, []), db4)

/-- Model of `GameInserter._update_existing_crawling_games`. -/
def update_existing_crawling_games (faults : List Nat) (now : Nat)
    (records : List CrawlData) (db : Db) : (Nat × List FailEntry) × Db :=
  match records with
  | [] => ((0, []), db)
  | c :: rest =>
    let one := insert_steam_crawling_game faults now db c
    let restRes := update_existing_crawling_games faults now rest one.2
    if one.1 then ((restRes.1.1 + 1, restRes.1.2), restRes.2)
    else
      ((restRes.1.1,
        { app_id := crawlIdOf c, error := "db_insert_failed" } :: restRes.1.2), restRes.2)

/-- Model of `GameInserter.insert_steam_crawling_games_hybrid_batch`; like the
API variant, any failure in the existing-game phase triggers the `NameError`
of the out-of-scope `e` in the failure-dict f-string, and the outer `except`
returns `(0, [])` keeping the session mutations. -/
def insert_steam_crawling_games_hybrid_batch (faults : List Nat)
    (now : Nat) (games_data : List CrawlData) (db : Db) :
    (Nat × List FailEntry) × Db :=
  if games_data.isEmpty then ((0, []), db) else
  let games_data1 := dedupCrawl games_data
  let app_ids := games_data1.filterMap crawlIdOf
  if app_ids.isEmpty then ((0, []), db) else
  let parts := games_data1.partition
    (fun c => match crawlIdOf c with
              | some a => db.hasGame a
              | none => false)
  let newPhase := bulk_insert_new_crawling_games now parts.2 db
  let new_failed := newPhase.1.2.map
    (fun a => ({ app_id := some a, error := "db_insert_failed" } : FailEntry))
  let exPhase := update_existing_crawling_games faults now parts.1 newPhase.2
  if exPhase.1.2.isEmpty then
    ((newPhase.1.1 + exPhase.1.1, new_failed), exPhase.2)
  else
    ((0, []), exPhase.2)

/-- Model of the convenience function `insert_steam_crawling_games_batch`
(`with GameInserter() as inserter: ...`; the hybrid body never lets an
exception escape, so `__exit__` commits). -/
def insert_steam_crawling_games_batch (faults : List Nat)
    (now : Nat) (games_data : List CrawlData) (db : Db) :
    (Nat × List FailEntry) × Db :=
  insert_steam_crawling_games_hybrid_batch faults now games_data db

/-! ## Resilient fetch layer: the two source clients

Each attempt of the retry loop observes one environment event (the HTTP
response or exception of that attempt); an execution is a function from
attempt number to event. The loops return the source's result dict, here an
error-classified sum, together with the list of back-off sleeps performed. -/

/-- Error categories of the fetch clients, one constructor per `'error'`
string the sources can return (including the post-loop `'unknown'` fallback). -/
inductive FetchError where
  | age_verification_failed
  | invalid_game_page
  | rate_limit_exceeded (http_status : Nat)
  | http_error (http_status : Nat)
  | exception
  | unknown
  deriving Repr, DecidableEq

/-- The `'error'` string of a category. -/
def FetchError.errName : FetchError → String
  | .age_verification_failed => "age_verification_failed"
  | .invalid_game_page => "invalid_game_page"
  | .rate_limit_exceeded _ => "rate_limit_exceeded"
  | .http_error _ => "http_error"
  | .exception => "exception"
  | .unknown => "unknown"

/-- Result of one fetch: the success payload or a classified failure. -/
inductive Fetched (α : Type) where
  | success (data : α)
  | failure (e : FetchError)
  deriving Repr, DecidableEq

/-- What one attempt of `MinimalGameCrawler.get_minimal_game_info` can
observe: a 200 page (with the outcome of the age check and of the
title-element validity probe), a non-200 status, or a raised exception. -/
inductive CrawlEnv where
  | page (age_check_failed : Bool) (has_title_element : Bool) (data : CrawlData)
  | status (code : Nat)
  | raise
  deriving Repr

/-- The statuses the crawler treats as throttling: `[429, 503, 502, 504]`. -/
def crawlRateStatuses : List Nat := [429, 503, 502, 504]

/-- The attempt loop of `MinimalGameCrawler.get_minimal_game_info`, with
`attempt` the current index and `fuel` the attempts the `range` still allows;
the back-off sleep is `2 * 2 ^ attempt`. The `fuel = 0` case is the fall-off
of the `for` loop: the source's post-loop `'unknown'` return. -/
def crawlLoop (env : Nat → CrawlEnv) (max_retries : Nat) :
    Nat → Nat → Fetched CrawlData × List Nat
  | _, 0 => (.failure .unknown, [])
  | attempt, fuel + 1 =>
    match env attempt with
    | .page age_check_failed has_title_element data =>
      if age_check_failed then (.failure .age_verification_failed, [])
      else if !has_title_element then (.failure .invalid_game_page, [])
      else (.success data, [])
    | .status code =>
      if crawlRateStatuses.contains code then
        if attempt < max_retries then
          let rest := crawlLoop env max_retries (attempt + 1) fuel
          (rest.1, 2 * 2 ^ attempt :: rest.2)
        else (.failure (.rate_limit_exceeded code), [])
      else (.failure (.http_error code), [])
    | .raise =>
      if attempt < max_retries then
        let rest := crawlLoop env max_retries (attempt + 1) fuel
        (rest.1, 2 * 2 ^ attempt :: rest.2)
      else (.failure .exception, [])

/-- Model of `get_minimal_game_info(app_id, max_retries)`:
`for attempt in range(max_retries + 1)` over the loop body. -/
def get_minimal_game_info (env : Nat → CrawlEnv) (max_retries : Nat) :
    Fetched CrawlData × List Nat :=
  crawlLoop env max_retries 0 (max_retries + 1)

/-- What one attempt of `get_steam_game_info_api` can observe: a 200 JSON
reply (already reduced to `data.get(str(app_id), {}).get('data', {})`), a
non-200 status, or an exception whose message matches / does not match the
retryable pattern (`"HTTP" in str(e) and any(code in str(e) for ...)`). -/
inductive ApiEnv where
  | ok (data : ApiRecord)
  | status (code : Nat)
  | raise (retryable : Bool)
  deriving Repr

/-- The statuses the API client treats as throttling: `[403, 429, 503, 502, 504]`. -/
def apiRateStatuses : List Nat := [403, 429, 503, 502, 504]

/-- The attempt loop of `get_steam_game_info_api`, same shape as the crawler's
loop but with the API's status set and its exception classification. -/
def apiLoop (env : Nat → ApiEnv) (max_retries : Nat) :
    Nat → Nat → Fetched ApiRecord × List Nat
  | _, 0 => (.failure .unknown, [])
  | attempt, fuel + 1 =>
    match env attempt with
    | .ok data => (.success data, [])
    | .status code =>
      if apiRateStatuses.contains code then
        if attempt < max_retries then
          let rest := apiLoop env max_retries (attempt + 1) fuel
          (rest.1, 2 * 2 ^ attempt :: rest.2)
        else (.failure (.rate_limit_exceeded code), [])
      else (.failure (.http_error code), [])
    | .raise retryable =>
      if attempt < max_retries ∧ retryable then
        let rest := apiLoop env max_retries (attempt + 1) fuel
        (rest.1, 2 * 2 ^ attempt :: rest.2)
      else (.failure .exception, [])

/-- Model of `get_steam_game_info_api(app_id, max_retries)`. -/
def get_steam_game_info_api (env : Nat → ApiEnv) (max_retries : Nat) :
    Fetched ApiRecord × List Nat :=
  apiLoop env max_retries 0 (max_retries + 1)

/-! ## The orchestrator's per-ID classification step -/

/-- One ledger value of `global_failed_games`: `{'type': ..., 'error': ...}`. -/
structure FailInfo where
  ftype : String
  error : String
  deriving Repr, DecidableEq

/-- Python dict assignment `failed[app_id] = info`: replace the entry of an
existing key, otherwise append a new entry. -/
def setFailEntry : List (Nat × FailInfo) → Nat → FailInfo → List (Nat × FailInfo)
  | [], a, info => [(a, info)]
  | (k, v) :: rest, a, info =>
    if k == a then (k, info) :: rest else (k, v) :: setFailEntry rest a info

def lookupFail (l : List (Nat × FailInfo)) (a : Nat) : Option FailInfo :=
  (l.find? (fun kv => kv.1 == a)).map (fun kv => kv.2)

/-- Orchestrator state visible to one iteration of `main_with_batch`'s loop:
the failure map, the two batch buffers, the success counters, and the list of
IDs for which the structured-source client was actually invoked. -/
structure OrchState where
  failed : List (Nat × FailInfo) := []
  api_batch : List ApiRecord := []
  crawling_batch : List CrawlData := []
  api_success_count : Nat := 0
  crawling_success_count : Nat := 0
  api_calls : List Nat := []
  deriving Repr, DecidableEq

def OrchState.fail (st : OrchState) (a : Nat) (ftype error : String) : OrchState :=
  { st with failed := setFailEntry st.failed a { ftype := ftype, error := error } }

/-- Review-count extraction of the orchestrator:
`raw = data.get('review_info', {}).get('total_review_count', 0)` then
`0 if raw == 0 else parse_review_count_to_int(raw)`; the parser strips commas
and spaces and takes the first digit run, else 0. -/
def firstDigitRun : List Char → List Char
  | [] => []
  | c :: cs => if c.isDigit then c :: (cs.takeWhile Char.isDigit) else firstDigitRun cs

def parse_review_count_to_int (s : String) : Nat :=
  if s.isEmpty then 0
  else
    let cleaned := (s.replace "," "").replace " " ""
    let run := firstDigitRun cleaned.data
    if run.isEmpty then 0
    else run.foldl (fun n c => 10 * n + (c.toNat - 48)) 0

def orchReviewCount (c : CrawlData) : Nat :=
  match c.review_info with
  | none => 0
  | some ri =>
    match ri.total_review_count with
    | none => 0
    | some s => parse_review_count_to_int s

/-- One iteration of `main_with_batch`'s per-ID pipeline (lines 291-375 of
`run_save_all_games.py`), excluding the batch-flush block: classify the
page-source result, apply the engagement filter, invoke the structured source
only past the filter (recorded in `api_calls`), and update the failure map and
batch buffers. `api` is the structured-source result the client WOULD return,
consumed only if the call is made. -/
def process_game_step (minimum_reviews : Option Nat) (st : OrchState) (app_id : Nat)
    (crawl : Fetched CrawlData) (api : Fetched ApiRecord) : OrchState :=
  match crawl with
  | .success data =>
    let review_count := orchReviewCount data
    if (match minimum_reviews with
        | none => true
        | some m => review_count ≥ m : Bool) then
      let st := { st with api_calls := st.api_calls ++ [app_id] }
      match api with
      | .success api_data =>
        if !api_data.dict_empty then
          if api_data.steam_appid ≠ some app_id then
            st.fail app_id "api_failed" "id_mismatch"
          else if api_data.type = "game" then
            { st with
              api_batch := st.api_batch ++ [api_data],
              api_success_count := st.api_success_count + 1,
              crawling_batch := st.crawling_batch ++ [data],
              crawling_success_count := st.crawling_success_count + 1 }
          else
            st.fail app_id "api_failed" "invalid_game_type"
        else
          st.fail app_id "api_failed" "unknown_api_error"
      | .failure e =>
        if e.errName = "no_data" then
          st.fail app_id "api_failed" "no_data_from_api"
        else
          st.fail app_id "api_failed" "unknown_api_error"
    else
      st.fail app_id "crawling_failed" "review_count_too_low"
  | .failure e =>
    if e.errName = "invalid_game_page" then
      st.fail app_id "crawling_failed" "invalid_game_page"
    else
      st.fail app_id "crawling_failed" "unknown_crawling_error"






/-! ## Structural lemmas about the diff-update chain -/

theorem chainSteps_append (l1 l2 : List (Bool × (GameRow → GameRow))) (p : GameRow × Bool) :
    chainSteps (l1 ++ l2) p = chainSteps l2 (chainSteps l1 p) := by
  induction l1 generalizing p with
  | nil => rfl
  | cons st rest ih => simp [chainSteps, ih]

theorem chainSteps_fst_pres {α : Type} (f : GameRow → α)
    (l : List (Bool × (GameRow → GameRow))) (p : GameRow × Bool)
    (h : ∀ st ∈ l, ∀ g, f (st.2 g) = f g) :
    f (chainSteps l p).1 = f p.1 := by
  induction l generalizing p with
  | nil => rfl
  | cons st rest ih =>
    have hst := h st (by simp)
    have hr : ∀ s ∈ rest, ∀ g, f (s.2 g) = f g := fun s hs => h s (by simp [hs])
    simp only [chainSteps]
    rw [ih _ hr]
    unfold chainStep
    split <;> simp [hst]

theorem chainSteps_noop (l : List (Bool × (GameRow → GameRow))) (p : GameRow × Bool)
    (h : ∀ st ∈ l, st.1 = false) : chainSteps l p = p := by
  induction l with
  | nil => rfl
  | cons st rest ih =>
    have hst := h st (by simp)
    simp only [chainSteps]
    rw [show chainStep st.1 st.2 p = p by unfold chainStep; rw [hst]; simp]
    exact ih (fun s hs => h s (by simp [hs]))

theorem chainSteps_fst_forced {α : Type} (f : GameRow → α) (v : α)
    (l1 : List (Bool × (GameRow → GameRow))) (d : Bool) (u : GameRow → GameRow)
    (l2 : List (Bool × (GameRow → GameRow))) (p : GameRow × Bool)
    (hpre : ∀ st ∈ l1, ∀ g, f (st.2 g) = f g)
    (hset : ∀ g, f (u g) = v)
    (hd : d = false → f p.1 = v)
    (hpost : ∀ st ∈ l2, ∀ g, f (st.2 g) = f g) :
    f (chainSteps (l1 ++ (d, u) :: l2) p).1 = v := by
  rw [chainSteps_append]
  simp only [chainSteps]
  rw [chainSteps_fst_pres f l2 _ hpost]
  unfold chainStep
  split
  · exact hset _
  · next hdt =>
    rw [chainSteps_fst_pres f l1 _ hpre]
    exact hd (by revert hdt; cases d <;> simp)



theorem apiUpdateChain_title (cv : Converters) (e : GameRow) (r : ApiRecord) :
    (apiUpdateChain cv e r).1.title = api_title r := by
  unfold apiUpdateChain apiFieldSteps
  exact chainSteps_fst_forced GameRow.title (api_title r)
    ([] : List (Bool × (GameRow → GameRow)))
    (e.title != api_title r) (GameRow.setTitle (api_title r))
    [(e.description != r.short_description, GameRow.setDescription (r.short_description)),
     (e.detailed_description != api_detailed_description cv r, GameRow.setDetailedDescription (api_detailed_description cv r)),
     (e.release_date != api_release_date cv r, GameRow.setReleaseDate (api_release_date cv r)),
     (e.developer != api_developer r, GameRow.setDeveloper (api_developer r)),
     (e.publisher != api_publisher r, GameRow.setPublisher (api_publisher r)),
     (e.header_image_url != api_header_image r, GameRow.setHeaderImageUrl (api_header_image r)),
     (e.system_requirements_minimum != api_sysreq_min cv r, GameRow.setSysreqMin (api_sysreq_min cv r)),
     (e.system_requirements_recommended != api_sysreq_rec cv r, GameRow.setSysreqRec (api_sysreq_rec cv r)),
     (e.metacritic_score != api_metacritic r, GameRow.setMetacriticScore (api_metacritic r))]
    (e, false)
    (by simp) (fun g => GameRow.title_setTitle _ g) (fun hd => by simpa using hd) (by simp)

theorem apiUpdateChain_description (cv : Converters) (e : GameRow) (r : ApiRecord) :
    (apiUpdateChain cv e r).1.description = r.short_description := by
  unfold apiUpdateChain apiFieldSteps
  exact chainSteps_fst_forced GameRow.description (r.short_description)
    [(e.title != api_title r, GameRow.setTitle (api_title r))]
    (e.description != r.short_description) (GameRow.setDescription (r.short_description))
    [(e.detailed_description != api_detailed_description cv r, GameRow.setDetailedDescription (api_detailed_description cv r)),
     (e.release_date != api_release_date cv r, GameRow.setReleaseDate (api_release_date cv r)),
     (e.developer != api_developer r, GameRow.setDeveloper (api_developer r)),
     (e.publisher != api_publisher r, GameRow.setPublisher (api_publisher r)),
     (e.header_image_url != api_header_image r, GameRow.setHeaderImageUrl (api_header_image r)),
     (e.system_requirements_minimum != api_sysreq_min cv r, GameRow.setSysreqMin (api_sysreq_min cv r)),
     (e.system_requirements_recommended != api_sysreq_rec cv r, GameRow.setSysreqRec (api_sysreq_rec cv r)),
     (e.metacritic_score != api_metacritic r, GameRow.setMetacriticScore (api_metacritic r))]
    (e, false)
    (by simp) (fun g => GameRow.description_setDescription _ g) (fun hd => by simpa using hd) (by simp)

theorem apiUpdateChain_detailed_description (cv : Converters) (e : GameRow) (r : ApiRecord) :
    (apiUpdateChain cv e r).1.detailed_description = api_detailed_description cv r := by
  unfold apiUpdateChain apiFieldSteps
  exact chainSteps_fst_forced GameRow.detailed_description (api_detailed_description cv r)
    [(e.title != api_title r, GameRow.setTitle (api_title r)),
     (e.description != r.short_description, GameRow.setDescription (r.short_description))]
    (e.detailed_description != api_detailed_description cv r) (GameRow.setDetailedDescription (api_detailed_description cv r))
    [(e.release_date != api_release_date cv r, GameRow.setReleaseDate (api_release_date cv r)),
     (e.developer != api_developer r, GameRow.setDeveloper (api_developer r)),
     (e.publisher != api_publisher r, GameRow.setPublisher (api_publisher r)),
     (e.header_image_url != api_header_image r, GameRow.setHeaderImageUrl (api_header_image r)),
     (e.system_requirements_minimum != api_sysreq_min cv r, GameRow.setSysreqMin (api_sysreq_min cv r)),
     (e.system_requirements_recommended != api_sysreq_rec cv r, GameRow.setSysreqRec (api_sysreq_rec cv r)),
     (e.metacritic_score != api_metacritic r, GameRow.setMetacriticScore (api_metacritic r))]
    (e, false)
    (by simp) (fun g => GameRow.detailed_description_setDetailedDescription _ g) (fun hd => by simpa using hd) (by simp)

theorem apiUpdateChain_release_date (cv : Converters) (e : GameRow) (r : ApiRecord) :
    (apiUpdateChain cv e r).1.release_date = api_release_date cv r := by
  unfold apiUpdateChain apiFieldSteps
  exact chainSteps_fst_forced GameRow.release_date (api_release_date cv r)
    [(e.title != api_title r, GameRow.setTitle (api_title r)),
     (e.description != r.short_description, GameRow.setDescription (r.short_description)),
     (e.detailed_description != api_detailed_description cv r, GameRow.setDetailedDescription (api_detailed_description cv r))]
    (e.release_date != api_release_date cv r) (GameRow.setReleaseDate (api_release_date cv r))
    [(e.developer != api_developer r, GameRow.setDeveloper (api_developer r)),
     (e.publisher != api_publisher r, GameRow.setPublisher (api_publisher r)),
     (e.header_image_url != api_header_image r, GameRow.setHeaderImageUrl (api_header_image r)),
     (e.system_requirements_minimum != api_sysreq_min cv r, GameRow.setSysreqMin (api_sysreq_min cv r)),
     (e.system_requirements_recommended != api_sysreq_rec cv r, GameRow.setSysreqRec (api_sysreq_rec cv r)),
     (e.metacritic_score != api_metacritic r, GameRow.setMetacriticScore (api_metacritic r))]
    (e, false)
    (by simp) (fun g => GameRow.release_date_setReleaseDate _ g) (fun hd => by simpa using hd) (by simp)

theorem apiUpdateChain_developer (cv : Converters) (e : GameRow) (r : ApiRecord) :
    (apiUpdateChain cv e r).1.developer = api_developer r := by
  unfold apiUpdateChain apiFieldSteps
  exact chainSteps_fst_forced GameRow.developer (api_developer r)
    [(e.title != api_title r, GameRow.setTitle (api_title r)),
     (e.description != r.short_description, GameRow.setDescription (r.short_description)),
     (e.detailed_description != api_detailed_description cv r, GameRow.setDetailedDescription (api_detailed_description cv r)),
     (e.release_date != api_release_date cv r, GameRow.setReleaseDate (api_release_date cv r))]
    (e.developer != api_developer r) (GameRow.setDeveloper (api_developer r))
    [(e.publisher != api_publisher r, GameRow.setPublisher (api_publisher r)),
     (e.header_image_url != api_header_image r, GameRow.setHeaderImageUrl (api_header_image r)),
     (e.system_requirements_minimum != api_sysreq_min cv r, GameRow.setSysreqMin (api_sysreq_min cv r)),
     (e.system_requirements_recommended != api_sysreq_rec cv r, GameRow.setSysreqRec (api_sysreq_rec cv r)),
     (e.metacritic_score != api_metacritic r, GameRow.setMetacriticScore (api_metacritic r))]
    (e, false)
    (by simp) (fun g => GameRow.developer_setDeveloper _ g) (fun hd => by simpa using hd) (by simp)

theorem apiUpdateChain_publisher (cv : Converters) (e : GameRow) (r : ApiRecord) :
    (apiUpdateChain cv e r).1.publisher = api_publisher r := by
  unfold apiUpdateChain apiFieldSteps
  exact chainSteps_fst_forced GameRow.publisher (api_publisher r)
    [(e.title != api_title r, GameRow.setTitle (api_title r)),
     (e.description != r.short_description, GameRow.setDescription (r.short_description)),
     (e.detailed_description != api_detailed_description cv r, GameRow.setDetailedDescription (api_detailed_description cv r)),
     (e.release_date != api_release_date cv r, GameRow.setReleaseDate (api_release_date cv r)),
     (e.developer != api_developer r, GameRow.setDeveloper (api_developer r))]
    (e.publisher != api_publisher r) (GameRow.setPublisher (api_publisher r))
    [(e.header_image_url != api_header_image r, GameRow.setHeaderImageUrl (api_header_image r)),
     (e.system_requirements_minimum != api_sysreq_min cv r, GameRow.setSysreqMin (api_sysreq_min cv r)),
     (e.system_requirements_recommended != api_sysreq_rec cv r, GameRow.setSysreqRec (api_sysreq_rec cv r)),
     (e.metacritic_score != api_metacritic r, GameRow.setMetacriticScore (api_metacritic r))]
    (e, false)
    (by simp) (fun g => GameRow.publisher_setPublisher _ g) (fun hd => by simpa using hd) (by simp)

theorem apiUpdateChain_header_image_url (cv : Converters) (e : GameRow) (r : ApiRecord) :
    (apiUpdateChain cv e r).1.header_image_url = api_header_image r := by
  unfold apiUpdateChain apiFieldSteps
  exact chainSteps_fst_forced GameRow.header_image_url (api_header_image r)
    [(e.title != api_title r, GameRow.setTitle (api_title r)),
     (e.description != r.short_description, GameRow.setDescription (r.short_description)),
     (e.detailed_description != api_detailed_description cv r, GameRow.setDetailedDescription (api_detailed_description cv r)),
     (e.release_date != api_release_date cv r, GameRow.setReleaseDate (api_release_date cv r)),
     (e.developer != api_developer r, GameRow.setDeveloper (api_developer r)),
     (e.publisher != api_publisher r, GameRow.setPublisher (api_publisher r))]
    (e.header_image_url != api_header_image r) (GameRow.setHeaderImageUrl (api_header_image r))
    [(e.system_requirements_minimum != api_sysreq_min cv r, GameRow.setSysreqMin (api_sysreq_min cv r)),
     (e.system_requirements_recommended != api_sysreq_rec cv r, GameRow.setSysreqRec (api_sysreq_rec cv r)),
     (e.metacritic_score != api_metacritic r, GameRow.setMetacriticScore (api_metacritic r))]
    (e, false)
    (by simp) (fun g => GameRow.header_image_url_setHeaderImageUrl _ g) (fun hd => by simpa using hd) (by simp)

theorem apiUpdateChain_system_requirements_minimum (cv : Converters) (e : GameRow) (r : ApiRecord) :
    (apiUpdateChain cv e r).1.system_requirements_minimum = api_sysreq_min cv r := by
  unfold apiUpdateChain apiFieldSteps
  exact chainSteps_fst_forced GameRow.system_requirements_minimum (api_sysreq_min cv r)
    [(e.title != api_title r, GameRow.setTitle (api_title r)),
     (e.description != r.short_description, GameRow.setDescription (r.short_description)),
     (e.detailed_description != api_detailed_description cv r, GameRow.setDetailedDescription (api_detailed_description cv r)),
     (e.release_date != api_release_date cv r, GameRow.setReleaseDate (api_release_date cv r)),
     (e.developer != api_developer r, GameRow.setDeveloper (api_developer r)),
     (e.publisher != api_publisher r, GameRow.setPublisher (api_publisher r)),
     (e.header_image_url != api_header_image r, GameRow.setHeaderImageUrl (api_header_image r))]
    (e.system_requirements_minimum != api_sysreq_min cv r) (GameRow.setSysreqMin (api_sysreq_min cv r))
    [(e.system_requirements_recommended != api_sysreq_rec cv r, GameRow.setSysreqRec (api_sysreq_rec cv r)),
     (e.metacritic_score != api_metacritic r, GameRow.setMetacriticScore (api_metacritic r))]
    (e, false)
    (by simp) (fun g => GameRow.system_requirements_minimum_setSysreqMin _ g) (fun hd => by simpa using hd) (by simp)

theorem apiUpdateChain_system_requirements_recommended (cv : Converters) (e : GameRow) (r : ApiRecord) :
    (apiUpdateChain cv e r).1.system_requirements_recommended = api_sysreq_rec cv r := by
  unfold apiUpdateChain apiFieldSteps
  exact chainSteps_fst_forced GameRow.system_requirements_recommended (api_sysreq_rec cv r)
    [(e.title != api_title r, GameRow.setTitle (api_title r)),
     (e.description != r.short_description, GameRow.setDescription (r.short_description)),
     (e.detailed_description != api_detailed_description cv r, GameRow.setDetailedDescription (api_detailed_description cv r)),
     (e.release_date != api_release_date cv r, GameRow.setReleaseDate (api_release_date cv r)),
     (e.developer != api_developer r, GameRow.setDeveloper (api_developer r)),
     (e.publisher != api_publisher r, GameRow.setPublisher (api_publisher r)),
     (e.header_image_url != api_header_image r, GameRow.setHeaderImageUrl (api_header_image r)),
     (e.system_requirements_minimum != api_sysreq_min cv r, GameRow.setSysreqMin (api_sysreq_min cv r))]
    (e.system_requirements_recommended != api_sysreq_rec cv r) (GameRow.setSysreqRec (api_sysreq_rec cv r))
    [(e.metacritic_score != api_metacritic r, GameRow.setMetacriticScore (api_metacritic r))]
    (e, false)
    (by simp) (fun g => GameRow.system_requirements_recommended_setSysreqRec _ g) (fun hd => by simpa using hd) (by simp)

theorem apiUpdateChain_metacritic_score (cv : Converters) (e : GameRow) (r : ApiRecord) :
    (apiUpdateChain cv e r).1.metacritic_score = api_metacritic r := by
  unfold apiUpdateChain apiFieldSteps
  exact chainSteps_fst_forced GameRow.metacritic_score (api_metacritic r)
    [(e.title != api_title r, GameRow.setTitle (api_title r)),
     (e.description != r.short_description, GameRow.setDescription (r.short_description)),
     (e.detailed_description != api_detailed_description cv r, GameRow.setDetailedDescription (api_detailed_description cv r)),
     (e.release_date != api_release_date cv r, GameRow.setReleaseDate (api_release_date cv r)),
     (e.developer != api_developer r, GameRow.setDeveloper (api_developer r)),
     (e.publisher != api_publisher r, GameRow.setPublisher (api_publisher r)),
     (e.header_image_url != api_header_image r, GameRow.setHeaderImageUrl (api_header_image r)),
     (e.system_requirements_minimum != api_sysreq_min cv r, GameRow.setSysreqMin (api_sysreq_min cv r)),
     (e.system_requirements_recommended != api_sysreq_rec cv r, GameRow.setSysreqRec (api_sysreq_rec cv r))]
    (e.metacritic_score != api_metacritic r) (GameRow.setMetacriticScore (api_metacritic r))
    ([] : List (Bool × (GameRow → GameRow)))
    (e, false)
    (by simp) (fun g => GameRow.metacritic_score_setMetacriticScore _ g) (fun hd => by simpa using hd) (by simp)

theorem apiUpdateChain_app_id (cv : Converters) (e : GameRow) (r : ApiRecord) :
    (apiUpdateChain cv e r).1.app_id = e.app_id := by
  unfold apiUpdateChain apiFieldSteps
  exact chainSteps_fst_pres GameRow.app_id _ _ (by simp)

theorem apiUpdateChain_updated_at (cv : Converters) (e : GameRow) (r : ApiRecord) :
    (apiUpdateChain cv e r).1.updated_at = e.updated_at := by
  unfold apiUpdateChain apiFieldSteps
  exact chainSteps_fst_pres GameRow.updated_at _ _ (by simp)

/-- Agreement of a stored row with the incoming record on the ten compared
scalar fields. -/
def apiAgrees (cv : Converters) (e : GameRow) (r : ApiRecord) : Prop :=
  e.title = api_title r ∧ e.description = r.short_description ∧
  e.detailed_description = api_detailed_description cv r ∧
  e.release_date = api_release_date cv r ∧
  e.developer = api_developer r ∧ e.publisher = api_publisher r ∧
  e.header_image_url = api_header_image r ∧
  e.system_requirements_minimum = api_sysreq_min cv r ∧
  e.system_requirements_recommended = api_sysreq_rec cv r ∧
  e.metacritic_score = api_metacritic r

instance (cv : Converters) (e : GameRow) (r : ApiRecord) : Decidable (apiAgrees cv e r) := by
  unfold apiAgrees; infer_instance

theorem apiUpdateChain_noop (cv : Converters) (e : GameRow) (r : ApiRecord)
    (h : apiAgrees cv e r) : apiUpdateChain cv e r = (e, false) := by
  obtain ⟨h1, h2, h3, h4, h5, h6, h7, h8, h9, h10⟩ := h
  unfold apiUpdateChain apiFieldSteps
  exact chainSteps_noop _ _ (by simp [h1, h2, h3, h4, h5, h6, h7, h8, h9, h10])

theorem apiUpdateChain_agrees (cv : Converters) (e : GameRow) (r : ApiRecord) :
    apiAgrees cv (apiUpdateChain cv e r).1 r := by
  unfold apiAgrees
  exact ⟨apiUpdateChain_title cv e r, apiUpdateChain_description cv e r,
    apiUpdateChain_detailed_description cv e r, apiUpdateChain_release_date cv e r,
    apiUpdateChain_developer cv e r, apiUpdateChain_publisher cv e r,
    apiUpdateChain_header_image_url cv e r, apiUpdateChain_system_requirements_minimum cv e r,
    apiUpdateChain_system_requirements_recommended cv e r,
    apiUpdateChain_metacritic_score cv e r⟩


/-! ## Lemmas about the fetch loops -/

theorem crawlLoop_returns (env : Nat → CrawlEnv) (m : Nat) :
    ∀ fuel attempt, attempt + fuel = m + 1 → 1 ≤ fuel →
      (crawlLoop env m attempt fuel).1 ≠ Fetched.failure FetchError.unknown := by
  intro fuel
  induction fuel with
  | zero => intro attempt _ h; omega
  | succ k ih =>
    intro attempt hsum _
    cases henv : env attempt with
    | page af ht d =>
      simp only [crawlLoop, henv]
      split
      · simp
      · split <;> simp
    | status code =>
      simp only [crawlLoop, henv]
      split
      · split
        · next hlt =>
          have hk : 1 ≤ k := by omega
          have := ih (attempt + 1) (by omega) hk
          simpa using this
        · simp
      · simp
    | raise =>
      simp only [crawlLoop, henv]
      split
      · next hlt =>
        have hk : 1 ≤ k := by omega
        have := ih (attempt + 1) (by omega) hk
        simpa using this
      · simp

theorem apiLoop_returns (env : Nat → ApiEnv) (m : Nat) :
    ∀ fuel attempt, attempt + fuel = m + 1 → 1 ≤ fuel →
      (apiLoop env m attempt fuel).1 ≠ Fetched.failure FetchError.unknown := by
  intro fuel
  induction fuel with
  | zero => intro attempt _ h; omega
  | succ k ih =>
    intro attempt hsum _
    cases henv : env attempt with
    | ok d => simp [apiLoop, henv]
    | status code =>
      simp only [apiLoop, henv]
      split
      · split
        · next hlt =>
          have hk : 1 ≤ k := by omega
          have := ih (attempt + 1) (by omega) hk
          simpa using this
        · simp
      · simp
    | raise retryable =>
      simp only [apiLoop, henv]
      split
      · next hlt =>
        have hk : 1 ≤ k := by omega
        have := ih (attempt + 1) (by omega) hk
        simpa using this
      · simp

/-! ## Claim C5 -/

/-- C5: with `max_attempts = 3` and a remote that answers with the same
throttling status on every attempt, both source clients perform exactly 3
retries with back-off sleeps of exactly 2, 4 and 8 time-units
(`2 * 2 ^ attempt`), and then return the terminal `rate_limit_exceeded`
result; the retry/back-off policy is identical for the page-source client and
the structured-source client on the shared throttling statuses. -/
theorem c5_backoff_policy (s : Nat) (hs : s ∈ crawlRateStatuses) :
    get_minimal_game_info (fun _ => CrawlEnv.status s) 3 =
      (Fetched.failure (FetchError.rate_limit_exceeded s), [2, 4, 8]) ∧
    get_steam_game_info_api (fun _ => ApiEnv.status s) 3 =
      (Fetched.failure (FetchError.rate_limit_exceeded s), [2, 4, 8]) := by
  fin_cases hs <;> exact ⟨by decide, by decide⟩

/-- Witness for C5 at the concrete throttling status 429. -/
theorem c5_backoff_policy_witness :
    get_minimal_game_info (fun _ => CrawlEnv.status 429) 3 =
      (Fetched.failure (FetchError.rate_limit_exceeded 429), [2, 4, 8]) ∧
    get_steam_game_info_api (fun _ => ApiEnv.status 429) 3 =
      (Fetched.failure (FetchError.rate_limit_exceeded 429), [2, 4, 8]) :=
  c5_backoff_policy 429 (by decide)

/-! ## Claim C9 -/

/-- C9: for every `max_retries` and every sequence of per-attempt responses or
exceptions, both fetch loops return a classified result on or before the last
attempt, so the post-loop fallback that returns the `'unknown'` error is
unreachable. -/
theorem c9_loop_always_returns (envC : Nat → CrawlEnv) (envA : Nat → ApiEnv)
    (max_retries : Nat) :
    (get_minimal_game_info envC max_retries).1 ≠ Fetched.failure FetchError.unknown ∧
    (get_steam_game_info_api envA max_retries).1 ≠ Fetched.failure FetchError.unknown :=
  ⟨crawlLoop_returns envC max_retries (max_retries + 1) 0 (by omega) (by omega),
   apiLoop_returns envA max_retries (max_retries + 1) 0 (by omega) (by omega)⟩

/-! ## Claim C6 -/

/-- C6 (code bug): when the page source reports `invalid_game_page`
(`not_found_or_invalid`), the orchestrator indeed makes no structured-source
call, BUT, contradicting the claim and the source's own inline comment
('실패 수집 안함' — do not collect the failure), it DOES write the entry
`{'type': 'crawling_failed', 'error': 'invalid_game_page'}` for that ID into
the failure map that feeds the ledger. -/
theorem c6_invalid_page_logged :
    (process_game_step (some 100) {} 999999999
        (Fetched.failure FetchError.invalid_game_page)
        (Fetched.success {})).api_calls = [] ∧
    lookupFail (process_game_step (some 100) {} 999999999
        (Fetched.failure FetchError.invalid_game_page)
        (Fetched.success {})).failed 999999999 =
      some { ftype := "crawling_failed", error := "invalid_game_page" } := by
  exact ⟨rfl, by decide⟩

/-! ## Claim C10 -/

/-- Keys of the failure map are pairwise distinct. -/
def failKeysNodup (l : List (Nat × FailInfo)) : Prop := (l.map Prod.fst).Nodup

theorem setFailEntry_subset (l : List (Nat × FailInfo)) (a : Nat) (info : FailInfo) :
    ∀ x ∈ setFailEntry l a info, x ∈ l ∨ x = (a, info) := by
  induction l with
  | nil =>
    intro x hx
    simp only [setFailEntry, List.mem_singleton] at hx
    right; exact hx
  | cons kv rest ih =>
    intro x hx
    unfold setFailEntry at hx
    split at hx
    · next hk =>
      rcases List.mem_cons.1 hx with h1 | h1
      · right
        have : kv.1 = a := by simpa using hk
        rw [h1, this]
      · left; exact List.mem_cons.2 (Or.inr h1)
    · rcases List.mem_cons.1 hx with h1 | h1
      · left
        rw [h1]
        exact List.mem_cons_self _ _
      · rcases ih x h1 with h2 | h2
        · left; exact List.mem_cons.2 (Or.inr h2)
        · right; exact h2

theorem setFailEntry_nodup (l : List (Nat × FailInfo)) (a : Nat) (info : FailInfo)
    (h : failKeysNodup l) : failKeysNodup (setFailEntry l a info) := by
  induction l with
  | nil => simp [setFailEntry, failKeysNodup]
  | cons kv rest ih =>
    unfold failKeysNodup at h ⊢
    simp only [List.map_cons, List.nodup_cons] at h
    unfold setFailEntry
    by_cases hk : (kv.1 == a) = true
    · rw [if_pos hk]
      simp only [List.map_cons, List.nodup_cons]
      exact ⟨h.1, h.2⟩
    · rw [if_neg hk]
      simp only [List.map_cons, List.nodup_cons]
      refine ⟨?_, ih h.2⟩
      intro hmem
      rcases List.mem_map.1 hmem with ⟨x, hx, hfst⟩
      rcases setFailEntry_subset rest a info x hx with h2 | h2
      · exact h.1 (List.mem_map.2 ⟨x, h2, hfst⟩)
      · apply hk
        have : x.1 = a := by rw [h2]
        simp [← hfst, this]

theorem setFailEntry_lookup (l : List (Nat × FailInfo)) (a : Nat) (info : FailInfo) :
    lookupFail (setFailEntry l a info) a = some info := by
  induction l with
  | nil => simp [setFailEntry, lookupFail]
  | cons kv rest ih =>
    unfold setFailEntry
    by_cases hk : (kv.1 == a) = true
    · rw [if_pos hk]
      simp [lookupFail, List.find?, hk]
    · rw [if_neg hk]
      simpa [lookupFail, List.find?, hk] using ih

theorem process_game_step_failed_shape (mr : Option Nat) (st : OrchState) (a : Nat)
    (c : Fetched CrawlData) (api : Fetched ApiRecord) :
    (process_game_step mr st a c api).failed = st.failed ∨
    ∃ info, (process_game_step mr st a c api).failed = setFailEntry st.failed a info := by
  unfold process_game_step OrchState.fail
  cases c with
  | success data =>
    cases api with
    | success api_data =>
      dsimp only
      split_ifs <;> first | exact Or.inl rfl | exact Or.inr ⟨_, rfl⟩
    | failure e =>
      dsimp only
      split_ifs <;> first | exact Or.inl rfl | exact Or.inr ⟨_, rfl⟩
  | failure e =>
    dsimp only
    split_ifs <;> first | exact Or.inl rfl | exact Or.inr ⟨_, rfl⟩

/-- C10: the orchestrator's failure map is a dict keyed by entity ID: one
iteration of the per-ID pipeline preserves key uniqueness (at most one
`{type, error}` entry per failed ID), and recording a failure for an ID that
already has an entry REPLACES that entry rather than accumulating a second
one. -/
theorem c10_failure_map_unique_keys :
    (∀ (mr : Option Nat) (st : OrchState) (a : Nat) (c : Fetched CrawlData)
        (api : Fetched ApiRecord), failKeysNodup st.failed →
        failKeysNodup (process_game_step mr st a c api).failed) ∧
    (∀ (l : List (Nat × FailInfo)) (a : Nat) (info : FailInfo),
        lookupFail (setFailEntry l a info) a = some info) := by
  constructor
  · intro mr st a c api h
    rcases process_game_step_failed_shape mr st a c api with heq | ⟨info, heq⟩
    · rw [heq]; exact h
    · rw [heq]; exact setFailEntry_nodup st.failed a info h
  · exact setFailEntry_lookup

instance (l : List (Nat × FailInfo)) : Decidable (failKeysNodup l) := by
  unfold failKeysNodup; infer_instance

/-- Witness for C10: one concrete processing step on a map that already holds
an entry for the ID replaces it and keeps the keys unique. -/
theorem c10_failure_map_unique_keys_witness :
    failKeysNodup (process_game_step (some 100)
      { failed := [(7, { ftype := "api_failed", error := "id_mismatch" })] } 7
      (Fetched.failure FetchError.invalid_game_page) (Fetched.success {})).failed ∧
    lookupFail (setFailEntry [(7, { ftype := "api_failed", error := "id_mismatch" })] 7
      { ftype := "crawling_failed", error := "invalid_game_page" }) 7 =
      some { ftype := "crawling_failed", error := "invalid_game_page" } :=
  ⟨(c10_failure_map_unique_keys.1 (some 100) _ 7 _ _ (by decide)),
   c10_failure_map_unique_keys.2 _ 7 _⟩



/-! ## Claim C4 -/

theorem dedupApiGo_drop_seen (r' : ApiRecord) (a : Nat) (h' : appIdOf r' = some a) :
    ∀ (l1 l2 : List ApiRecord) (seen : List Nat), a ∈ seen →
      dedupApiGo seen (l1 ++ r' :: l2) = dedupApiGo seen (l1 ++ l2) := by
  intro l1
  induction l1 with
  | nil =>
    intro l2 seen ha
    simp only [List.nil_append, dedupApiGo, h']
    rw [if_pos (by simpa using ha)]
  | cons x xs ih =>
    intro l2 seen ha
    simp only [List.cons_append, dedupApiGo]
    cases hx : appIdOf x with
    | none => simp only [hx]; exact ih l2 seen ha
    | some b =>
      simp only [hx]
      by_cases hb : seen.contains b = true
      · rw [if_pos hb, if_pos hb]
        exact ih l2 seen ha
      · rw [if_neg hb, if_neg hb]
        exact congrArg (List.cons x) (ih l2 (b :: seen) (List.mem_cons.2 (Or.inr ha)))

/-- C4 (amended): the hybrid batch deduplicates by id keeping the FIRST
occurrence — a later record carrying an id that already occurred earlier in
the batch is dropped by the dedup pass. -/
theorem c4_dedup_keeps_first (r r' : ApiRecord) (l1 l2 : List ApiRecord) (a : Nat)
    (h : appIdOf r = some a) (h' : appIdOf r' = some a) :
    dedupApi (r :: (l1 ++ r' :: l2)) = dedupApi (r :: (l1 ++ l2)) := by
  unfold dedupApi
  simp only [dedupApiGo, h]
  rw [if_neg (by simp), if_neg (by simp)]
  rw [dedupApiGo_drop_seen r' a h' l1 l2 [a] (by simp)]

def c4recA : ApiRecord := { steam_appid := some 1, name := "A" }
def c4recB : ApiRecord := { steam_appid := some 1, name := "B" }

set_option maxRecDepth 400000 in
/-- C4 (counterexample): a batch holding the same id twice with different
titles stores the EARLIER version ("A"), not the later one ("B") as the claim
states: the dedup pass keeps the first occurrence. -/
theorem c4_counterexample :
    dedupApi [c4recA, c4recB] = [c4recA] ∧
    ((insert_steam_api_games_batch idConverters [] 3 [c4recA, c4recB]
        Db.empty).2.findGame 1).map GameRow.title = some "A" ∧
    api_title c4recB = "B" ∧ ("A" : String) ≠ "B" := by
  refine ⟨by decide, by decide, by decide, by decide⟩

/-- Witness for C4's amended theorem at a concrete duplicated batch. -/
theorem c4_dedup_keeps_first_witness :
    dedupApi [c4recA, c4recB] = dedupApi [c4recA] :=
  c4_dedup_keeps_first c4recA c4recB [] [] 1 (by decide) (by decide)



/-! ## Store-level helper lemmas -/

theorem hasGame_iff_findGame (db : Db) (a : Nat) :
    db.hasGame a = true ↔ (db.findGame a).isSome := by
  unfold Db.hasGame Db.findGame
  rw [List.any_eq_true, List.find?_isSome]

theorem findGame_eq_some_app_id (db : Db) (a : Nat) (g : GameRow)
    (h : db.findGame a = some g) : g.app_id = a := by
  have := List.find?_some h
  simpa using this

theorem replaceFirstGame_find_same (l : List GameRow) (g : GameRow) (e : GameRow)
    (h : l.find? (fun x => x.app_id == g.app_id) = some e) :
    (replaceFirstGame l g).find? (fun x => x.app_id == g.app_id) = some g := by
  induction l with
  | nil => simp at h
  | cons x xs ih =>
    unfold replaceFirstGame
    by_cases hx : (x.app_id == g.app_id) = true
    · rw [if_pos hx]
      simp [List.find?_cons]
    · rw [if_neg hx]
      simp only [List.find?_cons] at h ⊢
      rw [Bool.not_eq_true] at hx
      rw [hx] at h ⊢
      exact ih h

theorem replaceFirstGame_find_other (l : List GameRow) (g : GameRow) (b : Nat)
    (hb : b ≠ g.app_id) :
    (replaceFirstGame l g).find? (fun x => x.app_id == b) =
      l.find? (fun x => x.app_id == b) := by
  induction l with
  | nil => rfl
  | cons x xs ih =>
    unfold replaceFirstGame
    by_cases hx : (x.app_id == g.app_id) = true
    · rw [if_pos hx]
      have hxg : x.app_id = g.app_id := by simpa using hx
      have hxb : (x.app_id == b) = false := by
        simp only [beq_eq_false_iff_ne, ne_eq, hxg]
        exact fun h => hb h.symm
      have hgb : (g.app_id == b) = false := by
        simp only [beq_eq_false_iff_ne, ne_eq]
        exact fun h => hb h.symm
      simp only [List.find?_cons, hxb, hgb]
    · rw [if_neg hx]
      simp only [List.find?_cons]
      cases hxb : (x.app_id == b) with
      | true => rfl
      | false => exact ih

theorem findGame_setGameRow_same (db : Db) (g : GameRow) (a : Nat) (e : GameRow)
    (hga : g.app_id = a) (h : db.findGame a = some e) :
    (db.setGameRow g).findGame a = some g := by
  unfold Db.setGameRow Db.findGame
  subst hga
  exact replaceFirstGame_find_same db.games g e h

theorem findGame_setGameRow_other (db : Db) (g : GameRow) (b : Nat) (hb : b ≠ g.app_id) :
    (db.setGameRow g).findGame b = db.findGame b := by
  unfold Db.setGameRow Db.findGame
  exact replaceFirstGame_find_other db.games g b hb

theorem findGame_addGameRow_found (db : Db) (g : GameRow) (b : Nat) (e : GameRow)
    (h : db.findGame b = some e) : (db.addGameRow g).findGame b = some e := by
  unfold Db.addGameRow Db.findGame
  unfold Db.findGame at h
  simp [List.find?_append, h]

theorem findGame_addGameRow_new (db : Db) (g : GameRow) (a : Nat)
    (hga : g.app_id = a) (h : db.findGame a = none) :
    (db.addGameRow g).findGame a = some g := by
  unfold Db.addGameRow Db.findGame
  unfold Db.findGame at h
  simp [List.find?_append, h, List.find?, hga]

theorem findGame_addGameRow_other (db : Db) (g : GameRow) (b : Nat)
    (hb : b ≠ g.app_id) (h : db.findGame b = none) :
    (db.addGameRow g).findGame b = none := by
  unfold Db.addGameRow Db.findGame
  unfold Db.findGame at h
  have hgb : (g.app_id == b) = false := by
    simp only [beq_eq_false_iff_ne, ne_eq]
    exact fun hh => hb hh.symm
  simp [List.find?_append, h, List.find?_cons, hgb]

/-! ## Lemmas about the genre snapshot-diff -/

/-- A genre name is stored for a game. -/
def genreNameMem (db : Db) (a : Nat) (s : String) : Prop :=
  ∃ gr ∈ db.genres, gr.app_id = a ∧ gr.genre_name = s

instance (db : Db) (a : Nat) (s : String) : Decidable (genreNameMem db a s) := by
  unfold genreNameMem; infer_instance

theorem existingGenreNames_mem (db : Db) (a : Nat) (s : String) :
    s ∈ existingGenreNames db a ↔ genreNameMem db a s := by
  unfold existingGenreNames genreNameMem
  rw [List.mem_dedup, List.mem_map]
  constructor
  · rintro ⟨gr, hgr, rfl⟩
    rw [List.mem_filter] at hgr
    exact ⟨gr, hgr.1, by simpa using hgr.2, rfl⟩
  · rintro ⟨gr, hgr, ha, rfl⟩
    exact ⟨gr, List.mem_filter.2 ⟨hgr, by simpa using ha⟩, rfl⟩

theorem newGenreNames_mem (names : List String) (s : String) :
    s ∈ newGenreNames names ↔ s ∈ names ∧ ¬s.isEmpty := by
  unfold newGenreNames
  rw [List.mem_dedup, List.mem_filter]
  simp

theorem foldl_addGenre_games (l : List String) (db : Db) (a : Nat) :
    (l.foldl (fun d name => if !name.isEmpty then d.addGenre a (strTake 50 name) else d) db).games
      = db.games := by
  induction l generalizing db with
  | nil => rfl
  | cons x xs ih =>
    simp only [List.foldl_cons]
    rw [ih]
    split <;> rfl

theorem foldl_addGenre_tags (l : List String) (db : Db) (a : Nat) :
    (l.foldl (fun d name => if !name.isEmpty then d.addGenre a (strTake 50 name) else d) db).tags
      = db.tags := by
  induction l generalizing db with
  | nil => rfl
  | cons x xs ih =>
    simp only [List.foldl_cons]
    rw [ih]
    split <;> rfl

theorem foldl_addGenre_pricing (l : List String) (db : Db) (a : Nat) :
    (l.foldl (fun d name => if !name.isEmpty then d.addGenre a (strTake 50 name) else d) db).pricing
      = db.pricing := by
  induction l generalizing db with
  | nil => rfl
  | cons x xs ih =>
    simp only [List.foldl_cons]
    rw [ih]
    split <;> rfl

theorem foldl_addGenre_reviews (l : List String) (db : Db) (a : Nat) :
    (l.foldl (fun d name => if !name.isEmpty then d.addGenre a (strTake 50 name) else d) db).reviews
      = db.reviews := by
  induction l generalizing db with
  | nil => rfl
  | cons x xs ih =>
    simp only [List.foldl_cons]
    rw [ih]
    split <;> rfl

theorem foldl_addGenre_genres (l : List String) (db : Db) (a : Nat) :
    (l.foldl (fun d name => if !name.isEmpty then d.addGenre a (strTake 50 name) else d) db).genres
      = db.genres ++ (l.filter (fun n => !n.isEmpty)).map
          (fun n => ({ app_id := a, genre_name := strTake 50 n } : GenreRow)) := by
  induction l generalizing db with
  | nil => simp
  | cons x xs ih =>
    simp only [List.foldl_cons, List.filter_cons]
    by_cases hx : (!x.isEmpty) = true
    · rw [if_pos hx, if_pos hx, ih]
      simp [Db.addGenre]
    · rw [if_neg hx, if_neg hx, ih]

theorem update_genres_games (db : Db) (a : Nat) (names : List String) :
    (update_genres db a names).games = db.games := by
  unfold update_genres
  rw [foldl_addGenre_games]
  split <;> rfl

theorem update_genres_tags (db : Db) (a : Nat) (names : List String) :
    (update_genres db a names).tags = db.tags := by
  unfold update_genres
  rw [foldl_addGenre_tags]
  split <;> rfl

theorem update_genres_pricing (db : Db) (a : Nat) (names : List String) :
    (update_genres db a names).pricing = db.pricing := by
  unfold update_genres
  rw [foldl_addGenre_pricing]
  split <;> rfl

theorem update_genres_reviews (db : Db) (a : Nat) (names : List String) :
    (update_genres db a names).reviews = db.reviews := by
  unfold update_genres
  rw [foldl_addGenre_reviews]
  split <;> rfl

/-- The stored genre rows of OTHER games are untouched by the snapshot diff. -/
theorem update_genres_other (db : Db) (a : Nat) (names : List String) (b : Nat)
    (hb : b ≠ a) (s : String) :
    genreNameMem (update_genres db a names) b s ↔ genreNameMem db b s := by
  unfold update_genres genreNameMem
  rw [foldl_addGenre_genres]
  constructor
  · rintro ⟨gr, hgr, hba, rfl⟩
    rw [List.mem_append] at hgr
    rcases hgr with hgr | hgr
    · refine ⟨gr, ?_, hba, rfl⟩
      split at hgr
      · exact hgr
      · unfold Db.deleteGenres at hgr
        simp only [List.mem_filter] at hgr
        exact hgr.1
    · exfalso
      rcases List.mem_map.1 hgr with ⟨n, _, hn⟩
      apply hb
      rw [← hba, ← hn]
  · rintro ⟨gr, hgr, hba, rfl⟩
    refine ⟨gr, List.mem_append.2 (Or.inl ?_), hba, rfl⟩
    split
    · exact hgr
    · unfold Db.deleteGenres
      simp only [List.mem_filter]
      refine ⟨hgr, ?_⟩
      simp [hba, hb]


theorem mem_genres_to_delete (db : Db) (a : Nat) (names : List String) (s : String) :
    s ∈ genres_to_delete db a names ↔
      s ∈ existingGenreNames db a ∧ s ∉ newGenreNames names := by
  simp [genres_to_delete, List.mem_filter]

theorem mem_genres_to_add (db : Db) (a : Nat) (names : List String) (s : String) :
    s ∈ genres_to_add db a names ↔
      s ∈ newGenreNames names ∧ s ∉ existingGenreNames db a := by
  simp [genres_to_add, List.mem_filter]

/-- The concrete genre table after the snapshot diff: stored rows that the
deletion pass keeps, followed by the inserted (truncated) rows. -/
theorem update_genres_genres (db : Db) (a : Nat) (names : List String) :
    (update_genres db a names).genres =
      (if (genres_to_delete db a names).isEmpty then db.genres
       else db.genres.filter (fun gr =>
         !(gr.app_id == a && (genres_to_delete db a names).contains gr.genre_name))) ++
      ((genres_to_add db a names).filter (fun n => !n.isEmpty)).map
        (fun n => ({ app_id := a, genre_name := strTake 50 n } : GenreRow)) := by
  unfold update_genres
  rw [foldl_addGenre_genres]
  split <;> rfl

/-- When the stored and incoming genre-name sets coincide, the snapshot diff
performs no write at all and returns the store unchanged. -/
theorem update_genres_noop (db : Db) (a : Nat) (names : List String)
    (h : ∀ s, s ∈ existingGenreNames db a ↔ s ∈ newGenreNames names) :
    update_genres db a names = db := by
  have hdel : genres_to_delete db a names = [] := by
    rw [List.eq_nil_iff_forall_not_mem]
    intro s hs
    rw [mem_genres_to_delete] at hs
    exact hs.2 ((h s).1 hs.1)
  have hadd : genres_to_add db a names = [] := by
    rw [List.eq_nil_iff_forall_not_mem]
    intro s hs
    rw [mem_genres_to_add] at hs
    exact hs.2 ((h s).2 hs.1)
  unfold update_genres
  rw [hdel, hadd]
  simp

set_option maxHeartbeats 1000000 in
/-- After the snapshot diff, provided every (non-empty) incoming genre name
survives the 50-character truncation unchanged, the stored genre-name set of
the game equals the incoming set. -/
theorem update_genres_post (db : Db) (a : Nat) (names : List String)
    (htrunc : ∀ n ∈ names, ¬n.isEmpty → strTake 50 n = n) (s : String) :
    genreNameMem (update_genres db a names) a s ↔ s ∈ newGenreNames names := by
  have htr : ∀ n ∈ newGenreNames names, strTake 50 n = n := by
    intro n hn
    rcases (newGenreNames_mem names n).1 hn with ⟨h1, h2⟩
    exact htrunc n h1 h2
  constructor
  · rintro ⟨gr, hgr, hba, rfl⟩
    rw [update_genres_genres, List.mem_append] at hgr
    rcases hgr with hgr | hgr
    · -- kept row: not deleted, hence its name is in the incoming set
      by_cases hnew : gr.genre_name ∈ newGenreNames names
      · exact hnew
      · exfalso
        have hdel : gr.genre_name ∈ genres_to_delete db a names := by
          rw [mem_genres_to_delete]
          constructor
          · apply (existingGenreNames_mem db a gr.genre_name).2
            refine ⟨gr, ?_, hba, rfl⟩
            split at hgr
            · exact hgr
            · exact (List.mem_filter.1 hgr).1
          · exact hnew
        split at hgr
        · next hemp =>
          rw [List.isEmpty_iff] at hemp
          rw [hemp] at hdel
          exact List.not_mem_nil _ hdel
        · have hcond := (List.mem_filter.1 hgr).2
          rw [hba] at hcond
          simp only [beq_self_eq_true, Bool.true_and, Bool.not_eq_true'] at hcond
          rw [← Bool.not_eq_true] at hcond
          exact hcond (by simpa using hdel)
    · -- inserted row
      rcases List.mem_map.1 hgr with ⟨n, hn, heq⟩
      have hnnew : n ∈ newGenreNames names :=
        ((mem_genres_to_add db a names n).1 (List.mem_filter.1 hn).1).1
      have hname : gr.genre_name = n := by
        rw [← heq]
        simpa using htr n hnnew
      rw [hname]
      exact hnnew
  · intro hs
    by_cases hex : s ∈ existingGenreNames db a
    · rcases (existingGenreNames_mem db a s).1 hex with ⟨gr, hgr, hba, rfl⟩
      refine ⟨gr, ?_, hba, rfl⟩
      rw [update_genres_genres, List.mem_append]
      left
      split
      · exact hgr
      · rw [List.mem_filter]
        refine ⟨hgr, ?_⟩
        have hnd : gr.genre_name ∉ genres_to_delete db a names := by
          rw [mem_genres_to_delete]
          rintro ⟨-, h2⟩
          exact h2 hs
        simp only [Bool.not_eq_true', Bool.and_eq_false_iff]
        right
        rw [← Bool.not_eq_true]
        intro hc
        exact hnd (by simpa using hc)
    · refine ⟨{ app_id := a, genre_name := strTake 50 s }, ?_, rfl, ?_⟩
      · rw [update_genres_genres, List.mem_append]
        right
        rw [List.mem_map]
        refine ⟨s, ?_, rfl⟩
        rw [List.mem_filter]
        have hne : (!s.isEmpty) = true := by
          simpa using ((newGenreNames_mem names s).1 hs).2
        exact ⟨(mem_genres_to_add db a names s).2 ⟨hs, hex⟩, hne⟩
      · show strTake 50 s = s
        exact htr s hs


theorem genres_to_add_all_truthy (db : Db) (a : Nat) (names : List String) :
    (genres_to_add db a names).filter (fun n => !n.isEmpty) = genres_to_add db a names := by
  rw [List.filter_eq_self]
  intro n hn
  have := ((mem_genres_to_add db a names n).1 hn).1
  simpa using ((newGenreNames_mem names n).1 this).2

theorem foldl_addGenre_writes (l : List String) (db : Db) (a : Nat) :
    (l.foldl (fun d name => if !name.isEmpty then d.addGenre a (strTake 50 name) else d) db).writes
      = db.writes + (l.filter (fun n => !n.isEmpty)).length := by
  induction l generalizing db with
  | nil => simp
  | cons x xs ih =>
    simp only [List.foldl_cons, List.filter_cons]
    by_cases hx : (!x.isEmpty) = true
    · rw [if_pos hx, if_pos hx, ih]
      simp [Db.addGenre]
      omega
    · rw [if_neg hx, if_neg hx, ih]

/-- The genre snapshot-diff writes exactly the deleted rows (stored names that
dropped out of the incoming set) plus the added names (incoming names not yet
stored): the symmetric difference only. -/
theorem update_genres_writes (db : Db) (a : Nat) (names : List String) :
    (update_genres db a names).writes = db.writes +
      (db.genres.filter (fun gr =>
        gr.app_id == a && (genres_to_delete db a names).contains gr.genre_name)).length +
      (genres_to_add db a names).length := by
  unfold update_genres
  rw [foldl_addGenre_writes]
  rw [genres_to_add_all_truthy]
  split
  · next hemp =>
    rw [List.isEmpty_iff] at hemp
    rw [hemp]
    simp
  · unfold Db.deleteGenres
    rfl

/-- A stored genre row whose name is still in the incoming set survives the
snapshot diff untouched. -/
theorem update_genres_common_preserved (db : Db) (a : Nat) (names : List String)
    (gr : GenreRow) (hgr : gr ∈ db.genres) (hn : gr.genre_name ∈ newGenreNames names) :
    gr ∈ (update_genres db a names).genres := by
  rw [update_genres_genres, List.mem_append]
  left
  split
  · exact hgr
  · rw [List.mem_filter]
    refine ⟨hgr, ?_⟩
    have hnd : gr.genre_name ∉ genres_to_delete db a names := by
      rw [mem_genres_to_delete]
      rintro ⟨-, h2⟩
      exact h2 hn
    simp only [Bool.not_eq_true', Bool.and_eq_false_iff]
    right
    rw [← Bool.not_eq_true]
    intro hc
    exact hnd (by simpa using hc)

/-! ## Lemmas about the user-tag full replacement -/

theorem update_user_tags_noop (db : Db) (a : Nat) (tags : List String)
    (h : pairSetEq (existingTagPairs db a) (newTagPairs tags) = true) :
    update_user_tags db a tags = db := by
  unfold update_user_tags
  rw [if_pos h]

theorem foldl_addTag_tags (l : List (String × Nat)) (db : Db) (a : Nat) :
    (l.foldl (fun d p => d.addTag { app_id := a, tag_name := p.1, tag_order := p.2 }) db).tags
      = db.tags ++ l.map (fun p => ({ app_id := a, tag_name := p.1, tag_order := p.2 } : TagRow)) := by
  induction l generalizing db with
  | nil => simp
  | cons x xs ih =>
    simp only [List.foldl_cons, List.map_cons]
    rw [ih]
    simp [Db.addTag]

theorem foldl_addTag_writes (l : List (String × Nat)) (db : Db) (a : Nat) :
    (l.foldl (fun d p => d.addTag { app_id := a, tag_name := p.1, tag_order := p.2 }) db).writes
      = db.writes + l.length := by
  induction l generalizing db with
  | nil => simp
  | cons x xs ih =>
    simp only [List.foldl_cons]
    rw [ih]
    simp [Db.addTag]
    omega

/-- When the (name, order) sets differ, `_update_user_tags` deletes EVERY
stored tag row of the game and re-inserts the WHOLE incoming set — a full
replacement, writing the common elements too, not just the symmetric
difference. -/
theorem update_user_tags_replace (db : Db) (a : Nat) (tags : List String)
    (h : pairSetEq (existingTagPairs db a) (newTagPairs tags) = false) :
    (update_user_tags db a tags).tags =
      db.tags.filter (fun t => !(t.app_id == a)) ++
        (newTagPairs tags).map
          (fun p => ({ app_id := a, tag_name := p.1, tag_order := p.2 } : TagRow)) ∧
    (update_user_tags db a tags).writes =
      db.writes + (db.tags.filter (fun t => t.app_id == a)).length +
        (newTagPairs tags).length := by
  unfold update_user_tags
  rw [if_neg (by simp [h])]
  constructor
  · rw [foldl_addTag_tags]
    rfl
  · rw [foldl_addTag_writes]
    rfl

/-! ## Claim C7 -/

def c7db : Db :=
  { games := [{ app_id := 1, title := "G" }],
    tags := [{ app_id := 1, tag_name := "A", tag_order := 1 },
             { app_id := 1, tag_name := "B", tag_order := 2 }] }

/-- C7 (counterexample): tags are NOT written as a symmetric difference. With
stored tags (A,1),(B,2) and incoming [A, C], the common pair (A,1) is not in
the symmetric difference, whose size is 2 ((B,2) removed, (C,2) added), yet
the update performs 4 row writes: it deletes both stored rows, (A,1)
included, and re-inserts the full new set. -/
theorem c7_counterexample :
    ("A", 1) ∈ existingTagPairs c7db 1 ∧ ("A", 1) ∈ newTagPairs ["A", "C"] ∧
    ((existingTagPairs c7db 1).filter (fun p => !((newTagPairs ["A", "C"]).contains p))).length +
      ((newTagPairs ["A", "C"]).filter (fun p => !((existingTagPairs c7db 1).contains p))).length = 2 ∧
    (update_user_tags c7db 1 ["A", "C"]).writes = 4 := by
  exact ⟨by decide, by decide, by decide, by decide⟩

/-- C7 (amended): child collections split: the GENRE update writes only the
symmetric difference (stored rows whose name is still incoming survive
untouched; the write count is deleted-stored-minus-incoming plus
added-incoming-minus-stored), while the TAG update is all-or-nothing: if the
stored (name, order) set equals the incoming one nothing is written, and on
any difference every stored tag row of the entity is deleted and the whole
incoming set inserted (common elements rewritten too). -/
theorem c7_child_collection_writes (db : Db) (a : Nat) (names : List String)
    (tags : List String) (gr : GenreRow) (hgr : gr ∈ db.genres)
    (hname : gr.genre_name ∈ newGenreNames names) :
    gr ∈ (update_genres db a names).genres ∧
    (update_genres db a names).writes = db.writes +
      (db.genres.filter (fun g =>
        g.app_id == a && (genres_to_delete db a names).contains g.genre_name)).length +
      (genres_to_add db a names).length ∧
    (pairSetEq (existingTagPairs db a) (newTagPairs tags) = true →
      update_user_tags db a tags = db) ∧
    (pairSetEq (existingTagPairs db a) (newTagPairs tags) = false →
      (update_user_tags db a tags).tags =
        db.tags.filter (fun t => !(t.app_id == a)) ++
          (newTagPairs tags).map
            (fun p => ({ app_id := a, tag_name := p.1, tag_order := p.2 } : TagRow)) ∧
      (update_user_tags db a tags).writes =
        db.writes + (db.tags.filter (fun t => t.app_id == a)).length +
          (newTagPairs tags).length) :=
  ⟨update_genres_common_preserved db a names gr hgr hname,
   update_genres_writes db a names,
   update_user_tags_noop db a tags,
   update_user_tags_replace db a tags⟩

def c7gdb : Db :=
  { games := [{ app_id := 1, title := "G" }],
    genres := [{ app_id := 1, genre_name := "RPG" }] }

def c7row : GenreRow := { app_id := 1, genre_name := "RPG" }

/-- Witness for C7's amended theorem on the concrete store of the
counterexample. -/
theorem c7_child_collection_writes_witness :
    c7row ∈ (update_genres c7gdb 1 ["RPG", "Indie"]).genres ∧
    pairSetEq (existingTagPairs c7gdb 1) (newTagPairs ["A", "C"]) = false ∧
    (update_user_tags c7gdb 1 ["A", "C"]).writes = c7gdb.writes + 0 + 2 :=
  ⟨(c7_child_collection_writes c7gdb 1 ["RPG", "Indie"] [] c7row
      (by decide) (by decide)).1,
   by decide,
   ((c7_child_collection_writes c7gdb 1 ["RPG", "Indie"] ["A", "C"] c7row
      (by decide) (by decide)).2.2.2 (by decide)).2⟩



/-! ## Lemmas about the single-record inserts -/

theorem chainSteps_snd_false (l : List (Bool × (GameRow → GameRow))) (p : GameRow × Bool)
    (h : (chainSteps l p).2 = false) : (∀ st ∈ l, st.1 = false) ∧ p.2 = false := by
  induction l generalizing p with
  | nil => exact ⟨by simp, h⟩
  | cons st rest ih =>
    have h2 := ih (chainStep st.1 st.2 p) h
    have hstep : (chainStep st.1 st.2 p).2 = false := h2.2
    unfold chainStep at hstep
    rcases hb : st.1 with _ | _
    · rw [hb] at hstep
      simp only [Bool.false_eq_true, if_false] at hstep
      refine ⟨?_, hstep⟩
      intro x hx
      rcases List.mem_cons.1 hx with rfl | hx
      · exact hb
      · exact h2.1 x hx
    · rw [hb] at hstep
      simp at hstep

theorem apiUpdateChain_false_agrees (cv : Converters) (e : GameRow) (r : ApiRecord)
    (h : (apiUpdateChain cv e r).2 = false) : apiAgrees cv e r := by
  unfold apiUpdateChain at h
  have hall := (chainSteps_snd_false _ _ h).1
  unfold apiFieldSteps at hall
  exact ⟨
    (by simpa using hall (e.title != api_title r, GameRow.setTitle (api_title r)) (by simp)),
    (by simpa using hall (e.description != r.short_description, GameRow.setDescription (r.short_description)) (by simp)),
    (by simpa using hall (e.detailed_description != api_detailed_description cv r, GameRow.setDetailedDescription (api_detailed_description cv r)) (by simp)),
    (by simpa using hall (e.release_date != api_release_date cv r, GameRow.setReleaseDate (api_release_date cv r)) (by simp)),
    (by simpa using hall (e.developer != api_developer r, GameRow.setDeveloper (api_developer r)) (by simp)),
    (by simpa using hall (e.publisher != api_publisher r, GameRow.setPublisher (api_publisher r)) (by simp)),
    (by simpa using hall (e.header_image_url != api_header_image r, GameRow.setHeaderImageUrl (api_header_image r)) (by simp)),
    (by simpa using hall (e.system_requirements_minimum != api_sysreq_min cv r, GameRow.setSysreqMin (api_sysreq_min cv r)) (by simp)),
    (by simpa using hall (e.system_requirements_recommended != api_sysreq_rec cv r, GameRow.setSysreqRec (api_sysreq_rec cv r)) (by simp)),
    (by simpa using hall (e.metacritic_score != api_metacritic r, GameRow.setMetacriticScore (api_metacritic r)) (by simp))⟩

theorem findGame_update_genres (db : Db) (x : Nat) (names : List String) (b : Nat) :
    (update_genres db x names).findGame b = db.findGame b := by
  unfold Db.findGame
  rw [update_genres_games]

/-- The existing-game branch of `insert_steam_api_game` succeeds and leaves
the game's row agreeing with the record on all ten compared fields —
including empty and `None` incoming values, which overwrite non-empty stored
values just like any other difference. -/
theorem insert_api_existing (cv : Converters) (now : Nat) (db : Db) (r : ApiRecord)
    (a : Nat) (e : GameRow) (hde : r.dict_empty = false) (hid : appIdOf r = some a)
    (hf : db.findGame a = some e) :
    (insert_steam_api_game cv [] now db r).1 = true ∧
    ∃ g, (insert_steam_api_game cv [] now db r).2.findGame a = some g ∧ apiAgrees cv g r := by
  have hea : e.app_id = a := findGame_eq_some_app_id db a e hf
  unfold insert_steam_api_game
  rw [hde, hid]
  simp only [Bool.false_eq_true, if_false, List.contains_nil]
  rw [hf]
  refine ⟨rfl, ?_⟩
  dsimp only
  rw [findGame_update_genres]
  rcases hp : (apiUpdateChain cv e r).2 with _ | _
  · -- nothing differed: the stored row already agrees
    simp only [Bool.false_eq_true, if_false]
    refine ⟨e, hf, ?_⟩
    exact apiUpdateChain_false_agrees cv e r hp
  · -- some field differed: the chain result (stamped) is stored
    rw [if_pos rfl, if_pos rfl]
    refine ⟨GameRow.setUpdatedAt (some now) (apiUpdateChain cv e r).1, ?_, ?_⟩
    · apply findGame_setGameRow_same db _ a e _ hf
      show (GameRow.setUpdatedAt (some now) (apiUpdateChain cv e r).1).app_id = a
      rw [GameRow.app_id_setUpdatedAt, apiUpdateChain_app_id, hea]
    · have hagr := apiUpdateChain_agrees cv e r
      unfold apiAgrees at hagr ⊢
      simpa using hagr

/-- The new-game branch of `insert_steam_api_game` succeeds and stores exactly
the constructed row — whatever the title is, an empty one included. -/
theorem insert_api_new (cv : Converters) (now : Nat) (db : Db) (r : ApiRecord)
    (a : Nat) (hde : r.dict_empty = false) (hid : appIdOf r = some a)
    (hf : db.findGame a = none) :
    (insert_steam_api_game cv [] now db r).1 = true ∧
    (insert_steam_api_game cv [] now db r).2.findGame a = some (apiNewRow cv r a) := by
  unfold insert_steam_api_game
  rw [hde, hid]
  simp only [Bool.false_eq_true, if_false, List.contains_nil]
  rw [hf]
  refine ⟨rfl, ?_⟩
  rw [findGame_update_genres]
  exact findGame_addGameRow_new db _ a rfl hf


theorem foldl_addTag_games (l : List (String × Nat)) (db : Db) (a : Nat) :
    (l.foldl (fun d p => d.addTag { app_id := a, tag_name := p.1, tag_order := p.2 }) db).games
      = db.games := by
  induction l generalizing db with
  | nil => rfl
  | cons x xs ih => simp only [List.foldl_cons]; rw [ih]; rfl

theorem update_user_tags_games (db : Db) (a : Nat) (tags : List String) :
    (update_user_tags db a tags).games = db.games := by
  unfold update_user_tags
  dsimp only
  split
  · rfl
  · rw [foldl_addTag_games]
    rfl

theorem update_review_info_games (db : Db) (a : Nat) (ri : ReviewInfo) (t : Nat) :
    (update_review_info db a ri t).games = db.games := by
  unfold update_review_info
  dsimp only
  split
  · split <;> rfl
  · rfl

theorem update_localized_pricing_games (db : Db) (a : Nat) (lp : PriceInfo) (t : Nat) :
    (update_localized_pricing db a lp t).games = db.games := by
  unfold update_localized_pricing
  dsimp only
  split
  · split <;> rfl
  · rfl

theorem crawl_tail_findGame (db : Db) (c : CrawlData) (app_id : Nat) (t : Nat) (b : Nat) :
    ((match c.localized_price with
      | some lp => update_localized_pricing
          (match c.review_info with
           | some ri => update_review_info
               (if c.user_tags.isEmpty then db else update_user_tags db app_id c.user_tags)
               app_id ri t
           | none =>
               (if c.user_tags.isEmpty then db else update_user_tags db app_id c.user_tags))
          app_id lp t
      | none =>
          (match c.review_info with
           | some ri => update_review_info
               (if c.user_tags.isEmpty then db else update_user_tags db app_id c.user_tags)
               app_id ri t
           | none =>
               (if c.user_tags.isEmpty then db
                else update_user_tags db app_id c.user_tags))) : Db).findGame b
      = db.findGame b := by
  have h1 : ∀ d : Db,
      (if c.user_tags.isEmpty then d else update_user_tags d app_id c.user_tags).games
        = d.games := by
    intro d
    split
    · rfl
    · exact update_user_tags_games d app_id c.user_tags
  unfold Db.findGame
  cases c.localized_price <;> cases c.review_info <;>
    simp only [update_localized_pricing_games, update_review_info_games, h1]

/-- The existing-game branch of `insert_steam_crawling_game`: the title is
overwritten only when the incoming title differs AND is non-empty; an empty
incoming title leaves the stored title intact, and a non-empty one always
ends up stored. -/
theorem insert_crawl_existing_title (now : Nat) (db : Db) (c : CrawlData)
    (a : Nat) (e : GameRow) (hde : c.dict_empty = false) (hid : c.app_id = some a)
    (ha0 : a ≠ 0) (hf : db.findGame a = some e) :
    (insert_steam_crawling_game [] now db c).1 = true ∧
    ((strTake 255 c.title).isEmpty = true →
      ((insert_steam_crawling_game [] now db c).2.findGame a).map GameRow.title
        = some e.title) ∧
    ((strTake 255 c.title).isEmpty = false →
      ((insert_steam_crawling_game [] now db c).2.findGame a).map GameRow.title
        = some (strTake 255 c.title)) := by
  have hea : e.app_id = a := findGame_eq_some_app_id db a e hf
  unfold insert_steam_crawling_game
  rw [hde, hid]
  simp only [Bool.false_eq_true, if_false, List.contains_nil]
  rw [if_neg (by simpa using ha0)]
  dsimp only
  rw [hf]
  dsimp only
  refine ⟨rfl, ?_, ?_⟩
  · intro hemp
    rw [crawl_tail_findGame]
    rw [if_neg (by simp [hemp])]
    rw [hf]
    rfl
  · intro hemp
    rw [crawl_tail_findGame]
    by_cases hdiff : e.title = strTake 255 c.title
    · rw [if_neg (by simp [hdiff])]
      rw [hf]
      simp [hdiff]
    · rw [if_pos ⟨hdiff, by simp [hemp]⟩]
      rw [findGame_setGameRow_same db _ a e (by simpa using hea) hf]
      rfl

/-- The new-game branch of `insert_steam_crawling_game` stores the minimal
row with whatever title the record carries — an empty one included. -/
theorem insert_crawl_new (now : Nat) (db : Db) (c : CrawlData)
    (a : Nat) (hde : c.dict_empty = false) (hid : c.app_id = some a)
    (ha0 : a ≠ 0) (hf : db.findGame a = none) :
    (insert_steam_crawling_game [] now db c).1 = true ∧
    (insert_steam_crawling_game [] now db c).2.findGame a =
      some { app_id := a, title := strTake 255 c.title,
             description := crawlOnlyDescription,
             updated_at := some (c.crawled_at.getD now) } := by
  unfold insert_steam_crawling_game
  rw [hde, hid]
  simp only [Bool.false_eq_true, if_false, List.contains_nil]
  rw [if_neg (by simpa using ha0)]
  dsimp only
  rw [hf]
  dsimp only
  refine ⟨rfl, ?_⟩
  rw [crawl_tail_findGame]
  exact findGame_addGameRow_new db _ a rfl hf


/-! ## Claim C3 -/

def c3db : Db :=
  { games := [{ app_id := 15100, title := "AC", description := "Stealth action",
                developer := some "Ubisoft" }] }

def c3rec : ApiRecord := { steam_appid := some 15100, name := "AC" }

set_option maxRecDepth 400000 in
/-- C3 (counterexample): entity 15100 is stored with developer "Ubisoft" and a
non-empty description; syncing an API record whose developers list is empty
and whose short description is empty sets the stored developer to NULL and
blanks the stored description — the update path has no non-empty guard. -/
theorem c3_counterexample :
    (c3db.findGame 15100).map GameRow.developer = some (some "Ubisoft") ∧
    (c3db.findGame 15100).map GameRow.description = some "Stealth action" ∧
    c3rec.developers = [] ∧ c3rec.short_description = "" ∧
    ((insert_steam_api_game idConverters [] 7 c3db c3rec).2.findGame 15100).map
      GameRow.developer = some none ∧
    ((insert_steam_api_game idConverters [] 7 c3db c3rec).2.findGame 15100).map
      GameRow.description = some "" := by
  exact ⟨rfl, rfl, rfl, rfl, by decide, by decide⟩

/-- C3 (amended): in the structured-source (API) update path every compared
scalar field is overwritten whenever it differs, with NO non-empty guard: the
stored row always ends up carrying the incoming values, so an empty incoming
developer list nulls a stored developer and an empty description blanks a
stored one. The differs-AND-non-empty rule holds only for the page-source
(crawling) update path's title field. -/
theorem c3_update_clobbers_with_blanks (cv : Converters) (now : Nat) (db : Db)
    (r : ApiRecord) (a : Nat) (e : GameRow) (hde : r.dict_empty = false)
    (hid : appIdOf r = some a) (hf : db.findGame a = some e)
    (now2 : Nat) (db2 : Db) (c : CrawlData) (a2 : Nat) (e2 : GameRow)
    (hde2 : c.dict_empty = false) (hid2 : c.app_id = some a2) (ha02 : a2 ≠ 0)
    (hf2 : db2.findGame a2 = some e2) :
    (∃ g, (insert_steam_api_game cv [] now db r).2.findGame a = some g ∧
      g.developer = api_developer r ∧ g.description = r.short_description) ∧
    ((strTake 255 c.title).isEmpty = true →
      ((insert_steam_crawling_game [] now2 db2 c).2.findGame a2).map GameRow.title
        = some e2.title) ∧
    ((strTake 255 c.title).isEmpty = false →
      ((insert_steam_crawling_game [] now2 db2 c).2.findGame a2).map GameRow.title
        = some (strTake 255 c.title)) := by
  obtain ⟨-, g, hg, hagr⟩ := insert_api_existing cv now db r a e hde hid hf
  obtain ⟨-, hc1, hc2⟩ := insert_crawl_existing_title now2 db2 c a2 e2 hde2 hid2 ha02 hf2
  exact ⟨⟨g, hg, hagr.2.2.2.2.1, hagr.2.1⟩, hc1, hc2⟩

def c3crawl : CrawlData := { app_id := some 15100, title := "" }

set_option maxRecDepth 400000 in
/-- Witness for C3's amended theorem: the concrete store of the
counterexample, and a crawled record with an empty title that leaves the
stored title intact. -/
theorem c3_update_clobbers_with_blanks_witness :
    (∃ g, (insert_steam_api_game idConverters [] 7 c3db c3rec).2.findGame 15100 = some g ∧
      g.developer = api_developer c3rec ∧ g.description = c3rec.short_description) ∧
    ((strTake 255 c3crawl.title).isEmpty = true →
      ((insert_steam_crawling_game [] 9 c3db c3crawl).2.findGame 15100).map GameRow.title
        = some ({ app_id := 15100, title := "AC", description := "Stealth action",
                  developer := some "Ubisoft" } : GameRow).title) ∧
    ((strTake 255 c3crawl.title).isEmpty = false →
      ((insert_steam_crawling_game [] 9 c3db c3crawl).2.findGame 15100).map GameRow.title
        = some (strTake 255 c3crawl.title)) :=
  c3_update_clobbers_with_blanks idConverters 7 c3db c3rec 15100
    { app_id := 15100, title := "AC", description := "Stealth action",
      developer := some "Ubisoft" }
    (by decide) (by decide) (by decide)
    9 c3db c3crawl 15100
    { app_id := 15100, title := "AC", description := "Stealth action",
      developer := some "Ubisoft" }
    (by decide) (by decide) (by decide) (by decide)

/-! ## Claim C8 -/

def c8rec : ApiRecord := { steam_appid := some 77 }

def c8crawl : CrawlData := { app_id := some 78 }

set_option maxRecDepth 400000 in
/-- C8 (counterexample): both insert paths happily persist an Entity row with
an EMPTY title: the API single insert stores game 77 with title "", returns
success, and the crawling insert stores game 78 with title "". No code path
checks the title. -/
theorem c8_counterexample :
    c8rec.name = "" ∧
    (insert_steam_api_game idConverters [] 0 Db.empty c8rec).1 = true ∧
    ((insert_steam_api_game idConverters [] 0 Db.empty c8rec).2.findGame 77).map
      GameRow.title = some "" ∧
    c8crawl.title = "" ∧
    (insert_steam_crawling_game [] 0 Db.empty c8crawl).1 = true ∧
    ((insert_steam_crawling_game [] 0 Db.empty c8crawl).2.findGame 78).map
      GameRow.title = some "" := by
  exact ⟨rfl, by decide, by decide, rfl, by decide, by decide⟩

/-- C8 (amended): the synchronizer does not enforce the no-empty-title
invariant. Whenever the record is a non-empty dict with a truthy id, the
insert paths persist the Entity row with whatever (possibly empty) title the
record resolves to; only an empty record or a missing/zero id prevents
persistence. -/
theorem c8_insert_ignores_empty_title (cv : Converters) (now : Nat) (db : Db)
    (r : ApiRecord) (a : Nat) (hde : r.dict_empty = false)
    (hid : appIdOf r = some a) (hf : db.findGame a = none)
    (now2 : Nat) (db2 : Db) (c : CrawlData) (a2 : Nat)
    (hde2 : c.dict_empty = false) (hid2 : c.app_id = some a2) (ha02 : a2 ≠ 0)
    (hf2 : db2.findGame a2 = none) :
    ((insert_steam_api_game cv [] now db r).1 = true ∧
      ((insert_steam_api_game cv [] now db r).2.findGame a).map GameRow.title
        = some (strTake 255 r.name)) ∧
    ((insert_steam_crawling_game [] now2 db2 c).1 = true ∧
      ((insert_steam_crawling_game [] now2 db2 c).2.findGame a2).map GameRow.title
        = some (strTake 255 c.title)) := by
  obtain ⟨h1, h2⟩ := insert_api_new cv now db r a hde hid hf
  obtain ⟨h3, h4⟩ := insert_crawl_new now2 db2 c a2 hde2 hid2 ha02 hf2
  refine ⟨⟨h1, ?_⟩, ⟨h3, ?_⟩⟩
  · rw [h2]; rfl
  · rw [h4]; rfl

set_option maxRecDepth 400000 in
/-- Witness for C8's amended theorem on the empty-title records of the
counterexample. -/
theorem c8_insert_ignores_empty_title_witness :
    ((insert_steam_api_game idConverters [] 0 Db.empty c8rec).1 = true ∧
      ((insert_steam_api_game idConverters [] 0 Db.empty c8rec).2.findGame 77).map
        GameRow.title = some (strTake 255 c8rec.name)) ∧
    ((insert_steam_crawling_game [] 0 Db.empty c8crawl).1 = true ∧
      ((insert_steam_crawling_game [] 0 Db.empty c8crawl).2.findGame 78).map
        GameRow.title = some (strTake 255 c8crawl.title)) :=
  c8_insert_ignores_empty_title idConverters 0 Db.empty c8rec 77
    (by decide) (by decide) (by decide)
    0 Db.empty c8crawl 78 (by decide) (by decide) (by decide) (by decide)


/-! ## Claim C1 -/

theorem dedupApiGo_keeps_id (a : Nat) :
    ∀ (l : List ApiRecord) (seen : List Nat), a ∉ seen →
      (∃ r ∈ l, appIdOf r = some a) →
      ∃ r ∈ dedupApiGo seen l, appIdOf r = some a := by
  intro l
  induction l with
  | nil => rintro seen - ⟨r, hr, -⟩; exact absurd hr (List.not_mem_nil r)
  | cons x xs ih =>
    rintro seen hseen ⟨r, hr, hra⟩
    rcases List.mem_cons.1 hr with rfl | hr
    · -- the witness is the head
      unfold dedupApiGo
      simp only [hra]
      rw [if_neg (by simpa using hseen)]
      exact ⟨r, List.mem_cons_self _ _, hra⟩
    · -- the witness is in the tail
      unfold dedupApiGo
      cases hx : appIdOf x with
      | none =>
        simp only [hx]
        exact ih seen hseen ⟨r, hr, hra⟩
      | some b =>
        simp only [hx]
        by_cases hb : b = a
        · subst hb
          rw [if_neg (by simpa using hseen)]
          exact ⟨x, List.mem_cons_self _ _, hx⟩
        · by_cases hbs : seen.contains b = true
          · rw [if_pos hbs]
            exact ih seen hseen ⟨r, hr, hra⟩
          · rw [if_neg hbs]
            obtain ⟨r', hr', hra'⟩ := ih (b :: seen)
              (by
                intro hmem
                rcases List.mem_cons.1 hmem with h2 | h2
                · exact hb h2.symm
                · exact hseen h2)
              ⟨r, hr, hra⟩
            exact ⟨r', List.mem_cons.2 (Or.inr hr'), hra'⟩

/-- A session exception for a game id is caught by `insert_steam_api_game`'s
handler, which returns `False` with the store untouched. -/
theorem insert_api_faulted (cv : Converters) (faults : List Nat) (now : Nat)
    (db : Db) (r : ApiRecord) (a : Nat) (hid : appIdOf r = some a)
    (hfa : faults.contains a = true) :
    insert_steam_api_game cv faults now db r = (false, db) := by
  unfold insert_steam_api_game
  cases hde : r.dict_empty with
  | true => rfl
  | false =>
    simp only [hid, Bool.false_eq_true, if_false]
    rw [if_pos hfa]

theorem update_existing_api_fail_nonempty (cv : Converters) (faults : List Nat)
    (now : Nat) (a : Nat) (hfa : faults.contains a = true) :
    ∀ (records : List ApiRecord) (db : Db),
      (∃ r ∈ records, appIdOf r = some a) →
      (update_existing_api_games cv faults now records db).1.2 ≠ [] := by
  intro records
  induction records with
  | nil => rintro db ⟨r, hr, -⟩; exact absurd hr (List.not_mem_nil r)
  | cons x xs ih =>
    rintro db ⟨r, hr, hra⟩
    rcases List.mem_cons.1 hr with rfl | hr
    · unfold update_existing_api_games
      rw [insert_api_faulted cv faults now db r a hra hfa]
      simp
    · unfold update_existing_api_games
      dsimp only
      cases hone : (insert_steam_api_game cv faults now db x).1 with
      | true =>
        simp only [hone, if_true]
        exact ih _ ⟨r, hr, hra⟩
      | false =>
        simp only [hone, Bool.false_eq_true, if_false]
        simp

theorem dedupCrawlGo_keeps_id (a : Nat) :
    ∀ (l : List CrawlData) (seen : List Nat), a ∉ seen →
      (∃ c ∈ l, crawlIdOf c = some a) →
      ∃ c ∈ dedupCrawlGo seen l, crawlIdOf c = some a := by
  intro l
  induction l with
  | nil => rintro seen - ⟨c, hc, -⟩; exact absurd hc (List.not_mem_nil c)
  | cons x xs ih =>
    rintro seen hseen ⟨c, hc, hca⟩
    rcases List.mem_cons.1 hc with rfl | hc
    · unfold dedupCrawlGo
      simp only [hca]
      rw [if_neg (by simpa using hseen)]
      exact ⟨c, List.mem_cons_self _ _, hca⟩
    · unfold dedupCrawlGo
      cases hx : crawlIdOf x with
      | none =>
        simp only [hx]
        exact ih seen hseen ⟨c, hc, hca⟩
      | some b =>
        simp only [hx]
        by_cases hb : b = a
        · subst hb
          rw [if_neg (by simpa using hseen)]
          exact ⟨x, List.mem_cons_self _ _, hx⟩
        · by_cases hbs : seen.contains b = true
          · rw [if_pos hbs]
            exact ih seen hseen ⟨c, hc, hca⟩
          · rw [if_neg hbs]
            obtain ⟨c', hc', hca'⟩ := ih (b :: seen)
              (by
                intro hmem
                rcases List.mem_cons.1 hmem with h2 | h2
                · exact hb h2.symm
                · exact hseen h2)
              ⟨c, hc, hca⟩
            exact ⟨c', List.mem_cons.2 (Or.inr hc'), hca'⟩

theorem insert_crawl_faulted (faults : List Nat) (now : Nat)
    (db : Db) (c : CrawlData) (a : Nat) (hid : crawlIdOf c = some a)
    (hfa : faults.contains a = true) :
    insert_steam_crawling_game faults now db c = (false, db) := by
  unfold crawlIdOf at hid
  have h0 : truthyNat c.app_id = true := by
    by_cases h : truthyNat c.app_id = true
    · exact h
    · rw [if_neg h] at hid; exact absurd hid (by simp)
  rw [if_pos h0] at hid
  have ha0 : (a == 0) = false := by
    unfold truthyNat at h0
    rw [hid] at h0
    simpa using h0
  unfold insert_steam_crawling_game
  cases hde : c.dict_empty with
  | true => rfl
  | false =>
    simp only [hid, Bool.false_eq_true, if_false, ha0]
    rw [if_pos hfa]

theorem update_existing_crawl_fail_nonempty (faults : List Nat)
    (now : Nat) (a : Nat) (hfa : faults.contains a = true) :
    ∀ (records : List CrawlData) (db : Db),
      (∃ c ∈ records, crawlIdOf c = some a) →
      (update_existing_crawling_games faults now records db).1.2 ≠ [] := by
  intro records
  induction records with
  | nil => rintro db ⟨c, hc, -⟩; exact absurd hc (List.not_mem_nil c)
  | cons x xs ih =>
    rintro db ⟨c, hc, hca⟩
    rcases List.mem_cons.1 hc with rfl | hc
    · unfold update_existing_crawling_games
      rw [insert_crawl_faulted faults now db c a hca hfa]
      simp
    · unfold update_existing_crawling_games
      dsimp only
      cases hone : (insert_steam_crawling_game faults now db x).1 with
      | true =>
        simp only [hone, if_true]
        exact ih _ ⟨c, hc, hca⟩
      | false =>
        simp only [hone, Bool.false_eq_true, if_false]
        simp
/-- Store and batch of the C1 counterexample: two existing games; the fault
oracle makes the session raise while updating game 2. -/
def c1db : Db :=
  { games := [{ app_id := 1, title := "Old1" }, { app_id := 2, title := "Old2" }] }

def c1r1 : ApiRecord := { steam_appid := some 1, name := "New1" }

def c1r2 : ApiRecord := { steam_appid := some 2, name := "New2" }

def c1c1 : CrawlData := { app_id := some 1, title := "New1" }

def c1c2 : CrawlData := { app_id := some 2, title := "New2" }

set_option maxRecDepth 400000 in
/-- C1 (counterexample): games 1 and 2 exist; a batch updates both and the
session raises on game 2. The batch entry point returns `(0, [])` — the
failure list is EMPTY although the batch aborted, neither id 1 nor id 2 is
reported — and the session is committed with game 1's update already applied:
the batch is neither rolled back nor reported. The crawling batch behaves the
same way. -/
theorem c1_counterexample :
    (insert_steam_api_games_batch idConverters [2] 7 [c1r1, c1r2] c1db).1 = (0, []) ∧
    ((insert_steam_api_games_batch idConverters [2] 7 [c1r1, c1r2] c1db).2.findGame 1).map
      GameRow.title = some "New1" ∧
    ((insert_steam_api_games_batch idConverters [2] 7 [c1r1, c1r2] c1db).2.findGame 2).map
      GameRow.title = some "Old2" ∧
    (insert_steam_crawling_games_batch [2] 7 [c1c1, c1c2] c1db).1 = (0, []) ∧
    ((insert_steam_crawling_games_batch [2] 7 [c1c1, c1c2] c1db).2.findGame 1).map
      GameRow.title = some "New1" := by
  refine ⟨by decide, by decide, by decide, by decide, by decide⟩

/-- C1 (amended): the batch entry points never roll back and never report the
batch's ids on an abort. Whenever some record of the batch targets an existing
game on which the session raises, the existing-phase failure list is non-empty,
so building the failure report raises `NameError` (`str(e)` with `e` out of
scope), the outer handler returns `(0, [])` — zero count and an EMPTY failure
list — and the returned (and, via `GameInserter.__exit__`, committed) store is
exactly the mutated session state after both phases: earlier mutations of the
batch persist. Both the API and the crawling batch behave this way. -/
theorem c1_batch_abort_swallows_failures
    (cv : Converters) (faults : List Nat) (now : Nat) (a : Nat) (db : Db)
    (hfa : faults.contains a = true) (hex : db.hasGame a = true) :
    (∀ l : List ApiRecord, (∃ r ∈ l, appIdOf r = some a) →
      insert_steam_api_games_batch cv faults now l db =
        ((0, []),
         (update_existing_api_games cv faults now
           ((dedupApi l).filter (fun r => match appIdOf r with
                                          | some b => db.hasGame b
                                          | none => false))
           (bulk_insert_new_api_games cv now
             ((dedupApi l).filter (not ∘ fun r => match appIdOf r with
                                                  | some b => db.hasGame b
                                                  | none => false)) db).2).2)) ∧
    (∀ l : List CrawlData, (∃ c ∈ l, crawlIdOf c = some a) →
      insert_steam_crawling_games_batch faults now l db =
        ((0, []),
         (update_existing_crawling_games faults now
           ((dedupCrawl l).filter (fun c => match crawlIdOf c with
                                            | some b => db.hasGame b
                                            | none => false))
           (bulk_insert_new_crawling_games now
             ((dedupCrawl l).filter (not ∘ fun c => match crawlIdOf c with
                                                    | some b => db.hasGame b
                                                    | none => false)) db).2).2)) := by
  constructor
  · rintro l ⟨r, hr, hra⟩
    have h1 : l.isEmpty = false := by
      cases l with
      | nil => exact absurd hr (List.not_mem_nil r)
      | cons x xs => rfl
    obtain ⟨r', hr', hra'⟩ :=
      dedupApiGo_keeps_id a l [] (by simp) ⟨r, hr, hra⟩
    have hfilterMem : a ∈ (dedupApi l).filterMap appIdOf :=
      List.mem_filterMap.2 ⟨r', hr', hra'⟩
    have h2 : ((dedupApi l).filterMap appIdOf).isEmpty = false := by
      cases hh : (dedupApi l).filterMap appIdOf with
      | nil => rw [hh] at hfilterMem; exact absurd hfilterMem (List.not_mem_nil a)
      | cons x xs => rfl
    have hpartMem : r' ∈ (dedupApi l).filter
        (fun r => match appIdOf r with
                  | some b => db.hasGame b
                  | none => false) := by
      refine List.mem_filter.2 ⟨hr', ?_⟩
      simp only [hra']
      exact hex
    have hfail := update_existing_api_fail_nonempty cv faults now a hfa
      ((dedupApi l).filter (fun r => match appIdOf r with
                                     | some b => db.hasGame b
                                     | none => false))
      (bulk_insert_new_api_games cv now
        ((dedupApi l).filter (not ∘ fun r => match appIdOf r with
                                             | some b => db.hasGame b
                                             | none => false)) db).2
      ⟨r', hpartMem, hra'⟩
    unfold insert_steam_api_games_batch insert_steam_api_games_hybrid_batch
    dsimp only
    simp only [h1, h2, Bool.false_eq_true, if_false,
      List.partition_eq_filter_filter]
    rw [if_neg (fun h => hfail (List.isEmpty_iff.mp h))]
  · rintro l ⟨c, hc, hca⟩
    have h1 : l.isEmpty = false := by
      cases l with
      | nil => exact absurd hc (List.not_mem_nil c)
      | cons x xs => rfl
    obtain ⟨c', hc', hca'⟩ :=
      dedupCrawlGo_keeps_id a l [] (by simp) ⟨c, hc, hca⟩
    have hfilterMem : a ∈ (dedupCrawl l).filterMap crawlIdOf :=
      List.mem_filterMap.2 ⟨c', hc', hca'⟩
    have h2 : ((dedupCrawl l).filterMap crawlIdOf).isEmpty = false := by
      cases hh : (dedupCrawl l).filterMap crawlIdOf with
      | nil => rw [hh] at hfilterMem; exact absurd hfilterMem (List.not_mem_nil a)
      | cons x xs => rfl
    have hpartMem : c' ∈ (dedupCrawl l).filter
        (fun c => match crawlIdOf c with
                  | some b => db.hasGame b
                  | none => false) := by
      refine List.mem_filter.2 ⟨hc', ?_⟩
      simp only [hca']
      exact hex
    have hfail := update_existing_crawl_fail_nonempty faults now a hfa
      ((dedupCrawl l).filter (fun c => match crawlIdOf c with
                                       | some b => db.hasGame b
                                       | none => false))
      (bulk_insert_new_crawling_games now
        ((dedupCrawl l).filter (not ∘ fun c => match crawlIdOf c with
                                               | some b => db.hasGame b
                                               | none => false)) db).2
      ⟨c', hpartMem, hca'⟩
    unfold insert_steam_crawling_games_batch insert_steam_crawling_games_hybrid_batch
    dsimp only
    simp only [h1, h2, Bool.false_eq_true, if_false,
      List.partition_eq_filter_filter]
    rw [if_neg (fun h => hfail (List.isEmpty_iff.mp h))]

set_option maxRecDepth 400000 in
/-- Witness for C1's amended theorem on the counterexample batch: the fault on
game 2 makes both batch entry points return a zero count with an empty failure
list. -/
theorem c1_batch_abort_swallows_failures_witness :
    ([2] : List Nat).contains 2 = true ∧ c1db.hasGame 2 = true ∧
    (∃ r ∈ [c1r1, c1r2], appIdOf r = some 2) ∧
    (insert_steam_api_games_batch idConverters [2] 7 [c1r1, c1r2] c1db).1 = (0, []) ∧
    (insert_steam_crawling_games_batch [2] 7 [c1c1, c1c2] c1db).1 = (0, []) := by
  refine ⟨by decide, by decide, ⟨c1r2, by decide, by decide⟩, ?_, ?_⟩
  · rw [(c1_batch_abort_swallows_failures idConverters [2] 7 2 c1db
      (by decide) (by decide)).1 [c1r1, c1r2] ⟨c1r2, by decide, by decide⟩]
  · rw [(c1_batch_abort_swallows_failures idConverters [2] 7 2 c1db
      (by decide) (by decide)).2 [c1c1, c1c2] ⟨c1c2, by decide, by decide⟩]

/-! ## Idempotence of the batch synchronizer: supporting development -/

theorem find_append_some {γ : Type} (p : γ → Bool) (l1 l2 : List γ) (x : γ)
    (h : l1.find? p = some x) : (l1 ++ l2).find? p = some x := by
  induction l1 with
  | nil => exact absurd h (by simp)
  | cons y ys ih =>
    simp only [List.find?_cons] at h
    simp only [List.cons_append, List.find?_cons]
    cases hy : p y with
    | true => simp only [hy] at h ⊢; exact h
    | false => simp only [hy] at h ⊢; exact ih h

theorem find_append_none {γ : Type} (p : γ → Bool) (l1 l2 : List γ)
    (h : l1.find? p = none) : (l1 ++ l2).find? p = l2.find? p := by
  induction l1 with
  | nil => rfl
  | cons y ys ih =>
    simp only [List.find?_cons] at h
    simp only [List.cons_append, List.find?_cons]
    cases hy : p y with
    | true => simp only [hy] at h; exact absurd h (by simp)
    | false => simp only [hy] at h ⊢; exact ih h

theorem find_append_all_neg {γ : Type} (p : γ → Bool) (l1 l2 : List γ)
    (h : ∀ x ∈ l2, p x = false) : (l1 ++ l2).find? p = l1.find? p := by
  cases hl : l1.find? p with
  | some x => exact find_append_some p l1 l2 x hl
  | none =>
    rw [find_append_none p l1 l2 hl, List.find?_eq_none]
    intro x hx
    simp [h x hx]

theorem snd_nodup_unique {γ : Type} (ws : List (γ × Nat))
    (hnd : (ws.map Prod.snd).Nodup) {r1 r2 : γ} {a : Nat}
    (h1 : (r1, a) ∈ ws) (h2 : (r2, a) ∈ ws) : r1 = r2 := by
  induction ws with
  | nil => exact absurd h1 (List.not_mem_nil _)
  | cons x xs ih =>
    simp only [List.map_cons, List.nodup_cons] at hnd
    rcases List.mem_cons.1 h1 with h1 | h1
    · rcases List.mem_cons.1 h2 with h2 | h2
      · exact congrArg Prod.fst (h1.trans h2.symm)
      · exfalso
        apply hnd.1
        rw [← h1]
        exact List.mem_map.2 ⟨(r2, a), h2, rfl⟩
    · rcases List.mem_cons.1 h2 with h2 | h2
      · exfalso
        apply hnd.1
        rw [← h2]
        exact List.mem_map.2 ⟨(r1, a), h1, rfl⟩
      · exact ih hnd.2 h1 h2

theorem dedupApiGo_subset : ∀ (l : List ApiRecord) (seen : List Nat),
    ∀ r ∈ dedupApiGo seen l, r ∈ l := by
  intro l
  induction l with
  | nil => intro seen r hr; exact absurd hr (List.not_mem_nil r)
  | cons x xs ih =>
    intro seen r hr
    unfold dedupApiGo at hr
    cases hx : appIdOf x with
    | none => simp only [hx] at hr; exact List.mem_cons.2 (Or.inr (ih seen r hr))
    | some a =>
      simp only [hx] at hr
      by_cases hb : seen.contains a = true
      · rw [if_pos hb] at hr
        exact List.mem_cons.2 (Or.inr (ih seen r hr))
      · rw [if_neg hb] at hr
        rcases List.mem_cons.1 hr with rfl | hr
        · exact List.mem_cons_self _ _
        · exact List.mem_cons.2 (Or.inr (ih _ r hr))

theorem dedupApiGo_all_some : ∀ (l : List ApiRecord) (seen : List Nat),
    ∀ r ∈ dedupApiGo seen l, ∃ a, appIdOf r = some a := by
  intro l
  induction l with
  | nil => intro seen r hr; exact absurd hr (List.not_mem_nil r)
  | cons x xs ih =>
    intro seen r hr
    unfold dedupApiGo at hr
    cases hx : appIdOf x with
    | none => simp only [hx] at hr; exact ih seen r hr
    | some a =>
      simp only [hx] at hr
      by_cases hb : seen.contains a = true
      · rw [if_pos hb] at hr
        exact ih seen r hr
      · rw [if_neg hb] at hr
        rcases List.mem_cons.1 hr with rfl | hr
        · exact ⟨a, hx⟩
        · exact ih _ r hr

theorem dedupApiGo_ids_fresh : ∀ (l : List ApiRecord) (seen : List Nat),
    ((dedupApiGo seen l).filterMap appIdOf).Nodup ∧
    (∀ a ∈ (dedupApiGo seen l).filterMap appIdOf, a ∉ seen) := by
  intro l
  induction l with
  | nil =>
    intro seen
    exact ⟨List.nodup_nil, fun a ha => absurd ha (List.not_mem_nil a)⟩
  | cons x xs ih =>
    intro seen
    unfold dedupApiGo
    cases hx : appIdOf x with
    | none => dsimp only; exact ih seen
    | some a =>
      dsimp only
      by_cases hb : seen.contains a = true
      · rw [if_pos hb]; exact ih seen
      · rw [if_neg hb]
        have ih2 := ih (a :: seen)
        have hfm : (x :: dedupApiGo (a :: seen) xs).filterMap appIdOf
            = a :: (dedupApiGo (a :: seen) xs).filterMap appIdOf := by
          simp [List.filterMap_cons, hx]
        rw [hfm]
        constructor
        · rw [List.nodup_cons]
          refine ⟨?_, ih2.1⟩
          intro hmem
          exact (ih2.2 a hmem) (List.mem_cons_self _ _)
        · intro b hbmem
          rcases List.mem_cons.1 hbmem with rfl | hbmem
          · intro hmem
            exact hb (by simpa using hmem)
          · intro hmem
            exact (ih2.2 b hbmem) (List.mem_cons.2 (Or.inr hmem))

/-- Postcondition of one synchronized API record: the stored row agrees on all
ten compared fields and the stored genre-name set equals the incoming set. -/
def apiSynced (cv : Converters) (db : Db) (r : ApiRecord) (a : Nat) : Prop :=
  (∃ g, db.findGame a = some g ∧ apiAgrees cv g r) ∧
  (∀ s, genreNameMem db a s ↔ s ∈ newGenreNames r.genres)

/-- On a record whose entity is already fully synchronized,
`insert_steam_api_game` performs no write at all: the diff chain fires no
statement, the genre diff is empty, and the store is returned unchanged. -/
theorem insert_api_noop (cv : Converters) (now : Nat) (db : Db) (r : ApiRecord)
    (a : Nat) (hde : r.dict_empty = false) (hid : appIdOf r = some a)
    (hs : apiSynced cv db r a) :
    insert_steam_api_game cv [] now db r = (true, db) := by
  obtain ⟨⟨g, hg, hagr⟩, hgen⟩ := hs
  have hnoop : update_genres db a r.genres = db := by
    apply update_genres_noop
    intro s
    rw [existingGenreNames_mem]
    exact hgen s
  unfold insert_steam_api_game
  rw [hde, hid]
  simp only [Bool.false_eq_true, if_false, List.contains_nil]
  rw [hg]
  dsimp only
  rw [apiUpdateChain_noop cv g r hagr]
  dsimp only
  simp only [Bool.false_eq_true, if_false]
  rw [hnoop]

theorem update_existing_api_noop (cv : Converters) (now : Nat) :
    ∀ (rs : List ApiRecord) (db : Db),
      (∀ r ∈ rs, r.dict_empty = false) →
      (∀ r ∈ rs, ∃ a, appIdOf r = some a ∧ apiSynced cv db r a) →
      update_existing_api_games cv [] now rs db = ((rs.length, []), db) := by
  intro rs
  induction rs with
  | nil => intro db _ _; rfl
  | cons x xs ih =>
    intro db hde hs
    obtain ⟨a, hid, hsx⟩ := hs x (List.mem_cons_self _ _)
    unfold update_existing_api_games
    rw [insert_api_noop cv now db x a (hde x (List.mem_cons_self _ _)) hid hsx]
    dsimp only
    rw [ih db (fun r hr => hde r (List.mem_cons.2 (Or.inr hr)))
          (fun r hr => hs r (List.mem_cons.2 (Or.inr hr)))]
    rw [if_pos rfl]
    rfl

/-! ### State of the store after a bulk insert of new API games -/

theorem foldl_addGameRow_games (objs : List GameRow) (db : Db) :
    (objs.foldl Db.addGameRow db).games = db.games ++ objs := by
  induction objs generalizing db with
  | nil => simp
  | cons x xs ih =>
    simp only [List.foldl_cons]
    rw [ih]
    simp [Db.addGameRow]

theorem foldl_addGameRow_genres (objs : List GameRow) (db : Db) :
    (objs.foldl Db.addGameRow db).genres = db.genres := by
  induction objs generalizing db with
  | nil => rfl
  | cons x xs ih => simp only [List.foldl_cons]; rw [ih]; rfl

theorem foldl_addGameRow_tags (objs : List GameRow) (db : Db) :
    (objs.foldl Db.addGameRow db).tags = db.tags := by
  induction objs generalizing db with
  | nil => rfl
  | cons x xs ih => simp only [List.foldl_cons]; rw [ih]; rfl

theorem foldl_addGameRow_pricing (objs : List GameRow) (db : Db) :
    (objs.foldl Db.addGameRow db).pricing = db.pricing := by
  induction objs generalizing db with
  | nil => rfl
  | cons x xs ih => simp only [List.foldl_cons]; rw [ih]; rfl

theorem foldl_addGameRow_reviews (objs : List GameRow) (db : Db) :
    (objs.foldl Db.addGameRow db).reviews = db.reviews := by
  induction objs generalizing db with
  | nil => rfl
  | cons x xs ih => simp only [List.foldl_cons]; rw [ih]; rfl

theorem foldl_appendGenre_genres (objs : List GenreRow) (db : Db) :
    (objs.foldl (fun d gr => { d with genres := d.genres ++ [gr], writes := d.writes + 1 }) db).genres
      = db.genres ++ objs := by
  induction objs generalizing db with
  | nil => simp
  | cons x xs ih =>
    simp only [List.foldl_cons]
    rw [ih]
    simp

theorem foldl_appendGenre_games (objs : List GenreRow) (db : Db) :
    (objs.foldl (fun d gr => { d with genres := d.genres ++ [gr], writes := d.writes + 1 }) db).games
      = db.games := by
  induction objs generalizing db with
  | nil => rfl
  | cons x xs ih => simp only [List.foldl_cons]; rw [ih]

theorem foldl_appendGenre_tags (objs : List GenreRow) (db : Db) :
    (objs.foldl (fun d gr => { d with genres := d.genres ++ [gr], writes := d.writes + 1 }) db).tags
      = db.tags := by
  induction objs generalizing db with
  | nil => rfl
  | cons x xs ih => simp only [List.foldl_cons]; rw [ih]

theorem foldl_appendGenre_pricing (objs : List GenreRow) (db : Db) :
    (objs.foldl (fun d gr => { d with genres := d.genres ++ [gr], writes := d.writes + 1 }) db).pricing
      = db.pricing := by
  induction objs generalizing db with
  | nil => rfl
  | cons x xs ih => simp only [List.foldl_cons]; rw [ih]

theorem foldl_appendGenre_reviews (objs : List GenreRow) (db : Db) :
    (objs.foldl (fun d gr => { d with genres := d.genres ++ [gr], writes := d.writes + 1 }) db).reviews
      = db.reviews := by
  induction objs generalizing db with
  | nil => rfl
  | cons x xs ih => simp only [List.foldl_cons]; rw [ih]

/-- The tables of the store after `_bulk_insert_new_api_games`: the built game
dicts and genre dicts are appended; the other tables are untouched. -/
theorem bulk_api_state (cv : Converters) (now : Nat) (new : List ApiRecord) (db : Db) :
    (bulk_insert_new_api_games cv now new db).2.games =
      db.games ++ (new.filterMap (fun r => (appIdOf r).map (fun a => (r, a)))).map
        (fun ra => apiBulkRow cv now ra.1 ra.2) ∧
    (bulk_insert_new_api_games cv now new db).2.genres =
      db.genres ++ (new.filterMap (fun r => (appIdOf r).map (fun a => (r, a)))).flatMap
        (fun ra => (ra.1.genres.filter (fun s => !s.isEmpty)).map
          (fun name => ({ app_id := ra.2, genre_name := strTake 50 name } : GenreRow))) ∧
    (bulk_insert_new_api_games cv now new db).2.tags = db.tags ∧
    (bulk_insert_new_api_games cv now new db).2.pricing = db.pricing ∧
    (bulk_insert_new_api_games cv now new db).2.reviews = db.reviews := by
  unfold bulk_insert_new_api_games
  dsimp only
  refine ⟨?_, ?_, ?_, ?_, ?_⟩
  · rw [foldl_appendGenre_games, foldl_addGameRow_games]
  · rw [foldl_appendGenre_genres, foldl_addGameRow_genres]
  · rw [foldl_appendGenre_tags, foldl_addGameRow_tags]
  · rw [foldl_appendGenre_pricing, foldl_addGameRow_pricing]
  · rw [foldl_appendGenre_reviews, foldl_addGameRow_reviews]

theorem withIds_snd (new : List ApiRecord) :
    ((new.filterMap (fun r => (appIdOf r).map (fun a => (r, a)))).map Prod.snd)
      = new.filterMap appIdOf := by
  induction new with
  | nil => rfl
  | cons x xs ih =>
    simp only [List.filterMap_cons]
    cases hx : appIdOf x with
    | none => simpa using ih
    | some a => simpa using ih

theorem withIds_mem (new : List ApiRecord) (r : ApiRecord) (a : Nat)
    (h : r ∈ new) (ha : appIdOf r = some a) :
    (r, a) ∈ new.filterMap (fun r => (appIdOf r).map (fun a => (r, a))) :=
  List.mem_filterMap.2 ⟨r, h, by rw [ha]; rfl⟩

theorem rows_map_find {γ : Type} (f : γ × Nat → GameRow)
    (hfa : ∀ ca, (f ca).app_id = ca.2) (ws : List (γ × Nat))
    (hnd : (ws.map Prod.snd).Nodup) (r : γ) (a : Nat) (h : (r, a) ∈ ws) :
    (ws.map f).find? (fun g => g.app_id == a) = some (f (r, a)) := by
  induction ws with
  | nil => exact absurd h (List.not_mem_nil _)
  | cons x xs ih =>
    simp only [List.map_cons, List.nodup_cons] at hnd
    simp only [List.map_cons, List.find?_cons]
    by_cases hxa : x.2 = a
    · have hcond : ((f x).app_id == a) = true := by
        rw [hfa x, hxa]
        exact beq_self_eq_true a
      simp only [hcond]
      have hx : x = (r, a) := by
        rcases List.mem_cons.1 h with h | h
        · exact h.symm
        · exfalso
          apply hnd.1
          rw [hxa]
          exact List.mem_map.2 ⟨(r, a), h, rfl⟩
      rw [hx]
    · have hcond : ((f x).app_id == a) = false := by
        rw [hfa x]
        simp [hxa]
      simp only [hcond]
      apply ih hnd.2
      rcases List.mem_cons.1 h with h | h
      · exact absurd (congrArg Prod.snd h.symm) hxa
      · exact h

theorem rows_map_find_none {γ : Type} (f : γ × Nat → GameRow)
    (hfa : ∀ ca, (f ca).app_id = ca.2) (ws : List (γ × Nat)) (b : Nat)
    (hb : b ∉ ws.map Prod.snd) :
    (ws.map f).find? (fun g => g.app_id == b) = none := by
  rw [List.find?_eq_none]
  intro g hg hpg
  rcases List.mem_map.1 hg with ⟨ca, hca, rfl⟩
  apply hb
  rw [hfa ca] at hpg
  have h2 : ca.2 = b := by simpa using hpg
  rw [← h2]
  exact List.mem_map.2 ⟨ca, hca, rfl⟩

theorem genreObjs_mem (ws : List (ApiRecord × Nat))
    (hnd : (ws.map Prod.snd).Nodup) (r : ApiRecord) (a : Nat)
    (h : (r, a) ∈ ws) (s : String) :
    (∃ gr ∈ ws.flatMap (fun ra => (ra.1.genres.filter (fun s => !s.isEmpty)).map
        (fun name => ({ app_id := ra.2, genre_name := strTake 50 name } : GenreRow))),
      gr.app_id = a ∧ gr.genre_name = s)
    ↔ ∃ n ∈ r.genres, ¬n.isEmpty ∧ s = strTake 50 n := by
  constructor
  · rintro ⟨gr, hgr, hba, rfl⟩
    rcases List.mem_flatMap.1 hgr with ⟨⟨r2, b⟩, hra, hmem⟩
    rcases List.mem_map.1 hmem with ⟨n, hn, heq⟩
    rw [List.mem_filter] at hn
    have h2 : b = a := by rw [← hba, ← heq]
    have hr2 : r2 = r := by
      apply snd_nodup_unique ws hnd _ h
      rw [← h2]
      exact hra
    refine ⟨n, ?_, by simpa using hn.2, ?_⟩
    · rw [← hr2]; exact hn.1
    · rw [← heq]
  · rintro ⟨n, hn, hne, rfl⟩
    refine ⟨{ app_id := a, genre_name := strTake 50 n }, ?_, rfl, rfl⟩
    apply List.mem_flatMap.2
    exact ⟨(r, a), h, List.mem_map.2 ⟨n, List.mem_filter.2 ⟨hn, by simpa using hne⟩, rfl⟩⟩

theorem genreObjs_other (ws : List (ApiRecord × Nat)) (b : Nat)
    (hb : b ∉ ws.map Prod.snd) :
    ∀ gr ∈ ws.flatMap (fun ra => (ra.1.genres.filter (fun s => !s.isEmpty)).map
        (fun name => ({ app_id := ra.2, genre_name := strTake 50 name } : GenreRow))),
      gr.app_id ≠ b := by
  rintro gr hgr
  rcases List.mem_flatMap.1 hgr with ⟨⟨r2, c⟩, hra, hmem⟩
  rcases List.mem_map.1 hmem with ⟨n, hn, heq⟩
  rw [← heq]
  intro hcb
  apply hb
  rw [← hcb]
  exact List.mem_map.2 ⟨(r2, c), hra, rfl⟩

theorem bulk_api_findGame_existing (cv : Converters) (now : Nat)
    (new : List ApiRecord) (db : Db) (b : Nat) (e : GameRow)
    (hf : db.findGame b = some e) :
    (bulk_insert_new_api_games cv now new db).2.findGame b = some e := by
  unfold Db.findGame at hf ⊢
  rw [(bulk_api_state cv now new db).1]
  exact find_append_some _ _ _ _ hf

theorem bulk_api_findGame_new (cv : Converters) (now : Nat)
    (new : List ApiRecord) (db : Db) (r : ApiRecord) (a : Nat)
    (hnd : (new.filterMap appIdOf).Nodup)
    (hmem : r ∈ new) (ha : appIdOf r = some a) (hf : db.findGame a = none) :
    (bulk_insert_new_api_games cv now new db).2.findGame a
      = some (apiBulkRow cv now r a) := by
  unfold Db.findGame at hf ⊢
  rw [(bulk_api_state cv now new db).1]
  rw [find_append_none _ _ _ hf]
  have hnd2 : ((new.filterMap (fun r => (appIdOf r).map (fun a => (r, a)))).map Prod.snd).Nodup := by
    rw [withIds_snd]; exact hnd
  exact rows_map_find (fun ra => apiBulkRow cv now ra.1 ra.2) (fun ca => rfl) _ hnd2
    r a (withIds_mem new r a hmem ha)

theorem bulk_api_findGame_other (cv : Converters) (now : Nat)
    (new : List ApiRecord) (db : Db) (b : Nat)
    (hb : b ∉ new.filterMap appIdOf) :
    (bulk_insert_new_api_games cv now new db).2.findGame b = db.findGame b := by
  unfold Db.findGame
  rw [(bulk_api_state cv now new db).1]
  apply find_append_all_neg
  intro g hg
  rcases List.mem_map.1 hg with ⟨ca, hca, rfl⟩
  have hmemsnd : ca.2 ∈ new.filterMap appIdOf := by
    rw [← withIds_snd]
    exact List.mem_map.2 ⟨ca, hca, rfl⟩
  show (ca.2 == b) = false
  have hne : ca.2 ≠ b := fun h => hb (h ▸ hmemsnd)
  simp [hne]

theorem bulk_api_genres_new (cv : Converters) (now : Nat)
    (new : List ApiRecord) (db : Db) (r : ApiRecord) (a : Nat)
    (hnd : (new.filterMap appIdOf).Nodup)
    (hmem : r ∈ new) (ha : appIdOf r = some a)
    (hdb : ∀ gr ∈ db.genres, gr.app_id ≠ a)
    (htr : ∀ n ∈ r.genres, ¬n.isEmpty → strTake 50 n = n) (s : String) :
    genreNameMem (bulk_insert_new_api_games cv now new db).2 a s
      ↔ s ∈ newGenreNames r.genres := by
  unfold genreNameMem
  rw [(bulk_api_state cv now new db).2.1]
  have hnd2 : ((new.filterMap (fun r => (appIdOf r).map (fun a => (r, a)))).map Prod.snd).Nodup := by
    rw [withIds_snd]; exact hnd
  constructor
  · rintro ⟨gr, hgr, hba, rfl⟩
    rw [List.mem_append] at hgr
    rcases hgr with hgr | hgr
    · exact absurd hba (hdb gr hgr)
    · rcases (genreObjs_mem _ hnd2 r a (withIds_mem new r a hmem ha) gr.genre_name).1
        ⟨gr, hgr, hba, rfl⟩ with ⟨n, hn, hne, heq⟩
      rw [newGenreNames_mem, heq, htr n hn hne]
      exact ⟨hn, hne⟩
  · intro hs
    rcases (newGenreNames_mem r.genres s).1 hs with ⟨h1, h2⟩
    rcases (genreObjs_mem _ hnd2 r a (withIds_mem new r a hmem ha) s).2
      ⟨s, h1, h2, (htr s h1 h2).symm⟩ with ⟨gr, hgr, hba, hname⟩
    exact ⟨gr, List.mem_append.2 (Or.inr hgr), hba, hname⟩

theorem bulk_api_genres_other (cv : Converters) (now : Nat)
    (new : List ApiRecord) (db : Db) (b : Nat)
    (hb : b ∉ new.filterMap appIdOf) (s : String) :
    genreNameMem (bulk_insert_new_api_games cv now new db).2 b s
      ↔ genreNameMem db b s := by
  unfold genreNameMem
  rw [(bulk_api_state cv now new db).2.1]
  have hb2 : b ∉ (new.filterMap (fun r => (appIdOf r).map (fun a => (r, a)))).map Prod.snd := by
    rw [withIds_snd]; exact hb
  constructor
  · rintro ⟨gr, hgr, hba, rfl⟩
    rw [List.mem_append] at hgr
    rcases hgr with hgr | hgr
    · exact ⟨gr, hgr, hba, rfl⟩
    · exact absurd hba (genreObjs_other _ b hb2 gr hgr)
  · rintro ⟨gr, hgr, hba, rfl⟩
    exact ⟨gr, List.mem_append.2 (Or.inl hgr), hba, rfl⟩

/-! ### Effect of one existing-record update and of the whole update phase -/

theorem insert_api_step_effect (cv : Converters) (now : Nat) (db : Db)
    (r : ApiRecord) (a : Nat) (e : GameRow)
    (hde : r.dict_empty = false) (hid : appIdOf r = some a)
    (hf : db.findGame a = some e)
    (htr : ∀ n ∈ r.genres, ¬n.isEmpty → strTake 50 n = n) :
    (insert_steam_api_game cv [] now db r).1 = true ∧
    apiSynced cv (insert_steam_api_game cv [] now db r).2 r a ∧
    (∀ b, b ≠ a → (insert_steam_api_game cv [] now db r).2.findGame b = db.findGame b) ∧
    (∀ b, b ≠ a → ∀ s,
      genreNameMem (insert_steam_api_game cv [] now db r).2 b s ↔ genreNameMem db b s) := by
  have hea : e.app_id = a := findGame_eq_some_app_id db a e hf
  unfold insert_steam_api_game
  rw [hde, hid]
  simp only [Bool.false_eq_true, if_false, List.contains_nil]
  rw [hf]
  dsimp only
  rcases hp : (apiUpdateChain cv e r).2 with _ | _
  · simp only [Bool.false_eq_true, if_false]
    refine ⟨by trivial, ⟨⟨e, ?_, apiUpdateChain_false_agrees cv e r hp⟩, ?_⟩, ?_, ?_⟩
    · rw [findGame_update_genres]
      exact hf
    · intro s
      exact update_genres_post db a r.genres htr s
    · intro b hb
      rw [findGame_update_genres]
    · intro b hb s
      exact update_genres_other db a r.genres b hb s
  · rw [if_pos rfl, if_pos rfl]
    refine ⟨by trivial, ⟨⟨GameRow.setUpdatedAt (some now) (apiUpdateChain cv e r).1, ?_, ?_⟩, ?_⟩,
      ?_, ?_⟩
    · rw [findGame_update_genres]
      apply findGame_setGameRow_same db _ a e _ hf
      show (GameRow.setUpdatedAt (some now) (apiUpdateChain cv e r).1).app_id = a
      rw [GameRow.app_id_setUpdatedAt, apiUpdateChain_app_id, hea]
    · have hagr := apiUpdateChain_agrees cv e r
      unfold apiAgrees at hagr ⊢
      simpa using hagr
    · intro s
      exact update_genres_post _ a r.genres htr s
    · intro b hb
      rw [findGame_update_genres]
      apply findGame_setGameRow_other
      show b ≠ (GameRow.setUpdatedAt (some now) (apiUpdateChain cv e r).1).app_id
      rw [GameRow.app_id_setUpdatedAt, apiUpdateChain_app_id, hea]
      exact hb
    · intro b hb s
      rw [update_genres_other _ a r.genres b hb s]
      exact Iff.rfl

theorem update_existing_api_state_cons (cv : Converters) (faults : List Nat) (now : Nat)
    (x : ApiRecord) (xs : List ApiRecord) (db : Db) :
    (update_existing_api_games cv faults now (x :: xs) db).2 =
      (update_existing_api_games cv faults now xs
        (insert_steam_api_game cv faults now db x).2).2 := by
  conv_lhs => rw [update_existing_api_games]
  split <;> rfl

/-- After the existing-record phase, every processed record is fully
synchronized, and the rows of every other game are untouched. -/
theorem update_existing_api_post (cv : Converters) (now : Nat) :
    ∀ (rs : List ApiRecord) (db : Db),
      ((rs.filterMap appIdOf).Nodup) →
      (∀ r ∈ rs, r.dict_empty = false) →
      (∀ r ∈ rs, ∀ n ∈ r.genres, ¬n.isEmpty → strTake 50 n = n) →
      (∀ r ∈ rs, ∃ a, appIdOf r = some a) →
      (∀ r ∈ rs, ∀ a, appIdOf r = some a → (db.findGame a).isSome = true) →
      (∀ r ∈ rs, ∀ a, appIdOf r = some a →
        apiSynced cv (update_existing_api_games cv [] now rs db).2 r a) ∧
      (∀ b, b ∉ rs.filterMap appIdOf →
        (update_existing_api_games cv [] now rs db).2.findGame b = db.findGame b ∧
        ∀ s, (genreNameMem (update_existing_api_games cv [] now rs db).2 b s ↔
              genreNameMem db b s)) := by
  intro rs
  induction rs with
  | nil =>
    intro db _ _ _ _ _
    exact ⟨fun r hr => absurd hr (List.not_mem_nil r),
           fun b _ => ⟨rfl, fun s => Iff.rfl⟩⟩
  | cons x xs ih =>
    intro db hnd hde htr hsome hfind
    obtain ⟨a, hid⟩ := hsome x (List.mem_cons_self _ _)
    obtain ⟨e, hf⟩ := Option.isSome_iff_exists.1
      (hfind x (List.mem_cons_self _ _) a hid)
    have hids : (x :: xs).filterMap appIdOf = a :: xs.filterMap appIdOf := by
      simp [List.filterMap_cons, hid]
    rw [hids] at hnd
    rw [List.nodup_cons] at hnd
    have step := insert_api_step_effect cv now db x a e
      (hde x (List.mem_cons_self _ _)) hid hf (htr x (List.mem_cons_self _ _))
    have hfind2 : ∀ r ∈ xs, ∀ b, appIdOf r = some b →
        (((insert_steam_api_game cv [] now db x).2).findGame b).isSome = true := by
      intro r hr b hb
      have hba : b ≠ a := by
        intro hba
        apply hnd.1
        rw [← hba]
        exact List.mem_filterMap.2 ⟨r, hr, hb⟩
      rw [step.2.2.1 b hba]
      exact hfind r (List.mem_cons.2 (Or.inr hr)) b hb
    have ihres := ih (insert_steam_api_game cv [] now db x).2 hnd.2
      (fun r hr => hde r (List.mem_cons.2 (Or.inr hr)))
      (fun r hr => htr r (List.mem_cons.2 (Or.inr hr)))
      (fun r hr => hsome r (List.mem_cons.2 (Or.inr hr)))
      hfind2
    constructor
    · intro r hr b hb
      rw [update_existing_api_state_cons]
      rcases List.mem_cons.1 hr with rfl | hr
      · have hba : b = a := by
          rw [hid] at hb
          exact (Option.some.injEq _ _ ▸ hb).symm ▸ rfl
        subst hba
        have hframe := ihres.2 b (by
          intro hmem
          exact hnd.1 hmem)
        obtain ⟨⟨g, hg, hagr⟩, hgen⟩ := step.2.1
        refine ⟨⟨g, ?_, hagr⟩, ?_⟩
        · rw [hframe.1]
          exact hg
        · intro s
          exact (hframe.2 s).trans (hgen s)
      · exact ihres.1 r hr b hb
    · intro b hb
      rw [hids] at hb
      have hba : b ≠ a := fun h => hb (h ▸ List.mem_cons_self _ _)
      have hbxs : b ∉ xs.filterMap appIdOf := fun h => hb (List.mem_cons.2 (Or.inr h))
      have hframe := ihres.2 b hbxs
      rw [update_existing_api_state_cons]
      constructor
      · rw [hframe.1]
        exact step.2.2.1 b hba
      · intro s
        exact (hframe.2 s).trans (step.2.2.2 b hba s)

/-! ### The API batch: state after one run, and the second run as a no-op -/

theorem apiBulkRow_agrees (cv : Converters) (now : Nat) (r : ApiRecord) (a : Nat) :
    apiAgrees cv (apiBulkRow cv now r a) r := by
  unfold apiAgrees
  exact ⟨rfl, rfl, rfl, rfl, rfl, rfl, rfl, rfl, rfl, rfl⟩

theorem api_batch_state (cv : Converters) (faults : List Nat) (now : Nat)
    (l : List ApiRecord) (db : Db)
    (h1 : l.isEmpty = false)
    (h2 : ((dedupApi l).filterMap appIdOf).isEmpty = false) :
    (insert_steam_api_games_batch cv faults now l db).2 =
      (update_existing_api_games cv faults now
        ((dedupApi l).filter (fun r => match appIdOf r with
                                       | some b => db.hasGame b
                                       | none => false))
        (bulk_insert_new_api_games cv now
          ((dedupApi l).filter (not ∘ fun r => match appIdOf r with
                                               | some b => db.hasGame b
                                               | none => false)) db).2).2 := by
  unfold insert_steam_api_games_batch insert_steam_api_games_hybrid_batch
  dsimp only
  simp only [h1, h2, Bool.false_eq_true, if_false, List.partition_eq_filter_filter]
  split <;> rfl

theorem dedupApi_nil_of_ids_nil (l : List ApiRecord)
    (h : ((dedupApi l).filterMap appIdOf).isEmpty = true) : dedupApi l = [] := by
  cases hd : dedupApi l with
  | nil => rfl
  | cons x xs =>
    exfalso
    have hx : x ∈ dedupApi l := by rw [hd]; exact List.mem_cons_self _ _
    obtain ⟨a, ha⟩ := dedupApiGo_all_some l [] x hx
    have hmem : a ∈ (dedupApi l).filterMap appIdOf := List.mem_filterMap.2 ⟨x, hx, ha⟩
    rw [List.isEmpty_iff] at h
    rw [h] at hmem
    exact List.not_mem_nil a hmem

/-- Every record kept by the dedup pass of a run is fully synchronized in the
state the run commits (no session faults, non-empty records, genre names that
survive the 50-character truncation). -/
theorem api_run1_synced (cv : Converters) (now : Nat) (l : List ApiRecord) (db : Db)
    (hwf : db.WF)
    (hde : ∀ r ∈ l, r.dict_empty = false)
    (htr : ∀ r ∈ l, ∀ n ∈ r.genres, ¬n.isEmpty → strTake 50 n = n) :
    ∀ r ∈ dedupApi l, ∀ a, appIdOf r = some a →
      apiSynced cv (insert_steam_api_games_batch cv [] now l db).2 r a := by
  intro r hr a ha
  have h1 : l.isEmpty = false := by
    cases hv : l.isEmpty
    · rfl
    · exfalso
      rw [List.isEmpty_iff] at hv
      subst hv
      exact absurd hr (List.not_mem_nil r)
  have h2 : ((dedupApi l).filterMap appIdOf).isEmpty = false := by
    cases hv : ((dedupApi l).filterMap appIdOf).isEmpty
    · rfl
    · exfalso
      rw [dedupApi_nil_of_ids_nil l hv] at hr
      exact absurd hr (List.not_mem_nil r)
  rw [api_batch_state cv [] now l db h1 h2]
  have hsub : ∀ x ∈ dedupApi l, x ∈ l := dedupApiGo_subset l []
  have hndAll : ((dedupApi l).filterMap appIdOf).Nodup := (dedupApiGo_ids_fresh l []).1
  have hndEx : (((dedupApi l).filter (fun r => match appIdOf r with
                  | some b => db.hasGame b
                  | none => false)).filterMap appIdOf).Nodup :=
    List.Nodup.sublist (List.Sublist.filterMap appIdOf (List.filter_sublist _)) hndAll
  have hndNew : (((dedupApi l).filter (not ∘ fun r => match appIdOf r with
                  | some b => db.hasGame b
                  | none => false)).filterMap appIdOf).Nodup :=
    List.Nodup.sublist (List.Sublist.filterMap appIdOf (List.filter_sublist _)) hndAll
  have hexHas : ∀ x ∈ (dedupApi l).filter (fun r => match appIdOf r with
                  | some b => db.hasGame b
                  | none => false), ∀ b, appIdOf x = some b → db.hasGame b = true := by
    intro x hx b hb
    have hp := (List.mem_filter.1 hx).2
    simp only [hb] at hp
    exact hp
  have hPost := update_existing_api_post cv now
    ((dedupApi l).filter (fun r => match appIdOf r with
       | some b => db.hasGame b
       | none => false))
    (bulk_insert_new_api_games cv now
      ((dedupApi l).filter (not ∘ fun r => match appIdOf r with
         | some b => db.hasGame b
         | none => false)) db).2
    hndEx
    (fun x hx => hde x (hsub x (List.mem_filter.1 hx).1))
    (fun x hx => htr x (hsub x (List.mem_filter.1 hx).1))
    (fun x hx => dedupApiGo_all_some l [] x (List.mem_filter.1 hx).1)
    (by
      intro x hx b hb
      obtain ⟨e, he⟩ := Option.isSome_iff_exists.1
        ((hasGame_iff_findGame db b).1 (hexHas x hx b hb))
      rw [bulk_api_findGame_existing cv now _ db b e he]
      rfl)
  by_cases hpr : db.hasGame a = true
  · -- the record's game already existed: it went through the update phase
    have hrEx : r ∈ (dedupApi l).filter (fun r => match appIdOf r with
                  | some b => db.hasGame b
                  | none => false) := by
      refine List.mem_filter.2 ⟨hr, ?_⟩
      simp only [ha]
      exact hpr
    exact hPost.1 r hrEx a ha
  · -- new game: bulk-inserted, then untouched by the update phase
    have hprf : db.hasGame a = false := by
      cases hv : db.hasGame a
      · rfl
      · exact absurd hv hpr
    have hrNew : r ∈ (dedupApi l).filter (not ∘ fun r => match appIdOf r with
                  | some b => db.hasGame b
                  | none => false) := by
      refine List.mem_filter.2 ⟨hr, ?_⟩
      show (!(match appIdOf r with
              | some b => db.hasGame b
              | none => false)) = true
      simp only [ha, hprf]
      rfl
    have hfnone : db.findGame a = none := by
      cases hv : db.findGame a with
      | none => rfl
      | some e =>
        exfalso
        apply hpr
        rw [hasGame_iff_findGame, hv]
        rfl
    have hfnew := bulk_api_findGame_new cv now _ db r a hndNew hrNew ha hfnone
    have hdbNoGenres : ∀ gr ∈ db.genres, gr.app_id ≠ a := by
      intro gr hgr heq
      apply hpr
      rw [← heq]
      exact hwf.1 gr hgr
    have hgenNew := bulk_api_genres_new cv now _ db r a hndNew hrNew ha hdbNoGenres
      (htr r (hsub r hr))
    have hnotex : a ∉ ((dedupApi l).filter (fun r => match appIdOf r with
                    | some b => db.hasGame b
                    | none => false)).filterMap appIdOf := by
      intro hmem
      rcases List.mem_filterMap.1 hmem with ⟨x, hx, hxa⟩
      exact hpr (hexHas x hx a hxa)
    have hframe := hPost.2 a hnotex
    refine ⟨⟨apiBulkRow cv now r a, ?_, apiBulkRow_agrees cv now r a⟩, ?_⟩
    · rw [hframe.1]
      exact hfnew
    · intro s
      exact (hframe.2 s).trans (hgenNew s)

/-- When every deduplicated record is already synchronized, the batch is a
strict no-op: it reports every record as processed and returns the store
UNCHANGED — zero writes on any table. -/
theorem api_second_run_noop (cv : Converters) (now2 : Nat) (l : List ApiRecord) (db1 : Db)
    (hde : ∀ r ∈ l, r.dict_empty = false)
    (hsync : ∀ r ∈ dedupApi l, ∀ a, appIdOf r = some a → apiSynced cv db1 r a) :
    insert_steam_api_games_batch cv [] now2 l db1 = (((dedupApi l).length, []), db1) := by
  cases h1 : l.isEmpty with
  | true =>
    rw [List.isEmpty_iff] at h1
    subst h1
    rfl
  | false =>
    cases h2 : ((dedupApi l).filterMap appIdOf).isEmpty with
    | true =>
      have hd0 := dedupApi_nil_of_ids_nil l h2
      unfold insert_steam_api_games_batch insert_steam_api_games_hybrid_batch
      dsimp only
      simp only [h1, Bool.false_eq_true, if_false]
      rw [if_pos h2, hd0]
      rfl
    | false =>
      have hsub : ∀ x ∈ dedupApi l, x ∈ l := dedupApiGo_subset l []
      have hHas : ∀ x ∈ dedupApi l, ∀ b, appIdOf x = some b → db1.hasGame b = true := by
        intro x hx b hb
        obtain ⟨⟨g, hg, -⟩, -⟩ := hsync x hx b hb
        rw [hasGame_iff_findGame, hg]
        rfl
      have hfilter1 : (dedupApi l).filter (fun r => match appIdOf r with
          | some b => db1.hasGame b
          | none => false) = dedupApi l := by
        apply List.filter_eq_self.2
        intro x hx
        obtain ⟨b, hb⟩ := dedupApiGo_all_some l [] x hx
        simp only [hb]
        exact hHas x hx b hb
      have hfilter2 : (dedupApi l).filter (not ∘ fun r => match appIdOf r with
          | some b => db1.hasGame b
          | none => false) = [] := by
        rw [List.filter_eq_nil_iff]
        intro x hx
        obtain ⟨b, hb⟩ := dedupApiGo_all_some l [] x hx
        show ¬(!(match appIdOf x with
                 | some b => db1.hasGame b
                 | none => false)) = true
        simp only [hb, hHas x hx b hb]
        simp
      unfold insert_steam_api_games_batch insert_steam_api_games_hybrid_batch
      dsimp only
      simp only [h1, h2, Bool.false_eq_true, if_false, List.partition_eq_filter_filter]
      rw [hfilter1, hfilter2]
      rw [show bulk_insert_new_api_games cv now2 ([] : List ApiRecord) db1
            = ((0, []), db1) from rfl]
      rw [update_existing_api_noop cv now2 (dedupApi l) db1
        (fun r hr => hde r (hsub r hr))
        (fun r hr => by
          obtain ⟨b, hb⟩ := dedupApiGo_all_some l [] r hr
          exact ⟨b, hb, hsync r hr b hb⟩)]
      simp

/-- Composition: run the API batch twice on the same input; the second run
returns the first run's store unchanged. -/
theorem api_batch_idempotent (cv : Converters) (now1 now2 : Nat)
    (l : List ApiRecord) (db : Db) (hwf : db.WF)
    (hde : ∀ r ∈ l, r.dict_empty = false)
    (htr : ∀ r ∈ l, ∀ n ∈ r.genres, ¬n.isEmpty → strTake 50 n = n) :
    insert_steam_api_games_batch cv [] now2 l
        (insert_steam_api_games_batch cv [] now1 l db).2
      = (((dedupApi l).length, []),
         (insert_steam_api_games_batch cv [] now1 l db).2) :=
  api_second_run_noop cv now2 l _ hde (api_run1_synced cv now1 l db hwf hde htr)

/-! ### Crawl-side building blocks for idempotence -/

theorem dedupCrawlGo_subset : ∀ (l : List CrawlData) (seen : List Nat),
    ∀ c ∈ dedupCrawlGo seen l, c ∈ l := by
  intro l
  induction l with
  | nil => intro seen c hc; exact absurd hc (List.not_mem_nil c)
  | cons x xs ih =>
    intro seen c hc
    unfold dedupCrawlGo at hc
    cases hx : crawlIdOf x with
    | none => simp only [hx] at hc; exact List.mem_cons.2 (Or.inr (ih seen c hc))
    | some a =>
      simp only [hx] at hc
      by_cases hb : seen.contains a = true
      · rw [if_pos hb] at hc
        exact List.mem_cons.2 (Or.inr (ih seen c hc))
      · rw [if_neg hb] at hc
        rcases List.mem_cons.1 hc with rfl | hc
        · exact List.mem_cons_self _ _
        · exact List.mem_cons.2 (Or.inr (ih _ c hc))

theorem dedupCrawlGo_all_some : ∀ (l : List CrawlData) (seen : List Nat),
    ∀ c ∈ dedupCrawlGo seen l, ∃ a, crawlIdOf c = some a := by
  intro l
  induction l with
  | nil => intro seen c hc; exact absurd hc (List.not_mem_nil c)
  | cons x xs ih =>
    intro seen c hc
    unfold dedupCrawlGo at hc
    cases hx : crawlIdOf x with
    | none => simp only [hx] at hc; exact ih seen c hc
    | some a =>
      simp only [hx] at hc
      by_cases hb : seen.contains a = true
      · rw [if_pos hb] at hc
        exact ih seen c hc
      · rw [if_neg hb] at hc
        rcases List.mem_cons.1 hc with rfl | hc
        · exact ⟨a, hx⟩
        · exact ih _ c hc

theorem dedupCrawlGo_ids_fresh : ∀ (l : List CrawlData) (seen : List Nat),
    ((dedupCrawlGo seen l).filterMap crawlIdOf).Nodup ∧
    (∀ a ∈ (dedupCrawlGo seen l).filterMap crawlIdOf, a ∉ seen) := by
  intro l
  induction l with
  | nil =>
    intro seen
    exact ⟨List.nodup_nil, fun a ha => absurd ha (List.not_mem_nil a)⟩
  | cons x xs ih =>
    intro seen
    unfold dedupCrawlGo
    cases hx : crawlIdOf x with
    | none => dsimp only; exact ih seen
    | some a =>
      dsimp only
      by_cases hb : seen.contains a = true
      · rw [if_pos hb]; exact ih seen
      · rw [if_neg hb]
        have ih2 := ih (a :: seen)
        have hfm : (x :: dedupCrawlGo (a :: seen) xs).filterMap crawlIdOf
            = a :: (dedupCrawlGo (a :: seen) xs).filterMap crawlIdOf := by
          simp [List.filterMap_cons, hx]
        rw [hfm]
        constructor
        · rw [List.nodup_cons]
          refine ⟨?_, ih2.1⟩
          intro hmem
          exact (ih2.2 a hmem) (List.mem_cons_self _ _)
        · intro b hbmem
          rcases List.mem_cons.1 hbmem with rfl | hbmem
          · intro hmem
            exact hb (by simpa using hmem)
          · intro hmem
            exact (ih2.2 b hbmem) (List.mem_cons.2 (Or.inr hmem))

theorem pairSetEq_of_mem_iff (xs ys : List (String × Nat))
    (h : ∀ p, p ∈ xs ↔ p ∈ ys) : pairSetEq xs ys = true := by
  unfold pairSetEq
  rw [Bool.and_eq_true]
  constructor
  · rw [List.all_eq_true]
    intro p hp
    have : p ∈ ys := (h p).1 hp
    simpa using this
  · rw [List.all_eq_true]
    intro p hp
    have : p ∈ xs := (h p).2 hp
    simpa using this

theorem pairs_roundtrip (l : List (String × Nat)) (a : Nat) :
    ((l.map (fun p => ({ app_id := a, tag_name := p.1, tag_order := p.2 } : TagRow))).map
      (fun t => (t.tag_name, t.tag_order))) = l := by
  induction l with
  | nil => rfl
  | cons p ps ih => simp [ih]

/-- After `_update_user_tags` the stored tag set of the game equals the
incoming set. -/
theorem update_user_tags_post (db : Db) (a : Nat) (tags : List String) :
    pairSetEq (existingTagPairs (update_user_tags db a tags) a) (newTagPairs tags) = true := by
  by_cases h : pairSetEq (existingTagPairs db a) (newTagPairs tags) = true
  · rw [update_user_tags_noop db a tags h]
    exact h
  · have hfalse : pairSetEq (existingTagPairs db a) (newTagPairs tags) = false := by
      cases hv : pairSetEq (existingTagPairs db a) (newTagPairs tags)
      · rfl
      · exact absurd hv h
    have hrep := (update_user_tags_replace db a tags hfalse).1
    unfold existingTagPairs
    rw [hrep, List.filter_append]
    have h1 : (db.tags.filter (fun t => !(t.app_id == a))).filter
        (fun t => t.app_id == a) = [] := by
      rw [List.filter_filter, List.filter_eq_nil_iff]
      intro t ht
      cases hv : t.app_id == a <;> simp [hv]
    have h2 : ((newTagPairs tags).map
        (fun p => ({ app_id := a, tag_name := p.1, tag_order := p.2 } : TagRow))).filter
          (fun t => t.app_id == a)
        = (newTagPairs tags).map
            (fun p => ({ app_id := a, tag_name := p.1, tag_order := p.2 } : TagRow)) := by
      rw [List.filter_eq_self]
      intro t ht
      rcases List.mem_map.1 ht with ⟨p, hp, rfl⟩
      exact beq_self_eq_true a
    rw [h1, h2, List.nil_append, pairs_roundtrip]
    apply pairSetEq_of_mem_iff
    intro p
    exact List.mem_dedup

/-- `_update_user_tags` leaves other games' tag rows untouched. -/
theorem update_user_tags_other (db : Db) (a : Nat) (tags : List String) (b : Nat)
    (hb : b ≠ a) :
    existingTagPairs (update_user_tags db a tags) b = existingTagPairs db b := by
  by_cases h : pairSetEq (existingTagPairs db a) (newTagPairs tags) = true
  · rw [update_user_tags_noop db a tags h]
  · have hfalse : pairSetEq (existingTagPairs db a) (newTagPairs tags) = false := by
      cases hv : pairSetEq (existingTagPairs db a) (newTagPairs tags)
      · rfl
      · exact absurd hv h
    have hrep := (update_user_tags_replace db a tags hfalse).1
    unfold existingTagPairs
    rw [hrep, List.filter_append]
    have h2 : ((newTagPairs tags).map
        (fun p => ({ app_id := a, tag_name := p.1, tag_order := p.2 } : TagRow))).filter
          (fun t => t.app_id == b) = [] := by
      rw [List.filter_eq_nil_iff]
      intro t ht
      rcases List.mem_map.1 ht with ⟨p, hp, rfl⟩
      show ¬(a == b) = true
      simp only [beq_iff_eq]
      exact fun hh => hb hh.symm
    have h1 : (db.tags.filter (fun t => !(t.app_id == a))).filter
        (fun t => t.app_id == b) = db.tags.filter (fun t => t.app_id == b) := by
      rw [List.filter_filter]
      apply List.filter_congr
      intro t ht
      cases htb : (t.app_id == b) with
      | false => simp
      | true =>
        have hteq : t.app_id = b := by simpa using htb
        have hta : (t.app_id == a) = false := by
          simp only [beq_eq_false_iff_ne, ne_eq, hteq]
          exact hb
        simp [hta]
    rw [h1, h2, List.append_nil]

theorem foldl_addTag_reviews (l : List (String × Nat)) (db : Db) (a : Nat) :
    (l.foldl (fun d p => d.addTag { app_id := a, tag_name := p.1, tag_order := p.2 }) db).reviews
      = db.reviews := by
  induction l generalizing db with
  | nil => rfl
  | cons x xs ih => simp only [List.foldl_cons]; rw [ih]; rfl

theorem foldl_addTag_pricing (l : List (String × Nat)) (db : Db) (a : Nat) :
    (l.foldl (fun d p => d.addTag { app_id := a, tag_name := p.1, tag_order := p.2 }) db).pricing
      = db.pricing := by
  induction l generalizing db with
  | nil => rfl
  | cons x xs ih => simp only [List.foldl_cons]; rw [ih]; rfl

theorem update_user_tags_reviews (db : Db) (a : Nat) (tags : List String) :
    (update_user_tags db a tags).reviews = db.reviews := by
  unfold update_user_tags
  dsimp only
  split
  · rfl
  · rw [foldl_addTag_reviews]
    rfl

theorem update_user_tags_pricing (db : Db) (a : Nat) (tags : List String) :
    (update_user_tags db a tags).pricing = db.pricing := by
  unfold update_user_tags
  dsimp only
  split
  · rfl
  · rw [foldl_addTag_pricing]
    rfl

theorem update_review_info_tags (db : Db) (a : Nat) (ri : ReviewInfo) (t : Nat) :
    (update_review_info db a ri t).tags = db.tags := by
  unfold update_review_info
  dsimp only
  split
  · split <;> rfl
  · rfl

theorem update_review_info_pricing (db : Db) (a : Nat) (ri : ReviewInfo) (t : Nat) :
    (update_review_info db a ri t).pricing = db.pricing := by
  unfold update_review_info
  dsimp only
  split
  · split <;> rfl
  · rfl

theorem update_localized_pricing_tags (db : Db) (a : Nat) (lp : PriceInfo) (t : Nat) :
    (update_localized_pricing db a lp t).tags = db.tags := by
  unfold update_localized_pricing
  dsimp only
  split
  · split <;> rfl
  · rfl

theorem update_localized_pricing_reviews (db : Db) (a : Nat) (lp : PriceInfo) (t : Nat) :
    (update_localized_pricing db a lp t).reviews = db.reviews := by
  unfold update_localized_pricing
  dsimp only
  split
  · split <;> rfl
  · rfl

theorem replaceFirstReview_find_same (l : List ReviewRow) (g : ReviewRow) (e : ReviewRow)
    (h : l.find? (fun x => x.app_id == g.app_id) = some e) :
    (replaceFirstReview l g).find? (fun x => x.app_id == g.app_id) = some g := by
  induction l with
  | nil => simp at h
  | cons x xs ih =>
    unfold replaceFirstReview
    by_cases hx : (x.app_id == g.app_id) = true
    · rw [if_pos hx]
      simp [List.find?_cons]
    · rw [if_neg hx]
      simp only [List.find?_cons] at h ⊢
      rw [Bool.not_eq_true] at hx
      rw [hx] at h ⊢
      exact ih h

theorem replaceFirstReview_find_other (l : List ReviewRow) (g : ReviewRow) (b : Nat)
    (hb : b ≠ g.app_id) :
    (replaceFirstReview l g).find? (fun x => x.app_id == b) =
      l.find? (fun x => x.app_id == b) := by
  induction l with
  | nil => rfl
  | cons x xs ih =>
    unfold replaceFirstReview
    by_cases hx : (x.app_id == g.app_id) = true
    · rw [if_pos hx]
      have hxg : x.app_id = g.app_id := by simpa using hx
      have hxb : (x.app_id == b) = false := by
        simp only [beq_eq_false_iff_ne, ne_eq, hxg]
        exact fun h => hb h.symm
      have hgb : (g.app_id == b) = false := by
        simp only [beq_eq_false_iff_ne, ne_eq]
        exact fun h => hb h.symm
      simp only [List.find?_cons, hxb, hgb]
    · rw [if_neg hx]
      simp only [List.find?_cons]
      cases hxb : (x.app_id == b) with
      | true => rfl
      | false => exact ih

theorem replaceFirstPricing_find_same (l : List PricingRow) (g : PricingRow) (e : PricingRow)
    (h : l.find? (fun x => x.app_id == g.app_id) = some e) :
    (replaceFirstPricing l g).find? (fun x => x.app_id == g.app_id) = some g := by
  induction l with
  | nil => simp at h
  | cons x xs ih =>
    unfold replaceFirstPricing
    by_cases hx : (x.app_id == g.app_id) = true
    · rw [if_pos hx]
      simp [List.find?_cons]
    · rw [if_neg hx]
      simp only [List.find?_cons] at h ⊢
      rw [Bool.not_eq_true] at hx
      rw [hx] at h ⊢
      exact ih h

theorem replaceFirstPricing_find_other (l : List PricingRow) (g : PricingRow) (b : Nat)
    (hb : b ≠ g.app_id) :
    (replaceFirstPricing l g).find? (fun x => x.app_id == b) =
      l.find? (fun x => x.app_id == b) := by
  induction l with
  | nil => rfl
  | cons x xs ih =>
    unfold replaceFirstPricing
    by_cases hx : (x.app_id == g.app_id) = true
    · rw [if_pos hx]
      have hxg : x.app_id = g.app_id := by simpa using hx
      have hxb : (x.app_id == b) = false := by
        simp only [beq_eq_false_iff_ne, ne_eq, hxg]
        exact fun h => hb h.symm
      have hgb : (g.app_id == b) = false := by
        simp only [beq_eq_false_iff_ne, ne_eq]
        exact fun h => hb h.symm
      simp only [List.find?_cons, hxb, hgb]
    · rw [if_neg hx]
      simp only [List.find?_cons]
      cases hxb : (x.app_id == b) with
      | true => rfl
      | false => exact ih

theorem reviewChanged_updated_at_irrel (o : ReviewRow) (a : Nat) (ri : ReviewInfo)
    (t1 t2 : Nat) :
    reviewChanged o (reviewFields a ri t1) ↔ reviewChanged o (reviewFields a ri t2) :=
  Iff.rfl

theorem pricingChanged_updated_at_irrel (o : PricingRow) (a : Nat) (lp : PriceInfo)
    (t1 t2 : Nat) :
    pricingChanged o (pricingFields a lp t1) ↔ pricingChanged o (pricingFields a lp t2) :=
  Iff.rfl

theorem reviewFields_not_changed (a : Nat) (ri : ReviewInfo) (t1 t2 : Nat) :
    ¬reviewChanged (reviewFields a ri t1) (reviewFields a ri t2) := by
  intro h
  rcases h with h | h | h | h | h | h <;> exact h rfl

theorem pricingFields_not_changed (a : Nat) (lp : PriceInfo) (t1 t2 : Nat) :
    ¬pricingChanged (pricingFields a lp t1) (pricingFields a lp t2) := by
  intro h
  rcases h with h | h | h | h <;> exact h rfl

theorem update_review_info_noop (db : Db) (a : Nat) (ri : ReviewInfo) (t : Nat)
    (h : ∃ rr, db.findReview a = some rr ∧ ¬reviewChanged rr (reviewFields a ri t)) :
    update_review_info db a ri t = db := by
  obtain ⟨rr, hrr, hch⟩ := h
  unfold update_review_info
  dsimp only
  rw [hrr]
  dsimp only
  rw [if_neg hch]

theorem update_localized_pricing_noop (db : Db) (a : Nat) (lp : PriceInfo) (t : Nat)
    (h : ∃ pr, db.findPricing a = some pr ∧ ¬pricingChanged pr (pricingFields a lp t)) :
    update_localized_pricing db a lp t = db := by
  obtain ⟨pr, hpr, hch⟩ := h
  unfold update_localized_pricing
  dsimp only
  rw [hpr]
  dsimp only
  rw [if_neg hch]

/-- After `_update_review_info` the stored review row matches the incoming
fields (the comparison excludes `updated_at`). -/
theorem update_review_info_post (db : Db) (a : Nat) (ri : ReviewInfo) (t : Nat) :
    ∃ rr, (update_review_info db a ri t).findReview a = some rr ∧
      ∀ t2, ¬reviewChanged rr (reviewFields a ri t2) := by
  unfold update_review_info
  dsimp only
  cases hf : db.findReview a with
  | some rr0 =>
    dsimp only
    by_cases hch : reviewChanged rr0 (reviewFields a ri t)
    · rw [if_pos hch]
      refine ⟨reviewFields a ri t, ?_, fun t2 => reviewFields_not_changed a ri t t2⟩
      show (replaceFirstReview db.reviews (reviewFields a ri t)).find?
        (fun x => x.app_id == (reviewFields a ri t).app_id) = some (reviewFields a ri t)
      exact replaceFirstReview_find_same db.reviews _ rr0 hf
    · rw [if_neg hch]
      exact ⟨rr0, hf, fun t2 => hch⟩
  | none =>
    dsimp only
    refine ⟨reviewFields a ri t, ?_, fun t2 => reviewFields_not_changed a ri t t2⟩
    unfold Db.addReview Db.findReview
    unfold Db.findReview at hf
    rw [find_append_none _ _ _ hf]
    have hself : ((reviewFields a ri t).app_id == a) = true := beq_self_eq_true a
    simp [List.find?_cons, hself]

theorem update_review_info_other (db : Db) (a : Nat) (ri : ReviewInfo) (t : Nat)
    (b : Nat) (hb : b ≠ a) :
    (update_review_info db a ri t).findReview b = db.findReview b := by
  unfold update_review_info
  dsimp only
  cases hf : db.findReview a with
  | some rr0 =>
    dsimp only
    by_cases hch : reviewChanged rr0 (reviewFields a ri t)
    · rw [if_pos hch]
      unfold Db.setReview Db.findReview
      exact replaceFirstReview_find_other db.reviews _ b hb
    · rw [if_neg hch]
  | none =>
    dsimp only
    unfold Db.addReview Db.findReview
    apply find_append_all_neg
    intro x hx
    rcases List.mem_cons.1 hx with rfl | hx
    · show (a == b) = false
      simp only [beq_eq_false_iff_ne, ne_eq]
      exact fun h => hb h.symm
    · exact absurd hx (List.not_mem_nil x)

theorem update_localized_pricing_post (db : Db) (a : Nat) (lp : PriceInfo) (t : Nat) :
    ∃ pr, (update_localized_pricing db a lp t).findPricing a = some pr ∧
      ∀ t2, ¬pricingChanged pr (pricingFields a lp t2) := by
  unfold update_localized_pricing
  dsimp only
  cases hf : db.findPricing a with
  | some pr0 =>
    dsimp only
    by_cases hch : pricingChanged pr0 (pricingFields a lp t)
    · rw [if_pos hch]
      refine ⟨pricingFields a lp t, ?_, fun t2 => pricingFields_not_changed a lp t t2⟩
      show (replaceFirstPricing db.pricing (pricingFields a lp t)).find?
        (fun x => x.app_id == (pricingFields a lp t).app_id) = some (pricingFields a lp t)
      exact replaceFirstPricing_find_same db.pricing _ pr0 hf
    · rw [if_neg hch]
      exact ⟨pr0, hf, fun t2 => hch⟩
  | none =>
    dsimp only
    refine ⟨pricingFields a lp t, ?_, fun t2 => pricingFields_not_changed a lp t t2⟩
    unfold Db.addPricing Db.findPricing
    unfold Db.findPricing at hf
    rw [find_append_none _ _ _ hf]
    have hself : ((pricingFields a lp t).app_id == a) = true := beq_self_eq_true a
    simp [List.find?_cons, hself]

theorem update_localized_pricing_other (db : Db) (a : Nat) (lp : PriceInfo) (t : Nat)
    (b : Nat) (hb : b ≠ a) :
    (update_localized_pricing db a lp t).findPricing b = db.findPricing b := by
  unfold update_localized_pricing
  dsimp only
  cases hf : db.findPricing a with
  | some pr0 =>
    dsimp only
    by_cases hch : pricingChanged pr0 (pricingFields a lp t)
    · rw [if_pos hch]
      unfold Db.setPricing Db.findPricing
      exact replaceFirstPricing_find_other db.pricing _ b hb
    · rw [if_neg hch]
  | none =>
    dsimp only
    unfold Db.addPricing Db.findPricing
    apply find_append_all_neg
    intro x hx
    rcases List.mem_cons.1 hx with rfl | hx
    · show (a == b) = false
      simp only [beq_eq_false_iff_ne, ne_eq]
      exact fun h => hb h.symm
    · exact absurd hx (List.not_mem_nil x)

/-- Postcondition of one synchronized crawled record: the stored title matches
(when the incoming one is non-blank), and the tag set, review fields and
pricing fields all coincide with the incoming payloads. -/
def crawlSynced (db : Db) (c : CrawlData) (a : Nat) : Prop :=
  (∃ e, db.findGame a = some e ∧
     ((strTake 255 c.title).isEmpty = false → e.title = strTake 255 c.title)) ∧
  (c.user_tags.isEmpty = false →
     pairSetEq (existingTagPairs db a) (newTagPairs c.user_tags) = true) ∧
  (∀ ri, c.review_info = some ri →
     ∃ rr, db.findReview a = some rr ∧ ∀ t, ¬reviewChanged rr (reviewFields a ri t)) ∧
  (∀ lp, c.localized_price = some lp →
     ∃ pr, db.findPricing a = some pr ∧ ∀ t, ¬pricingChanged pr (pricingFields a lp t))

theorem existingTagPairs_congr (d1 d2 : Db) (h : d1.tags = d2.tags) (b : Nat) :
    existingTagPairs d1 b = existingTagPairs d2 b := by
  unfold existingTagPairs
  rw [h]

theorem findReview_congr (d1 d2 : Db) (h : d1.reviews = d2.reviews) (b : Nat) :
    d1.findReview b = d2.findReview b := by
  unfold Db.findReview
  rw [h]

theorem findPricing_congr (d1 d2 : Db) (h : d1.pricing = d2.pricing) (b : Nat) :
    d1.findPricing b = d2.findPricing b := by
  unfold Db.findPricing
  rw [h]

/-- Properties of the tag/review/pricing tail of `insert_steam_crawling_game`:
after it runs, the stored tag set, review fields and pricing fields coincide
with the incoming payloads, and every other game's child rows are untouched. -/
theorem crawl_tail_props (db : Db) (c : CrawlData) (a : Nat) (t : Nat) :
    (c.user_tags.isEmpty = false →
       pairSetEq (existingTagPairs ((match c.localized_price with
         | some lp => update_localized_pricing
             (match c.review_info with
              | some ri => update_review_info
                  (if c.user_tags.isEmpty then db else update_user_tags db a c.user_tags)
                  a ri t
              | none =>
                  (if c.user_tags.isEmpty then db else update_user_tags db a c.user_tags))
             a lp t
         | none =>
             (match c.review_info with
              | some ri => update_review_info
                  (if c.user_tags.isEmpty then db else update_user_tags db a c.user_tags)
                  a ri t
              | none =>
                  (if c.user_tags.isEmpty then db
                   else update_user_tags db a c.user_tags))) : Db) a)
         (newTagPairs c.user_tags) = true) ∧
    (∀ ri, c.review_info = some ri →
       ∃ rr, ((match c.localized_price with
         | some lp => update_localized_pricing
             (match c.review_info with
              | some ri => update_review_info
                  (if c.user_tags.isEmpty then db else update_user_tags db a c.user_tags)
                  a ri t
              | none =>
                  (if c.user_tags.isEmpty then db else update_user_tags db a c.user_tags))
             a lp t
         | none =>
             (match c.review_info with
              | some ri => update_review_info
                  (if c.user_tags.isEmpty then db else update_user_tags db a c.user_tags)
                  a ri t
              | none =>
                  (if c.user_tags.isEmpty then db
                   else update_user_tags db a c.user_tags))) : Db).findReview a = some rr ∧
         ∀ t2, ¬reviewChanged rr (reviewFields a ri t2)) ∧
    (∀ lp, c.localized_price = some lp →
       ∃ pr, ((match c.localized_price with
         | some lp => update_localized_pricing
             (match c.review_info with
              | some ri => update_review_info
                  (if c.user_tags.isEmpty then db else update_user_tags db a c.user_tags)
                  a ri t
              | none =>
                  (if c.user_tags.isEmpty then db else update_user_tags db a c.user_tags))
             a lp t
         | none =>
             (match c.review_info with
              | some ri => update_review_info
                  (if c.user_tags.isEmpty then db else update_user_tags db a c.user_tags)
                  a ri t
              | none =>
                  (if c.user_tags.isEmpty then db
                   else update_user_tags db a c.user_tags))) : Db).findPricing a = some pr ∧
         ∀ t2, ¬pricingChanged pr (pricingFields a lp t2)) ∧
    (∀ b, b ≠ a →
       existingTagPairs ((match c.localized_price with
         | some lp => update_localized_pricing
             (match c.review_info with
              | some ri => update_review_info
                  (if c.user_tags.isEmpty then db else update_user_tags db a c.user_tags)
                  a ri t
              | none =>
                  (if c.user_tags.isEmpty then db else update_user_tags db a c.user_tags))
             a lp t
         | none =>
             (match c.review_info with
              | some ri => update_review_info
                  (if c.user_tags.isEmpty then db else update_user_tags db a c.user_tags)
                  a ri t
              | none =>
                  (if c.user_tags.isEmpty then db
                   else update_user_tags db a c.user_tags))) : Db) b = existingTagPairs db b ∧
       ((match c.localized_price with
         | some lp => update_localized_pricing
             (match c.review_info with
              | some ri => update_review_info
                  (if c.user_tags.isEmpty then db else update_user_tags db a c.user_tags)
                  a ri t
              | none =>
                  (if c.user_tags.isEmpty then db else update_user_tags db a c.user_tags))
             a lp t
         | none =>
             (match c.review_info with
              | some ri => update_review_info
                  (if c.user_tags.isEmpty then db else update_user_tags db a c.user_tags)
                  a ri t
              | none =>
                  (if c.user_tags.isEmpty then db
                   else update_user_tags db a c.user_tags))) : Db).findReview b = db.findReview b ∧
       ((match c.localized_price with
         | some lp => update_localized_pricing
             (match c.review_info with
              | some ri => update_review_info
                  (if c.user_tags.isEmpty then db else update_user_tags db a c.user_tags)
                  a ri t
              | none =>
                  (if c.user_tags.isEmpty then db else update_user_tags db a c.user_tags))
             a lp t
         | none =>
             (match c.review_info with
              | some ri => update_review_info
                  (if c.user_tags.isEmpty then db else update_user_tags db a c.user_tags)
                  a ri t
              | none =>
                  (if c.user_tags.isEmpty then db
                   else update_user_tags db a c.user_tags))) : Db).findPricing b = db.findPricing b) := by
  have hTtagsA : c.user_tags.isEmpty = false →
      pairSetEq (existingTagPairs
        (if c.user_tags.isEmpty then db else update_user_tags db a c.user_tags) a)
        (newTagPairs c.user_tags) = true := by
    intro hne
    rw [if_neg (by simp [hne])]
    exact update_user_tags_post db a c.user_tags
  have hTtagsB : ∀ b, b ≠ a →
      existingTagPairs (if c.user_tags.isEmpty then db else update_user_tags db a c.user_tags) b
        = existingTagPairs db b := by
    intro b hb
    split
    · rfl
    · exact update_user_tags_other db a c.user_tags b hb
  have hTrev : (if c.user_tags.isEmpty then db else update_user_tags db a c.user_tags).reviews
      = db.reviews := by
    split
    · rfl
    · exact update_user_tags_reviews db a c.user_tags
  have hTpri : (if c.user_tags.isEmpty then db else update_user_tags db a c.user_tags).pricing
      = db.pricing := by
    split
    · rfl
    · exact update_user_tags_pricing db a c.user_tags
  cases hlp : c.localized_price with
  | none =>
    cases hri : c.review_info with
    | none =>
      dsimp only
      refine ⟨hTtagsA, ?_, ?_, ?_⟩
      · intro ri h
        exact absurd h (by simp)
      · intro lp h
        exact absurd h (by simp)
      · intro b hb
        exact ⟨hTtagsB b hb, findReview_congr _ _ hTrev b, findPricing_congr _ _ hTpri b⟩
    | some ri =>
      dsimp only
      refine ⟨?_, ?_, ?_, ?_⟩
      · intro hne
        rw [existingTagPairs_congr _ _ (update_review_info_tags _ a ri t) a]
        exact hTtagsA hne
      · intro ri2 h
        obtain rfl : ri = ri2 := Option.some.inj h
        exact update_review_info_post _ a ri t
      · intro lp h
        exact absurd h (by simp)
      · intro b hb
        refine ⟨?_, ?_, ?_⟩
        · rw [existingTagPairs_congr _ _ (update_review_info_tags _ a ri t) b]
          exact hTtagsB b hb
        · rw [update_review_info_other _ a ri t b hb]
          exact findReview_congr _ _ hTrev b
        · rw [findPricing_congr _ _ (update_review_info_pricing _ a ri t) b]
          exact findPricing_congr _ _ hTpri b
  | some lp =>
    cases hri : c.review_info with
    | none =>
      dsimp only
      refine ⟨?_, ?_, ?_, ?_⟩
      · intro hne
        rw [existingTagPairs_congr _ _ (update_localized_pricing_tags _ a lp t) a]
        exact hTtagsA hne
      · intro ri h
        exact absurd h (by simp)
      · intro lp2 h
        obtain rfl : lp = lp2 := Option.some.inj h
        exact update_localized_pricing_post _ a lp t
      · intro b hb
        refine ⟨?_, ?_, ?_⟩
        · rw [existingTagPairs_congr _ _ (update_localized_pricing_tags _ a lp t) b]
          exact hTtagsB b hb
        · rw [findReview_congr _ _ (update_localized_pricing_reviews _ a lp t) b]
          exact findReview_congr _ _ hTrev b
        · rw [update_localized_pricing_other _ a lp t b hb]
          exact findPricing_congr _ _ hTpri b
    | some ri =>
      dsimp only
      refine ⟨?_, ?_, ?_, ?_⟩
      · intro hne
        rw [existingTagPairs_congr _ _ (update_localized_pricing_tags _ a lp t) a,
            existingTagPairs_congr _ _ (update_review_info_tags _ a ri t) a]
        exact hTtagsA hne
      · intro ri2 h
        obtain rfl : ri = ri2 := Option.some.inj h
        obtain ⟨rr, hrr, hall⟩ := update_review_info_post
          (if c.user_tags.isEmpty then db else update_user_tags db a c.user_tags) a ri t
        refine ⟨rr, ?_, hall⟩
        rw [findReview_congr _ _ (update_localized_pricing_reviews _ a lp t) a]
        exact hrr
      · intro lp2 h
        obtain rfl : lp = lp2 := Option.some.inj h
        exact update_localized_pricing_post _ a lp t
      · intro b hb
        refine ⟨?_, ?_, ?_⟩
        · rw [existingTagPairs_congr _ _ (update_localized_pricing_tags _ a lp t) b,
              existingTagPairs_congr _ _ (update_review_info_tags _ a ri t) b]
          exact hTtagsB b hb
        · rw [findReview_congr _ _ (update_localized_pricing_reviews _ a lp t) b,
              update_review_info_other _ a ri t b hb]
          exact findReview_congr _ _ hTrev b
        · rw [update_localized_pricing_other _ a lp t b hb,
              findPricing_congr _ _ (update_review_info_pricing _ a ri t) b]
          exact findPricing_congr _ _ hTpri b

/-- On a fully synchronized crawled record, `insert_steam_crawling_game`
performs no write: the title guard fails, the tag sets match, and the review
and pricing comparisons find no change. -/
theorem insert_crawl_noop (now : Nat) (db : Db) (c : CrawlData) (a : Nat)
    (hde : c.dict_empty = false) (hid : crawlIdOf c = some a)
    (hs : crawlSynced db c a) :
    insert_steam_crawling_game [] now db c = (true, db) := by
  unfold crawlIdOf at hid
  have h0 : truthyNat c.app_id = true := by
    by_cases h : truthyNat c.app_id = true
    · exact h
    · rw [if_neg h] at hid
      exact absurd hid (by simp)
  rw [if_pos h0] at hid
  have ha0 : a ≠ 0 := by
    unfold truthyNat at h0
    rw [hid] at h0
    simpa using h0
  obtain ⟨⟨e, hf, htitle⟩, htags, hrev, hpri⟩ := hs
  unfold insert_steam_crawling_game
  rw [hde, hid]
  simp only [Bool.false_eq_true, if_false, List.contains_nil]
  rw [if_neg (by simpa using ha0)]
  rw [hf]
  dsimp only
  have hcond : ¬(e.title ≠ strTake 255 c.title ∧ ¬(strTake 255 c.title).isEmpty = true) := by
    intro h
    by_cases hemp : (strTake 255 c.title).isEmpty = true
    · exact h.2 hemp
    · have hfalse : (strTake 255 c.title).isEmpty = false := by
        cases hv : (strTake 255 c.title).isEmpty
        · rfl
        · exact absurd hv hemp
      exact h.1 (htitle hfalse)
  rw [if_neg hcond]
  have hdb2 : (if c.user_tags.isEmpty then db else update_user_tags db a c.user_tags) = db := by
    by_cases hE : c.user_tags.isEmpty = true
    · rw [if_pos hE]
    · have hfalse : c.user_tags.isEmpty = false := by
        cases hv : c.user_tags.isEmpty
        · rfl
        · exact absurd hv hE
      rw [if_neg hE]
      exact update_user_tags_noop db a c.user_tags (htags hfalse)
  rw [hdb2]
  cases hri : c.review_info with
  | none =>
    dsimp only
    cases hlp2 : c.localized_price with
    | none => rfl
    | some lp =>
      dsimp only
      obtain ⟨pr, hpr, hallp⟩ := hpri lp hlp2
      rw [update_localized_pricing_noop db a lp _ ⟨pr, hpr, hallp _⟩]
  | some ri =>
    dsimp only
    obtain ⟨rr, hrr, hallr⟩ := hrev ri hri
    rw [update_review_info_noop db a ri _ ⟨rr, hrr, hallr _⟩]
    cases hlp2 : c.localized_price with
    | none => rfl
    | some lp =>
      dsimp only
      obtain ⟨pr, hpr, hallp⟩ := hpri lp hlp2
      rw [update_localized_pricing_noop db a lp _ ⟨pr, hpr, hallp _⟩]

theorem update_existing_crawl_noop (now : Nat) :
    ∀ (rs : List CrawlData) (db : Db),
      (∀ c ∈ rs, c.dict_empty = false) →
      (∀ c ∈ rs, ∃ a, crawlIdOf c = some a ∧ crawlSynced db c a) →
      update_existing_crawling_games [] now rs db = ((rs.length, []), db) := by
  intro rs
  induction rs with
  | nil => intro db _ _; rfl
  | cons x xs ih =>
    intro db hde hs
    obtain ⟨a, hid, hsx⟩ := hs x (List.mem_cons_self _ _)
    unfold update_existing_crawling_games
    rw [insert_crawl_noop now db x a (hde x (List.mem_cons_self _ _)) hid hsx]
    dsimp only
    rw [ih db (fun c hc => hde c (List.mem_cons.2 (Or.inr hc)))
          (fun c hc => hs c (List.mem_cons.2 (Or.inr hc)))]
    rw [if_pos rfl]
    rfl

/-- Effect of one existing-record crawl update: the record becomes fully
synchronized and every other game's rows are untouched. -/
theorem insert_crawl_step_effect (now : Nat) (db : Db) (c : CrawlData) (a : Nat)
    (e : GameRow) (hde : c.dict_empty = false) (hid : crawlIdOf c = some a)
    (hf : db.findGame a = some e) :
    (insert_steam_crawling_game [] now db c).1 = true ∧
    crawlSynced (insert_steam_crawling_game [] now db c).2 c a ∧
    (∀ b, b ≠ a →
      (insert_steam_crawling_game [] now db c).2.findGame b = db.findGame b ∧
      existingTagPairs (insert_steam_crawling_game [] now db c).2 b = existingTagPairs db b ∧
      (insert_steam_crawling_game [] now db c).2.findReview b = db.findReview b ∧
      (insert_steam_crawling_game [] now db c).2.findPricing b = db.findPricing b) := by
  have hea : e.app_id = a := findGame_eq_some_app_id db a e hf
  unfold crawlIdOf at hid
  have h0 : truthyNat c.app_id = true := by
    by_cases h : truthyNat c.app_id = true
    · exact h
    · rw [if_neg h] at hid
      exact absurd hid (by simp)
  rw [if_pos h0] at hid
  have ha0 : a ≠ 0 := by
    unfold truthyNat at h0
    rw [hid] at h0
    simpa using h0
  unfold insert_steam_crawling_game
  rw [hde, hid]
  simp only [Bool.false_eq_true, if_false, List.contains_nil]
  rw [if_neg (by simpa using ha0)]
  dsimp only
  rw [hf]
  dsimp only
  by_cases hcond : (e.title ≠ strTake 255 c.title ∧ ¬(strTake 255 c.title).isEmpty = true)
  · rw [if_pos hcond]
    have props := crawl_tail_props
      (db.setGameRow (GameRow.setUpdatedAt (some (c.crawled_at.getD now))
        (GameRow.setTitle (strTake 255 c.title) e))) c a (c.crawled_at.getD now)
    refine ⟨rfl, ⟨⟨GameRow.setUpdatedAt (some (c.crawled_at.getD now))
        (GameRow.setTitle (strTake 255 c.title) e), ?_, ?_⟩,
      props.1, props.2.1, props.2.2.1⟩, ?_⟩
    · rw [crawl_tail_findGame]
      apply findGame_setGameRow_same db _ a e _ hf
      show (GameRow.setUpdatedAt (some (c.crawled_at.getD now))
        (GameRow.setTitle (strTake 255 c.title) e)).app_id = a
      rw [GameRow.app_id_setUpdatedAt, GameRow.app_id_setTitle, hea]
    · intro hne
      rw [GameRow.title_setUpdatedAt, GameRow.title_setTitle]
    · intro b hb
      refine ⟨?_, (props.2.2.2 b hb).1, (props.2.2.2 b hb).2.1, (props.2.2.2 b hb).2.2⟩
      rw [crawl_tail_findGame]
      apply findGame_setGameRow_other
      show b ≠ (GameRow.setUpdatedAt (some (c.crawled_at.getD now))
        (GameRow.setTitle (strTake 255 c.title) e)).app_id
      rw [GameRow.app_id_setUpdatedAt, GameRow.app_id_setTitle, hea]
      exact hb
  · rw [if_neg hcond]
    have props := crawl_tail_props db c a (c.crawled_at.getD now)
    refine ⟨rfl, ⟨⟨e, ?_, ?_⟩, props.1, props.2.1, props.2.2.1⟩, ?_⟩
    · rw [crawl_tail_findGame]
      exact hf
    · intro hne
      by_contra hno
      exact hcond ⟨hno, by simp [hne]⟩
    · intro b hb
      refine ⟨?_, (props.2.2.2 b hb).1, (props.2.2.2 b hb).2.1, (props.2.2.2 b hb).2.2⟩
      rw [crawl_tail_findGame]

theorem update_existing_crawl_state_cons (faults : List Nat) (now : Nat)
    (x : CrawlData) (xs : List CrawlData) (db : Db) :
    (update_existing_crawling_games faults now (x :: xs) db).2 =
      (update_existing_crawling_games faults now xs
        (insert_steam_crawling_game faults now db x).2).2 := by
  conv_lhs => rw [update_existing_crawling_games]
  split <;> rfl

/-- After the crawl existing-record phase, every processed record is fully
synchronized, and the rows of every other game are untouched. -/
theorem update_existing_crawl_post (now : Nat) :
    ∀ (rs : List CrawlData) (db : Db),
      ((rs.filterMap crawlIdOf).Nodup) →
      (∀ c ∈ rs, c.dict_empty = false) →
      (∀ c ∈ rs, ∃ a, crawlIdOf c = some a) →
      (∀ c ∈ rs, ∀ a, crawlIdOf c = some a → (db.findGame a).isSome = true) →
      (∀ c ∈ rs, ∀ a, crawlIdOf c = some a →
        crawlSynced (update_existing_crawling_games [] now rs db).2 c a) ∧
      (∀ b, b ∉ rs.filterMap crawlIdOf →
        (update_existing_crawling_games [] now rs db).2.findGame b = db.findGame b ∧
        existingTagPairs (update_existing_crawling_games [] now rs db).2 b
          = existingTagPairs db b ∧
        (update_existing_crawling_games [] now rs db).2.findReview b = db.findReview b ∧
        (update_existing_crawling_games [] now rs db).2.findPricing b = db.findPricing b) := by
  intro rs
  induction rs with
  | nil =>
    intro db _ _ _ _
    exact ⟨fun c hc => absurd hc (List.not_mem_nil c),
           fun b _ => ⟨rfl, rfl, rfl, rfl⟩⟩
  | cons x xs ih =>
    intro db hnd hde hsome hfind
    obtain ⟨a, hid⟩ := hsome x (List.mem_cons_self _ _)
    obtain ⟨e, hf⟩ := Option.isSome_iff_exists.1
      (hfind x (List.mem_cons_self _ _) a hid)
    have hids : (x :: xs).filterMap crawlIdOf = a :: xs.filterMap crawlIdOf := by
      simp [List.filterMap_cons, hid]
    rw [hids] at hnd
    rw [List.nodup_cons] at hnd
    have step := insert_crawl_step_effect now db x a e
      (hde x (List.mem_cons_self _ _)) hid hf
    have hfind2 : ∀ c ∈ xs, ∀ b, crawlIdOf c = some b →
        (((insert_steam_crawling_game [] now db x).2).findGame b).isSome = true := by
      intro c hc b hb
      have hba : b ≠ a := by
        intro hba
        apply hnd.1
        rw [← hba]
        exact List.mem_filterMap.2 ⟨c, hc, hb⟩
      rw [(step.2.2 b hba).1]
      exact hfind c (List.mem_cons.2 (Or.inr hc)) b hb
    have ihres := ih (insert_steam_crawling_game [] now db x).2 hnd.2
      (fun c hc => hde c (List.mem_cons.2 (Or.inr hc)))
      (fun c hc => hsome c (List.mem_cons.2 (Or.inr hc)))
      hfind2
    constructor
    · intro c hc b hb
      rw [update_existing_crawl_state_cons]
      rcases List.mem_cons.1 hc with rfl | hc
      · have hba : b = a := by
          rw [hid] at hb
          exact (Option.some.inj hb).symm
        subst hba
        have hframe := ihres.2 b (by
          intro hmem
          exact hnd.1 hmem)
        obtain ⟨⟨g, hg, ht⟩, h2, h3, h4⟩ := step.2.1
        refine ⟨⟨g, ?_, ht⟩, ?_, ?_, ?_⟩
        · rw [hframe.1]
          exact hg
        · intro hne
          rw [hframe.2.1]
          exact h2 hne
        · intro ri hri
          obtain ⟨rr, hrr, hall⟩ := h3 ri hri
          refine ⟨rr, ?_, hall⟩
          rw [hframe.2.2.1]
          exact hrr
        · intro lp hlp
          obtain ⟨pr, hpr, hall⟩ := h4 lp hlp
          refine ⟨pr, ?_, hall⟩
          rw [hframe.2.2.2]
          exact hpr
      · exact ihres.1 c hc b hb
    · intro b hb
      rw [hids] at hb
      have hba : b ≠ a := fun h => hb (h ▸ List.mem_cons_self _ _)
      have hbxs : b ∉ xs.filterMap crawlIdOf := fun h => hb (List.mem_cons.2 (Or.inr h))
      have hframe := ihres.2 b hbxs
      have hstepf := step.2.2 b hba
      rw [update_existing_crawl_state_cons]
      refine ⟨?_, ?_, ?_, ?_⟩
      · rw [hframe.1]
        exact hstepf.1
      · rw [hframe.2.1]
        exact hstepf.2.1
      · rw [hframe.2.2.1]
        exact hstepf.2.2.1
      · rw [hframe.2.2.2]
        exact hstepf.2.2.2

/-! ### State of the store after a bulk insert of new crawled games -/

theorem foldl_addTagRow_tags (objs : List TagRow) (db : Db) :
    (objs.foldl Db.addTag db).tags = db.tags ++ objs := by
  induction objs generalizing db with
  | nil => simp
  | cons x xs ih =>
    simp only [List.foldl_cons]
    rw [ih]
    simp [Db.addTag]

theorem foldl_addTagRow_games (objs : List TagRow) (db : Db) :
    (objs.foldl Db.addTag db).games = db.games := by
  induction objs generalizing db with
  | nil => rfl
  | cons x xs ih => simp only [List.foldl_cons]; rw [ih]; rfl

theorem foldl_addTagRow_reviews (objs : List TagRow) (db : Db) :
    (objs.foldl Db.addTag db).reviews = db.reviews := by
  induction objs generalizing db with
  | nil => rfl
  | cons x xs ih => simp only [List.foldl_cons]; rw [ih]; rfl

theorem foldl_addTagRow_pricing (objs : List TagRow) (db : Db) :
    (objs.foldl Db.addTag db).pricing = db.pricing := by
  induction objs generalizing db with
  | nil => rfl
  | cons x xs ih => simp only [List.foldl_cons]; rw [ih]; rfl

theorem foldl_addReviewRow_reviews (objs : List ReviewRow) (db : Db) :
    (objs.foldl Db.addReview db).reviews = db.reviews ++ objs := by
  induction objs generalizing db with
  | nil => simp
  | cons x xs ih =>
    simp only [List.foldl_cons]
    rw [ih]
    simp [Db.addReview]

theorem foldl_addReviewRow_games (objs : List ReviewRow) (db : Db) :
    (objs.foldl Db.addReview db).games = db.games := by
  induction objs generalizing db with
  | nil => rfl
  | cons x xs ih => simp only [List.foldl_cons]; rw [ih]; rfl

theorem foldl_addReviewRow_tags (objs : List ReviewRow) (db : Db) :
    (objs.foldl Db.addReview db).tags = db.tags := by
  induction objs generalizing db with
  | nil => rfl
  | cons x xs ih => simp only [List.foldl_cons]; rw [ih]; rfl

theorem foldl_addReviewRow_pricing (objs : List ReviewRow) (db : Db) :
    (objs.foldl Db.addReview db).pricing = db.pricing := by
  induction objs generalizing db with
  | nil => rfl
  | cons x xs ih => simp only [List.foldl_cons]; rw [ih]; rfl

theorem foldl_addPricingRow_pricing (objs : List PricingRow) (db : Db) :
    (objs.foldl Db.addPricing db).pricing = db.pricing ++ objs := by
  induction objs generalizing db with
  | nil => simp
  | cons x xs ih =>
    simp only [List.foldl_cons]
    rw [ih]
    simp [Db.addPricing]

theorem foldl_addPricingRow_games (objs : List PricingRow) (db : Db) :
    (objs.foldl Db.addPricing db).games = db.games := by
  induction objs generalizing db with
  | nil => rfl
  | cons x xs ih => simp only [List.foldl_cons]; rw [ih]; rfl

theorem foldl_addPricingRow_tags (objs : List PricingRow) (db : Db) :
    (objs.foldl Db.addPricing db).tags = db.tags := by
  induction objs generalizing db with
  | nil => rfl
  | cons x xs ih => simp only [List.foldl_cons]; rw [ih]; rfl

theorem foldl_addPricingRow_reviews (objs : List PricingRow) (db : Db) :
    (objs.foldl Db.addPricing db).reviews = db.reviews := by
  induction objs generalizing db with
  | nil => rfl
  | cons x xs ih => simp only [List.foldl_cons]; rw [ih]; rfl

/-- The tables of the store after `_bulk_insert_new_crawling_games`. -/
theorem bulk_crawl_state (now : Nat) (new : List CrawlData) (db : Db) :
    (bulk_insert_new_crawling_games now new db).2.games =
      db.games ++ (new.filterMap (fun c => (crawlIdOf c).map (fun a => (c, a)))).map
        (fun ca => ({ app_id := ca.2, title := strTake 255 ca.1.title,
                      description := crawlOnlyDescription,
                      updated_at := some (ca.1.crawled_at.getD now) } : GameRow)) ∧
    (bulk_insert_new_crawling_games now new db).2.tags =
      db.tags ++ (new.filterMap (fun c => (crawlIdOf c).map (fun a => (c, a)))).flatMap
        (fun ca => (ca.1.user_tags.enum.filterMap
          (fun ti => if !ti.2.isEmpty && !(strTrim ti.2).isEmpty then
                       some ({ app_id := ca.2, tag_name := strTake 100 (strTrim ti.2),
                               tag_order := ti.1 + 1 } : TagRow)
                     else none))) ∧
    (bulk_insert_new_crawling_games now new db).2.reviews =
      db.reviews ++ (new.filterMap (fun c => (crawlIdOf c).map (fun a => (c, a)))).filterMap
        (fun ca => (ca.1.review_info).map
          (fun ri => reviewFields ca.2 ri (ca.1.crawled_at.getD now))) ∧
    (bulk_insert_new_crawling_games now new db).2.pricing =
      db.pricing ++ (new.filterMap (fun c => (crawlIdOf c).map (fun a => (c, a)))).filterMap
        (fun ca => (ca.1.localized_price).map
          (fun lp => pricingFields ca.2 lp (ca.1.crawled_at.getD now))) := by
  unfold bulk_insert_new_crawling_games
  dsimp only
  refine ⟨?_, ?_, ?_, ?_⟩
  · rw [foldl_addPricingRow_games, foldl_addReviewRow_games, foldl_addTagRow_games,
        foldl_addGameRow_games]
  · rw [foldl_addPricingRow_tags, foldl_addReviewRow_tags, foldl_addTagRow_tags,
        foldl_addGameRow_tags]
  · rw [foldl_addPricingRow_reviews, foldl_addReviewRow_reviews, foldl_addTagRow_reviews,
        foldl_addGameRow_reviews]
  · rw [foldl_addPricingRow_pricing, foldl_addReviewRow_pricing, foldl_addTagRow_pricing,
        foldl_addGameRow_pricing]

theorem crawlWithIds_snd (new : List CrawlData) :
    ((new.filterMap (fun c => (crawlIdOf c).map (fun a => (c, a)))).map Prod.snd)
      = new.filterMap crawlIdOf := by
  induction new with
  | nil => rfl
  | cons x xs ih =>
    simp only [List.filterMap_cons]
    cases hx : crawlIdOf x with
    | none => simpa using ih
    | some a => simpa using ih

theorem crawlWithIds_mem (new : List CrawlData) (c : CrawlData) (a : Nat)
    (h : c ∈ new) (ha : crawlIdOf c = some a) :
    (c, a) ∈ new.filterMap (fun c => (crawlIdOf c).map (fun a => (c, a))) :=
  List.mem_filterMap.2 ⟨c, h, by rw [ha]; rfl⟩

theorem optRows_find_none {γ δ : Type} (f : γ × Nat → Option δ) (idOf : δ → Nat)
    (hid : ∀ ca x, f ca = some x → idOf x = ca.2)
    (ws : List (γ × Nat)) (a : Nat) (ha : a ∉ ws.map Prod.snd) :
    (ws.filterMap f).find? (fun x => idOf x == a) = none := by
  rw [List.find?_eq_none]
  intro x hx hpx
  rcases List.mem_filterMap.1 hx with ⟨ca, hca, hfx⟩
  apply ha
  have h2 : idOf x = ca.2 := hid ca x hfx
  have h3 : idOf x = a := by simpa using hpx
  rw [h3.symm.trans h2]
  exact List.mem_map.2 ⟨ca, hca, rfl⟩

theorem optRows_find {γ δ : Type} (f : γ × Nat → Option δ) (idOf : δ → Nat)
    (hid : ∀ ca x, f ca = some x → idOf x = ca.2)
    (ws : List (γ × Nat)) (hnd : (ws.map Prod.snd).Nodup)
    (r : γ) (a : Nat) (h : (r, a) ∈ ws) :
    (ws.filterMap f).find? (fun x => idOf x == a) = f (r, a) := by
  induction ws with
  | nil => exact absurd h (List.not_mem_nil _)
  | cons x xs ih =>
    simp only [List.map_cons, List.nodup_cons] at hnd
    simp only [List.filterMap_cons]
    by_cases hxa : x.2 = a
    · have hx : x = (r, a) := by
        rcases List.mem_cons.1 h with h | h
        · exact h.symm
        · exfalso
          apply hnd.1
          rw [hxa]
          exact List.mem_map.2 ⟨(r, a), h, rfl⟩
      subst hx
      have hrest : (xs.filterMap f).find? (fun x => idOf x == a) = none :=
        optRows_find_none f idOf hid xs a (by
          intro hmem
          exact hnd.1 (hxa ▸ hmem))
      cases hfx : f (r, a) with
      | none => exact hrest
      | some v =>
        simp only [List.find?_cons]
        have : (idOf v == a) = true := by
          rw [hid _ v hfx]
          simp [hxa]
        simp only [this]
    · have hmem : (r, a) ∈ xs := by
        rcases List.mem_cons.1 h with h | h
        · exact absurd (congrArg Prod.snd h.symm) hxa
        · exact h
      cases hfx : f x with
      | none => exact ih hnd.2 hmem
      | some v =>
        simp only [List.find?_cons]
        have : (idOf v == a) = false := by
          rw [hid x v hfx]
          simp [hxa]
        simp only [this]
        exact ih hnd.2 hmem

theorem tagRows_app_id (ca : CrawlData × Nat) :
    ∀ t ∈ ca.1.user_tags.enum.filterMap
      (fun ti => if !ti.2.isEmpty && !(strTrim ti.2).isEmpty then
                   some ({ app_id := ca.2, tag_name := strTake 100 (strTrim ti.2),
                           tag_order := ti.1 + 1 } : TagRow)
                 else none), t.app_id = ca.2 := by
  intro t ht
  rcases List.mem_filterMap.1 ht with ⟨ti, hti, hf⟩
  by_cases hc : (!ti.2.isEmpty && !(strTrim ti.2).isEmpty) = true
  · rw [if_pos hc] at hf
    exact (Option.some.inj hf) ▸ rfl
  · rw [if_neg hc] at hf
    exact absurd hf (by simp)

theorem tagObjs_filter_at (ws : List (CrawlData × Nat))
    (hnd : (ws.map Prod.snd).Nodup) (c : CrawlData) (a : Nat) (h : (c, a) ∈ ws) :
    (ws.flatMap (fun ca => ca.1.user_tags.enum.filterMap
      (fun ti => if !ti.2.isEmpty && !(strTrim ti.2).isEmpty then
                   some ({ app_id := ca.2, tag_name := strTake 100 (strTrim ti.2),
                           tag_order := ti.1 + 1 } : TagRow)
                 else none))).filter (fun t => t.app_id == a)
      = c.user_tags.enum.filterMap
          (fun ti => if !ti.2.isEmpty && !(strTrim ti.2).isEmpty then
                       some ({ app_id := a, tag_name := strTake 100 (strTrim ti.2),
                               tag_order := ti.1 + 1 } : TagRow)
                     else none) := by
  induction ws with
  | nil => exact absurd h (List.not_mem_nil _)
  | cons x xs ih =>
    simp only [List.map_cons, List.nodup_cons] at hnd
    simp only [List.flatMap_cons, List.filter_append]
    by_cases hxa : x.2 = a
    · have hx : x = (c, a) := by
        rcases List.mem_cons.1 h with h | h
        · exact h.symm
        · exfalso
          apply hnd.1
          rw [hxa]
          exact List.mem_map.2 ⟨(c, a), h, rfl⟩
      subst hx
      dsimp only
      have h1 : ((c.user_tags.enum.filterMap
          (fun ti => if !ti.2.isEmpty && !(strTrim ti.2).isEmpty then
                       some ({ app_id := a, tag_name := strTake 100 (strTrim ti.2),
                               tag_order := ti.1 + 1 } : TagRow)
                     else none)).filter (fun t => t.app_id == a))
          = c.user_tags.enum.filterMap
              (fun ti => if !ti.2.isEmpty && !(strTrim ti.2).isEmpty then
                           some ({ app_id := a, tag_name := strTake 100 (strTrim ti.2),
                                   tag_order := ti.1 + 1 } : TagRow)
                         else none) := by
        rw [List.filter_eq_self]
        intro t ht
        rw [tagRows_app_id (c, a) t ht]
        exact beq_self_eq_true a
      have h2 : ((xs.flatMap (fun ca => ca.1.user_tags.enum.filterMap
          (fun ti => if !ti.2.isEmpty && !(strTrim ti.2).isEmpty then
                       some ({ app_id := ca.2, tag_name := strTake 100 (strTrim ti.2),
                               tag_order := ti.1 + 1 } : TagRow)
                     else none))).filter (fun t => t.app_id == a)) = [] := by
        rw [List.filter_eq_nil_iff]
        intro t ht
        rcases List.mem_flatMap.1 ht with ⟨ca, hca, hmem⟩
        rw [tagRows_app_id ca t hmem]
        intro hc2
        apply hnd.1
        show a ∈ List.map Prod.snd xs
        have h3 : ca.2 = a := by simpa using hc2
        exact h3 ▸ List.mem_map.2 ⟨ca, hca, rfl⟩
      rw [h1, h2, List.append_nil]
    · have hmem : (c, a) ∈ xs := by
        rcases List.mem_cons.1 h with h | h
        · exact absurd (congrArg Prod.snd h.symm) hxa
        · exact h
      have h1 : ((x.1.user_tags.enum.filterMap
          (fun ti => if !ti.2.isEmpty && !(strTrim ti.2).isEmpty then
                       some ({ app_id := x.2, tag_name := strTake 100 (strTrim ti.2),
                               tag_order := ti.1 + 1 } : TagRow)
                     else none)).filter (fun t => t.app_id == a)) = [] := by
        rw [List.filter_eq_nil_iff]
        intro t ht
        rw [tagRows_app_id x t ht]
        simp [hxa]
      rw [h1, List.nil_append]
      exact ih hnd.2 hmem

theorem tagRows_pairs (c : CrawlData) (a : Nat) :
    ((c.user_tags.enum.filterMap
      (fun ti => if !ti.2.isEmpty && !(strTrim ti.2).isEmpty then
                   some ({ app_id := a, tag_name := strTake 100 (strTrim ti.2),
                           tag_order := ti.1 + 1 } : TagRow)
                 else none)).map (fun t => (t.tag_name, t.tag_order)))
      = c.user_tags.enum.filterMap
          (fun ti => if !ti.2.isEmpty && !(strTrim ti.2).isEmpty then
                       some (strTake 100 (strTrim ti.2), ti.1 + 1) else none) := by
  rw [List.map_filterMap]
  apply List.filterMap_congr
  intro ti hti
  by_cases hc : (!ti.2.isEmpty && !(strTrim ti.2).isEmpty) = true
  · rw [if_pos hc, if_pos hc]
    rfl
  · rw [if_neg hc, if_neg hc]
    rfl

/-- A bulk-inserted crawled record is fully synchronized in the resulting
store, provided the store held no rows for its id. -/
theorem bulk_crawl_synced_new (now : Nat) (new : List CrawlData) (db : Db)
    (c : CrawlData) (a : Nat)
    (hnd : (new.filterMap crawlIdOf).Nodup)
    (hmem : c ∈ new) (ha : crawlIdOf c = some a)
    (hfnone : db.findGame a = none)
    (hnotags : ∀ t ∈ db.tags, t.app_id ≠ a)
    (hnorev : ∀ r ∈ db.reviews, r.app_id ≠ a)
    (hnopri : ∀ p ∈ db.pricing, p.app_id ≠ a) :
    crawlSynced (bulk_insert_new_crawling_games now new db).2 c a := by
  have hndW : (((new.filterMap (fun c => (crawlIdOf c).map (fun a => (c, a)))).map
      Prod.snd)).Nodup := by
    rw [crawlWithIds_snd]
    exact hnd
  have hmemW := crawlWithIds_mem new c a hmem ha
  refine ⟨?_, ?_, ?_, ?_⟩
  · -- game row
    refine ⟨{ app_id := a, title := strTake 255 c.title,
              description := crawlOnlyDescription,
              updated_at := some (c.crawled_at.getD now) }, ?_, fun _ => rfl⟩
    unfold Db.findGame
    rw [(bulk_crawl_state now new db).1]
    unfold Db.findGame at hfnone
    rw [find_append_none _ _ _ hfnone]
    exact rows_map_find
      (fun ca => ({ app_id := ca.2, title := strTake 255 ca.1.title,
                    description := crawlOnlyDescription,
                    updated_at := some (ca.1.crawled_at.getD now) } : GameRow))
      (fun ca => rfl) _ hndW c a hmemW
  · -- tag set
    intro hne
    unfold existingTagPairs
    rw [(bulk_crawl_state now new db).2.1, List.filter_append]
    have h0 : db.tags.filter (fun t => t.app_id == a) = [] := by
      rw [List.filter_eq_nil_iff]
      intro t ht
      simp [hnotags t ht]
    rw [h0, List.nil_append, tagObjs_filter_at _ hndW c a hmemW, tagRows_pairs]
    exact pairSetEq_of_mem_iff _ _ (fun p => Iff.rfl)
  · -- review fields
    intro ri hri
    refine ⟨reviewFields a ri (c.crawled_at.getD now), ?_,
      fun t2 => reviewFields_not_changed a ri _ t2⟩
    unfold Db.findReview
    rw [(bulk_crawl_state now new db).2.2.1]
    have h0 : db.reviews.find? (fun r => r.app_id == a) = none := by
      rw [List.find?_eq_none]
      intro r hr
      simp [hnorev r hr]
    rw [find_append_none _ _ _ h0]
    have := optRows_find
      (fun ca => (ca.1.review_info).map
        (fun ri => reviewFields ca.2 ri (ca.1.crawled_at.getD now)))
      ReviewRow.app_id
      (by
        intro ca x hfx
        replace hfx : (ca.1.review_info).map
            (fun ri => reviewFields ca.2 ri (ca.1.crawled_at.getD now)) = some x := hfx
        cases hri2 : ca.1.review_info with
        | none => rw [hri2] at hfx; exact absurd hfx (by simp)
        | some ri2 =>
          rw [hri2] at hfx
          exact (Option.some.inj hfx) ▸ rfl)
      _ hndW c a hmemW
    rw [this]
    show (c.review_info).map
      (fun ri => reviewFields a ri (c.crawled_at.getD now)) = _
    rw [hri]
    rfl
  · -- pricing fields
    intro lp hlp
    refine ⟨pricingFields a lp (c.crawled_at.getD now), ?_,
      fun t2 => pricingFields_not_changed a lp _ t2⟩
    unfold Db.findPricing
    rw [(bulk_crawl_state now new db).2.2.2]
    have h0 : db.pricing.find? (fun p => p.app_id == a) = none := by
      rw [List.find?_eq_none]
      intro p hp
      simp [hnopri p hp]
    rw [find_append_none _ _ _ h0]
    have := optRows_find
      (fun ca => (ca.1.localized_price).map
        (fun lp => pricingFields ca.2 lp (ca.1.crawled_at.getD now)))
      PricingRow.app_id
      (by
        intro ca x hfx
        replace hfx : (ca.1.localized_price).map
            (fun lp => pricingFields ca.2 lp (ca.1.crawled_at.getD now)) = some x := hfx
        cases hlp2 : ca.1.localized_price with
        | none => rw [hlp2] at hfx; exact absurd hfx (by simp)
        | some lp2 =>
          rw [hlp2] at hfx
          exact (Option.some.inj hfx) ▸ rfl)
      _ hndW c a hmemW
    rw [this]
    show (c.localized_price).map
      (fun lp => pricingFields a lp (c.crawled_at.getD now)) = _
    rw [hlp]
    rfl

/-- The crawl bulk insert leaves every game outside the batch untouched. -/
theorem bulk_crawl_frame (now : Nat) (new : List CrawlData) (db : Db) (b : Nat)
    (hb : b ∉ new.filterMap crawlIdOf) :
    (bulk_insert_new_crawling_games now new db).2.findGame b = db.findGame b ∧
    existingTagPairs (bulk_insert_new_crawling_games now new db).2 b
      = existingTagPairs db b ∧
    (bulk_insert_new_crawling_games now new db).2.findReview b = db.findReview b ∧
    (bulk_insert_new_crawling_games now new db).2.findPricing b = db.findPricing b := by
  have hbW : b ∉ ((new.filterMap (fun c => (crawlIdOf c).map (fun a => (c, a)))).map
      Prod.snd) := by
    rw [crawlWithIds_snd]
    exact hb
  refine ⟨?_, ?_, ?_, ?_⟩
  · unfold Db.findGame
    rw [(bulk_crawl_state now new db).1]
    apply find_append_all_neg
    intro g hg
    rcases List.mem_map.1 hg with ⟨ca, hca, rfl⟩
    show (ca.2 == b) = false
    have : ca.2 ≠ b := fun h => hbW (h ▸ List.mem_map.2 ⟨ca, hca, rfl⟩)
    simp [this]
  · unfold existingTagPairs
    rw [(bulk_crawl_state now new db).2.1, List.filter_append]
    have h2 : ((new.filterMap (fun c => (crawlIdOf c).map (fun a => (c, a)))).flatMap
        (fun ca => ca.1.user_tags.enum.filterMap
          (fun ti => if !ti.2.isEmpty && !(strTrim ti.2).isEmpty then
                       some ({ app_id := ca.2, tag_name := strTake 100 (strTrim ti.2),
                               tag_order := ti.1 + 1 } : TagRow)
                     else none))).filter (fun t => t.app_id == b) = [] := by
      rw [List.filter_eq_nil_iff]
      intro t ht
      rcases List.mem_flatMap.1 ht with ⟨ca, hca, hmem⟩
      rw [tagRows_app_id ca t hmem]
      intro hc2
      apply hbW
      have : ca.2 = b := by simpa using hc2
      rw [← this]
      exact List.mem_map.2 ⟨ca, hca, rfl⟩
    rw [h2, List.append_nil]
  · unfold Db.findReview
    rw [(bulk_crawl_state now new db).2.2.1]
    apply find_append_all_neg
    intro r hr
    rcases List.mem_filterMap.1 hr with ⟨ca, hca, hfx⟩
    have hra : r.app_id = ca.2 := by
      replace hfx : (ca.1.review_info).map
          (fun ri => reviewFields ca.2 ri (ca.1.crawled_at.getD now)) = some r := hfx
      cases hri2 : ca.1.review_info with
      | none => rw [hri2] at hfx; exact absurd hfx (by simp)
      | some ri2 =>
        rw [hri2] at hfx
        exact (Option.some.inj hfx) ▸ rfl
    rw [hra]
    have : ca.2 ≠ b := fun h => hbW (h ▸ List.mem_map.2 ⟨ca, hca, rfl⟩)
    simp [this]
  · unfold Db.findPricing
    rw [(bulk_crawl_state now new db).2.2.2]
    apply find_append_all_neg
    intro p hp
    rcases List.mem_filterMap.1 hp with ⟨ca, hca, hfx⟩
    have hpa : p.app_id = ca.2 := by
      replace hfx : (ca.1.localized_price).map
          (fun lp => pricingFields ca.2 lp (ca.1.crawled_at.getD now)) = some p := hfx
      cases hlp2 : ca.1.localized_price with
      | none => rw [hlp2] at hfx; exact absurd hfx (by simp)
      | some lp2 =>
        rw [hlp2] at hfx
        exact (Option.some.inj hfx) ▸ rfl
    rw [hpa]
    have : ca.2 ≠ b := fun h => hbW (h ▸ List.mem_map.2 ⟨ca, hca, rfl⟩)
    simp [this]

/-! ### The crawling batch: state after one run, and the second run as a no-op -/

theorem crawl_batch_state (faults : List Nat) (now : Nat)
    (l : List CrawlData) (db : Db)
    (h1 : l.isEmpty = false)
    (h2 : ((dedupCrawl l).filterMap crawlIdOf).isEmpty = false) :
    (insert_steam_crawling_games_batch faults now l db).2 =
      (update_existing_crawling_games faults now
        ((dedupCrawl l).filter (fun c => match crawlIdOf c with
                                         | some b => db.hasGame b
                                         | none => false))
        (bulk_insert_new_crawling_games now
          ((dedupCrawl l).filter (not ∘ fun c => match crawlIdOf c with
                                                 | some b => db.hasGame b
                                                 | none => false)) db).2).2 := by
  unfold insert_steam_crawling_games_batch insert_steam_crawling_games_hybrid_batch
  dsimp only
  simp only [h1, h2, Bool.false_eq_true, if_false, List.partition_eq_filter_filter]
  split <;> rfl

theorem dedupCrawl_nil_of_ids_nil (l : List CrawlData)
    (h : ((dedupCrawl l).filterMap crawlIdOf).isEmpty = true) : dedupCrawl l = [] := by
  cases hd : dedupCrawl l with
  | nil => rfl
  | cons x xs =>
    exfalso
    have hx : x ∈ dedupCrawl l := by rw [hd]; exact List.mem_cons_self _ _
    obtain ⟨a, ha⟩ := dedupCrawlGo_all_some l [] x hx
    have hmem : a ∈ (dedupCrawl l).filterMap crawlIdOf := List.mem_filterMap.2 ⟨x, hx, ha⟩
    rw [List.isEmpty_iff] at h
    rw [h] at hmem
    exact List.not_mem_nil a hmem

/-- Every crawled record kept by the dedup pass of a run is fully
synchronized in the state the run commits. -/
theorem crawl_run1_synced (now : Nat) (l : List CrawlData) (db : Db)
    (hwf : db.WF)
    (hde : ∀ c ∈ l, c.dict_empty = false) :
    ∀ c ∈ dedupCrawl l, ∀ a, crawlIdOf c = some a →
      crawlSynced (insert_steam_crawling_games_batch [] now l db).2 c a := by
  intro c hc a ha
  have h1 : l.isEmpty = false := by
    cases hv : l.isEmpty
    · rfl
    · exfalso
      rw [List.isEmpty_iff] at hv
      subst hv
      exact absurd hc (List.not_mem_nil c)
  have h2 : ((dedupCrawl l).filterMap crawlIdOf).isEmpty = false := by
    cases hv : ((dedupCrawl l).filterMap crawlIdOf).isEmpty
    · rfl
    · exfalso
      rw [dedupCrawl_nil_of_ids_nil l hv] at hc
      exact absurd hc (List.not_mem_nil c)
  rw [crawl_batch_state [] now l db h1 h2]
  have hsub : ∀ x ∈ dedupCrawl l, x ∈ l := dedupCrawlGo_subset l []
  have hndAll : ((dedupCrawl l).filterMap crawlIdOf).Nodup := (dedupCrawlGo_ids_fresh l []).1
  have hndEx : (((dedupCrawl l).filter (fun c => match crawlIdOf c with
                  | some b => db.hasGame b
                  | none => false)).filterMap crawlIdOf).Nodup :=
    List.Nodup.sublist (List.Sublist.filterMap crawlIdOf (List.filter_sublist _)) hndAll
  have hndNew : (((dedupCrawl l).filter (not ∘ fun c => match crawlIdOf c with
                  | some b => db.hasGame b
                  | none => false)).filterMap crawlIdOf).Nodup :=
    List.Nodup.sublist (List.Sublist.filterMap crawlIdOf (List.filter_sublist _)) hndAll
  have hexHas : ∀ x ∈ (dedupCrawl l).filter (fun c => match crawlIdOf c with
                  | some b => db.hasGame b
                  | none => false), ∀ b, crawlIdOf x = some b → db.hasGame b = true := by
    intro x hx b hb
    have hp := (List.mem_filter.1 hx).2
    simp only [hb] at hp
    exact hp
  have hnewHasNot : ∀ b, db.hasGame b = true →
      b ∉ ((dedupCrawl l).filter (not ∘ fun c => match crawlIdOf c with
            | some b => db.hasGame b
            | none => false)).filterMap crawlIdOf := by
    intro b hbHas hmem
    rcases List.mem_filterMap.1 hmem with ⟨x, hx, hxb⟩
    have hp := (List.mem_filter.1 hx).2
    have hp2 : (!(match crawlIdOf x with
                  | some b => db.hasGame b
                  | none => false)) = true := hp
    simp only [hxb, hbHas] at hp2
    exact absurd hp2 (by simp)
  have hPost := update_existing_crawl_post now
    ((dedupCrawl l).filter (fun c => match crawlIdOf c with
       | some b => db.hasGame b
       | none => false))
    (bulk_insert_new_crawling_games now
      ((dedupCrawl l).filter (not ∘ fun c => match crawlIdOf c with
         | some b => db.hasGame b
         | none => false)) db).2
    hndEx
    (fun x hx => hde x (hsub x (List.mem_filter.1 hx).1))
    (fun x hx => dedupCrawlGo_all_some l [] x (List.mem_filter.1 hx).1)
    (by
      intro x hx b hb
      rw [(bulk_crawl_frame now _ db b (hnewHasNot b (hexHas x hx b hb))).1]
      exact (hasGame_iff_findGame db b).1 (hexHas x hx b hb))
  by_cases hpr : db.hasGame a = true
  · -- existing game: synchronized by the update phase
    have hcEx : c ∈ (dedupCrawl l).filter (fun c => match crawlIdOf c with
                  | some b => db.hasGame b
                  | none => false) := by
      refine List.mem_filter.2 ⟨hc, ?_⟩
      simp only [ha]
      exact hpr
    exact hPost.1 c hcEx a ha
  · -- new game: bulk-inserted, then untouched by the update phase
    have hprf : db.hasGame a = false := by
      cases hv : db.hasGame a
      · rfl
      · exact absurd hv hpr
    have hcNew : c ∈ (dedupCrawl l).filter (not ∘ fun c => match crawlIdOf c with
                  | some b => db.hasGame b
                  | none => false) := by
      refine List.mem_filter.2 ⟨hc, ?_⟩
      show (!(match crawlIdOf c with
              | some b => db.hasGame b
              | none => false)) = true
      simp only [ha, hprf]
      rfl
    have hfnone : db.findGame a = none := by
      cases hv : db.findGame a with
      | none => rfl
      | some e =>
        exfalso
        apply hpr
        rw [hasGame_iff_findGame, hv]
        rfl
    have hsynced := bulk_crawl_synced_new now _ db c a hndNew hcNew ha hfnone
      (fun t ht heq => hpr (heq ▸ hwf.2.1 t ht))
      (fun r hr heq => hpr (heq ▸ hwf.2.2.2 r hr))
      (fun p hp heq => hpr (heq ▸ hwf.2.2.1 p hp))
    have hnotex : a ∉ ((dedupCrawl l).filter (fun c => match crawlIdOf c with
                    | some b => db.hasGame b
                    | none => false)).filterMap crawlIdOf := by
      intro hmem
      rcases List.mem_filterMap.1 hmem with ⟨x, hx, hxa⟩
      exact hpr (hexHas x hx a hxa)
    have hframe := hPost.2 a hnotex
    obtain ⟨⟨e, hg, ht⟩, h2, h3, h4⟩ := hsynced
    refine ⟨⟨e, ?_, ht⟩, ?_, ?_, ?_⟩
    · rw [hframe.1]
      exact hg
    · intro hne
      rw [hframe.2.1]
      exact h2 hne
    · intro ri hri
      obtain ⟨rr, hrr, hall⟩ := h3 ri hri
      refine ⟨rr, ?_, hall⟩
      rw [hframe.2.2.1]
      exact hrr
    · intro lp hlp
      obtain ⟨pr, hpr2, hall⟩ := h4 lp hlp
      refine ⟨pr, ?_, hall⟩
      rw [hframe.2.2.2]
      exact hpr2

/-- When every deduplicated crawled record is already synchronized, the batch
returns the store unchanged: zero writes on the second run. -/
theorem crawl_second_run_noop (now2 : Nat) (l : List CrawlData) (db1 : Db)
    (hde : ∀ c ∈ l, c.dict_empty = false)
    (hsync : ∀ c ∈ dedupCrawl l, ∀ a, crawlIdOf c = some a → crawlSynced db1 c a) :
    insert_steam_crawling_games_batch [] now2 l db1
      = (((dedupCrawl l).length, []), db1) := by
  cases h1 : l.isEmpty with
  | true =>
    rw [List.isEmpty_iff] at h1
    subst h1
    rfl
  | false =>
    cases h2 : ((dedupCrawl l).filterMap crawlIdOf).isEmpty with
    | true =>
      have hd0 := dedupCrawl_nil_of_ids_nil l h2
      unfold insert_steam_crawling_games_batch insert_steam_crawling_games_hybrid_batch
      dsimp only
      simp only [h1, Bool.false_eq_true, if_false]
      rw [if_pos h2, hd0]
      rfl
    | false =>
      have hsub : ∀ x ∈ dedupCrawl l, x ∈ l := dedupCrawlGo_subset l []
      have hHas : ∀ x ∈ dedupCrawl l, ∀ b, crawlIdOf x = some b → db1.hasGame b = true := by
        intro x hx b hb
        obtain ⟨⟨g, hg, -⟩, -⟩ := hsync x hx b hb
        rw [hasGame_iff_findGame, hg]
        rfl
      have hfilter1 : (dedupCrawl l).filter (fun c => match crawlIdOf c with
          | some b => db1.hasGame b
          | none => false) = dedupCrawl l := by
        apply List.filter_eq_self.2
        intro x hx
        obtain ⟨b, hb⟩ := dedupCrawlGo_all_some l [] x hx
        simp only [hb]
        exact hHas x hx b hb
      have hfilter2 : (dedupCrawl l).filter (not ∘ fun c => match crawlIdOf c with
          | some b => db1.hasGame b
          | none => false) = [] := by
        rw [List.filter_eq_nil_iff]
        intro x hx
        obtain ⟨b, hb⟩ := dedupCrawlGo_all_some l [] x hx
        show ¬(!(match crawlIdOf x with
                 | some b => db1.hasGame b
                 | none => false)) = true
        simp only [hb, hHas x hx b hb]
        simp
      unfold insert_steam_crawling_games_batch insert_steam_crawling_games_hybrid_batch
      dsimp only
      simp only [h1, h2, Bool.false_eq_true, if_false, List.partition_eq_filter_filter]
      rw [hfilter1, hfilter2]
      rw [show bulk_insert_new_crawling_games now2 ([] : List CrawlData) db1
            = ((0, []), db1) from rfl]
      rw [update_existing_crawl_noop now2 (dedupCrawl l) db1
        (fun c hc => hde c (hsub c hc))
        (fun c hc => by
          obtain ⟨b, hb⟩ := dedupCrawlGo_all_some l [] c hc
          exact ⟨b, hb, hsync c hc b hb⟩)]
      simp

/-- Composition: run the crawling batch twice on the same input; the second
run returns the first run's store unchanged. -/
theorem crawl_batch_idempotent (now1 now2 : Nat)
    (l : List CrawlData) (db : Db) (hwf : db.WF)
    (hde : ∀ c ∈ l, c.dict_empty = false) :
    insert_steam_crawling_games_batch [] now2 l
        (insert_steam_crawling_games_batch [] now1 l db).2
      = (((dedupCrawl l).length, []),
         (insert_steam_crawling_games_batch [] now1 l db).2) :=
  crawl_second_run_noop now2 l _ hde (crawl_run1_synced now1 l db hwf hde)

/-! ## Claim C2 -/

/-- A genre name of 51 characters: it is stored truncated to 50, but compared
untruncated on every later run. -/
def c2longGenre : String := "AAAAAAAAAAAAAAAAAAAAAAAAAAAAAAAAAAAAAAAAAAAAAAAAAAA"

def c2rec : ApiRecord := { steam_appid := some 5, name := "G", genres := [c2longGenre] }

def c2wrec : ApiRecord := { steam_appid := some 9, name := "W", genres := ["RPG"] }

def c2wcrawl : CrawlData :=
  { app_id := some 9, title := "W", crawled_at := some 4, user_tags := ["rpg"],
    review_info := some { recent_reviews := "Positive" },
    localized_price := some { current_price := "$5" } }

set_option maxRecDepth 400000 in
/-- C2 (counterexample): a record whose genre name is 51 characters long is
NEVER idempotent: the first run stores the name truncated to 50 characters,
the second run compares the stored (truncated) set with the incoming
(untruncated) set, finds both a deletion and an insertion, and performs 2
writes — the genre row is deleted and re-inserted on every run. -/
theorem c2_counterexample :
    strTake 50 c2longGenre ≠ c2longGenre ∧
    (insert_steam_api_games_batch idConverters [] 2 [c2rec]
        (insert_steam_api_games_batch idConverters [] 1 [c2rec] Db.empty).2).2.writes
      = (insert_steam_api_games_batch idConverters [] 1 [c2rec] Db.empty).2.writes + 2 ∧
    (insert_steam_api_games_batch idConverters [] 1 [c2rec] Db.empty).2.writes ≠
      (insert_steam_api_games_batch idConverters [] 2 [c2rec]
        (insert_steam_api_games_batch idConverters [] 1 [c2rec] Db.empty).2).2.writes := by
  exact ⟨by decide, by decide, by decide⟩

/-- C2 (amended): running either batch entry point a second time with the
identical input performs zero writes — the second run returns the first run's
store UNCHANGED and counts every deduplicated record as processed — PROVIDED
the store satisfies the schema's foreign keys, the records are non-empty
dicts, no session fault occurs, and (for the API batch) every genre name
survives the 50-character truncation; a longer genre name breaks idempotence
on every run, as the counterexample shows. -/
theorem c2_second_run_zero_writes (cv : Converters) (now1 now2 : Nat) (db : Db)
    (hwf : db.WF) :
    (∀ l : List ApiRecord,
      (∀ r ∈ l, r.dict_empty = false) →
      (∀ r ∈ l, ∀ n ∈ r.genres, ¬n.isEmpty → strTake 50 n = n) →
      insert_steam_api_games_batch cv [] now2 l
          (insert_steam_api_games_batch cv [] now1 l db).2
        = (((dedupApi l).length, []),
           (insert_steam_api_games_batch cv [] now1 l db).2)) ∧
    (∀ l : List CrawlData,
      (∀ c ∈ l, c.dict_empty = false) →
      insert_steam_crawling_games_batch [] now2 l
          (insert_steam_crawling_games_batch [] now1 l db).2
        = (((dedupCrawl l).length, []),
           (insert_steam_crawling_games_batch [] now1 l db).2)) := by
  constructor
  · intro l hde htr
    exact api_batch_idempotent cv now1 now2 l db hwf hde htr
  · intro l hde
    exact crawl_batch_idempotent now1 now2 l db hwf hde

set_option maxRecDepth 400000 in
/-- Witness for C2's amended theorem: one API record (short genre name) and
one crawled record; the second run of each batch returns the first run's
store unchanged. -/
theorem c2_second_run_zero_writes_witness :
    Db.empty.WF ∧
    insert_steam_api_games_batch idConverters [] 2 [c2wrec]
        (insert_steam_api_games_batch idConverters [] 1 [c2wrec] Db.empty).2
      = ((1, []), (insert_steam_api_games_batch idConverters [] 1 [c2wrec] Db.empty).2) ∧
    insert_steam_crawling_games_batch [] 2 [c2wcrawl]
        (insert_steam_crawling_games_batch [] 1 [c2wcrawl] Db.empty).2
      = ((1, []), (insert_steam_crawling_games_batch [] 1 [c2wcrawl] Db.empty).2) := by
  refine ⟨by decide, ?_, ?_⟩
  · rw [(c2_second_run_zero_writes idConverters 1 2 Db.empty (by decide)).1
      [c2wrec] (by decide) (by decide)]
    rw [show (dedupApi [c2wrec]).length = 1 from by decide]
  · rw [(c2_second_run_zero_writes idConverters 1 2 Db.empty (by decide)).2
      [c2wcrawl] (by decide)]
    rw [show (dedupCrawl [c2wcrawl]).length = 1 from by decide]

end SteamGameCrawling
